import Mathlib

/-!
HoopHub data-normalization layer: a shallow embedding.

The functions of `src/api/index.js` and `src/api/youtube.js` are embedded as Lean functions
over a small model of JavaScript values.

Modelling conventions
* A JavaScript value is a `JVal`; a parsed JSON object is the finite map of its own
  properties (an association list whose first binding of a key is the property; `JSON.parse`
  makes every key, `__proto__` included, an own property), arrays are lists.  A fixed
  property name the embedded code reads from parsed data is no name of a built-in, so the
  read is an own-property lookup.
* An object the code builds from the literal `{}` and fills by computed keys is a `PlainObj`:
  its own properties and its prototype.  A read follows the prototype chain (`PlainObj.get`)
  and can reach a built-in of the runtime (`JVal.native`); an assignment to the key
  `__proto__` goes to the accessor of `Object.prototype` and replaces the prototype instead
  of storing a property (`PlainObj.set`).
* Numbers are IEEE-754 doubles.  A number with an integer value is carried by that integer
  (`JVal.num`, `JsNum.int`); every integer up to `2^53` in magnitude is a double, and beyond
  that `parseInt`, `+` and `*` round to the nearest double (`roundInt`), which is again an
  integer or an infinity (`JsNum.inf`).  `JsNum.nan` is the value `NaN`.  Other numbers are
  doubles (`Dbl`): an exact dyadic value, with every quotient and decimal literal rounded to
  the nearest double.
* A `TypeError` raised by the JavaScript runtime (property access on `undefined`/`null`,
  calling something that is not a function) is `JsError.typeError`; a failed HTTP call is
  `JsError.upstream`.  Code that can raise returns `Except JsError _`.
* `async` functions are modelled by explicit state passing over a `World` that holds the
  persistent cache entry and counters of the upstream calls issued so far.
-/

namespace HoopHub

/-! ## JavaScript numbers as IEEE-754 doubles -/

/-- A JavaScript number as a value: `NaN`, an infinity, or the finite value `± m / 2^k`
(`fin true 0 _` is the negative zero). -/
inductive Dbl where
  | nan
  | inf (neg : Bool)
  | fin (neg : Bool) (m k : Nat)
  deriving DecidableEq, Repr

/-- Rounding of the quotient `n / d` to the nearest integer, ties to even. -/
def roundHalfEven (n d : Nat) : Nat :=
  if d < 2 * (n % d) ∨ (2 * (n % d) = d ∧ (n / d) % 2 = 1) then n / d + 1 else n / d

/-- Floor of the binary logarithm of `n`, by halving (`fuel` bounds the number of halvings;
`log2Floor n n` is the logarithm). -/
def log2Floor : Nat → Nat → Nat
  | 0, _ => 0
  | fuel + 1, n => if 2 ≤ n then log2Floor fuel (n / 2) + 1 else 0

/-- The binary exponent `E` of the double nearest to `p / q` (for `p, q > 0`): the spacing of
doubles around `p / q` is `2^E`; `E = floor(log2 (p / q)) - 52`, at least `-1074`. -/
def doubleExponent (p q : Nat) : Int :=
  let l : Int := (log2Floor p p : Int) - (log2Floor q q : Int)
  let ge : Bool := if 0 ≤ l then decide (q * 2 ^ l.toNat ≤ p) else decide (q ≤ p * 2 ^ (-l).toNat)
  let L : Int := if ge then l else l - 1
  max (L - 52) (-1074)

/-- The double nearest to `± p / q` (round to nearest, ties to even), the rounding every
arithmetic operation and every conversion of a decimal literal performs. -/
def roundToDouble (neg : Bool) (p q : Nat) : Dbl :=
  if p = 0 ∨ q = 0 then Dbl.fin neg 0 0
  else
    let E := doubleExponent p q
    let mant := roundHalfEven (p * 2 ^ (-E).toNat) (q * 2 ^ E.toNat)
    if 0 ≤ E then
      if 2 ^ 1024 ≤ mant * 2 ^ E.toNat then Dbl.inf neg else Dbl.fin neg (mant * 2 ^ E.toNat) 0
    else Dbl.fin neg mant (-E).toNat

/-- Equality of the values of two finite magnitudes `m1 / 2^k1` and `m2 / 2^k2`. -/
def sameMagnitude (m1 k1 m2 k2 : Nat) : Bool := decide (m1 * 2 ^ k2 = m2 * 2 ^ k1)

/-- Whether the decimal `s * 10^a / 10^b` rounds to the double `m / 2^k`. -/
def roundsTo (s a b m k : Nat) : Bool :=
  match roundToDouble false (s * 10 ^ a) (10 ^ b) with
  | Dbl.fin _ m1 k1 => sameMagnitude m1 k1 m k
  | _ => false

/-- Search for the least `j` with `m * 10^(j+1) ≥ 2^k`, from `j` on. -/
def leadingZeros (m k : Nat) : Nat → Nat → Nat
  | 0, j => j
  | fuel + 1, j => if 2 ^ k ≤ m * 10 ^ (j + 1) then j else leadingZeros m k fuel (j + 1)

/-- The decimal exponent `n` of `m / 2^k > 0`: `10^(n-1) ≤ m / 2^k < 10^n`. -/
def decimalExponent (m k : Nat) : Int :=
  if 2 ^ k ≤ m then ((toString (m / 2 ^ k)).length : Int)
  else - (leadingZeros m k (k + 1) 0 : Int)

/-- The shortest decimal digits that read back as `m / 2^k > 0`: the digit string and the
decimal exponent `n` (the value is `0.d1d2... * 10^n`), trying 1, 2, ... digits. -/
def shortestDigits (m k : Nat) : Nat → Nat → String × Int
  | 0, _ => (toString m, decimalExponent m k)
  | fuel + 1, kk =>
    let n := decimalExponent m k
    let a := ((kk : Int) - n).toNat
    let b := (n - (kk : Int)).toNat
    let num := m * 10 ^ a
    let den := 2 ^ k * 10 ^ b
    let lo := num / den
    let hi := lo + 1
    let okLo := decide (10 ^ (kk - 1) ≤ lo) && roundsTo lo b a m k
    let okHi := roundsTo hi b a m k
    let pickHi : Bool :=
      okHi && (!okLo || decide (den < 2 * (num % den))
        || (decide (2 * (num % den) = den) && decide (hi % 2 = 0)))
    if pickHi then
      if hi = 10 ^ kk then ("1", n + 1) else (toString hi, n)
    else if okLo then (toString lo, n)
    else shortestDigits m k fuel (kk + 1)

/-- The text of a positive finite magnitude, `Number::toString`. -/
def magnitudeToString (m k : Nat) : String :=
  let r := shortestDigits m k 17 1
  let ds := r.1.data
  let kk : Int := ds.length
  let n := r.2
  if kk ≤ n ∧ n ≤ 21 then String.mk (ds ++ List.replicate (n - kk).toNat '0')
  else if 0 < n ∧ n ≤ 21 then String.mk (ds.take n.toNat ++ '.' :: ds.drop n.toNat)
  else if -6 < n ∧ n ≤ 0 then String.mk ('0' :: '.' :: List.replicate (-n).toNat '0' ++ ds)
  else
    let e := n - 1
    let es := (if 0 ≤ e then "+" else "-") ++ toString e.natAbs
    match ds with
    | [d] => String.mk [d] ++ "e" ++ es
    | d :: rest => String.mk (d :: '.' :: rest) ++ "e" ++ es
    | [] => "0"

/-- The conversion `Number::toString` (radix 10). -/
def numberToString : Dbl → String
  | Dbl.nan => "NaN"
  | Dbl.inf false => "Infinity"
  | Dbl.inf true => "-Infinity"
  | Dbl.fin neg m k =>
    if m = 0 then "0"
    else if neg then "-" ++ magnitudeToString m k else magnitudeToString m k

/-- The method `toFixed(1)`: the integer `n` nearest to ten times the magnitude (the larger
one at a tie) printed with one digit after the point; magnitudes of `10^21` or more print as
`Number::toString` does. -/
def toFixed1 : Dbl → String
  | Dbl.nan => "NaN"
  | Dbl.inf false => "Infinity"
  | Dbl.inf true => "-Infinity"
  | Dbl.fin neg m k =>
    if 10 ^ 21 * 2 ^ k ≤ m then numberToString (Dbl.fin neg m k)
    else
      let n := (20 * m + 2 ^ k) / (2 * 2 ^ k)
      let s := toString (n / 10) ++ "." ++ toString (n % 10)
      if neg ∧ m ≠ 0 then "-" ++ s else s

/-! ## JavaScript values -/

/-- A JavaScript value as it comes out of `JSON.parse` (plus `undefined`).  `num n` is a number
with the integer value `n`; `dbl x` is any other number, given as a double; `native name` is a
built-in function or prototype object of the runtime, which no JSON text denotes and a read
through a prototype chain can return. -/
inductive JVal where
  | undefined
  | null
  | bool (b : Bool)
  | num (n : Int)
  | str (s : String)
  | arr (xs : List JVal)
  | obj (kvs : List (String × JVal))
  | dbl (x : Dbl)
  | native (name : String)

/-- A JavaScript number computed by the embedded code: `NaN`, a number with an integer
value, or an infinity. -/
inductive JsNum where
  | nan
  | int (n : Int)
  | inf (neg : Bool)
  deriving DecidableEq, Repr

/-- The JavaScript number nearest to the integer `n`.  Every integer up to `2^53` in
magnitude is a double; beyond that the nearest double (ties to even) is again an integer, or
an infinity from `2^1024` on. -/
def roundInt (n : Int) : JsNum :=
  if n.natAbs ≤ 2 ^ 53 then JsNum.int n
  else
    match roundToDouble (decide (n < 0)) n.natAbs 1 with
    | Dbl.fin neg m k =>
      JsNum.int (if neg then - ((m / 2 ^ k : Nat) : Int) else ((m / 2 ^ k : Nat) : Int))
    | Dbl.inf neg => JsNum.inf neg
    | Dbl.nan => JsNum.nan

/-- The text `Number::toString` gives a number with the integer value `n`: its decimal
numeral up to `2^53` in magnitude, beyond that the shortest digits that read back as the
double nearest to `n` (exponent form from `10^21` on). -/
def intText (n : Int) : String :=
  if n.natAbs ≤ 2 ^ 53 then toString n
  else numberToString (roundToDouble (decide (n < 0)) n.natAbs 1)

/-- Errors a call can raise. -/
inductive JsError where
  | typeError
  | upstream (msg : String)
  deriving DecidableEq, Repr

namespace JVal

/-- Own-property lookup in the bindings of an object; a missing key reads `undefined`. -/
def lookup (k : String) : List (String × JVal) → JVal
  | [] => undefined
  | (k1, v) :: rest => if k1 = k then v else lookup k rest

/-- Whether a key is bound. -/
def hasKey (k : String) : List (String × JVal) → Bool
  | [] => false
  | (k1, _) :: rest => if k1 = k then true else hasKey k rest

/-- Assignment `o[k] = v`: overwrite the binding of `k`, or add one at the end. -/
def setProp (k : String) (v : JVal) : List (String × JVal) → List (String × JVal)
  | [] => [(k, v)]
  | (k1, v1) :: rest => if k1 = k then (k1, v) :: rest else (k1, v1) :: setProp k v rest

/-- JavaScript truthiness (`!!v`). -/
def truthy : JVal → Bool
  | undefined => false
  | null => false
  | bool b => b
  | num n => n != 0
  | str s => s != ""
  | arr _ => true
  | obj _ => true
  | dbl (Dbl.fin _ m _) => m != 0
  | dbl Dbl.nan => false
  | dbl (Dbl.inf _) => true
  | native _ => true

/-- Whether the value is `undefined` or `null`. -/
def isNullish : JVal → Bool
  | undefined => true
  | null => true
  | _ => false

/-- The operator `a || b`. -/
def or (a b : JVal) : JVal := if a.truthy then a else b

/-- Number of UTF-16 code units of a string (`s.length` in JavaScript). -/
def utf16Length (s : String) : Nat :=
  (s.data.map (fun c => if c.toNat < 65536 then 1 else 2)).sum

/-- Property read `v.k` for a fixed name `k` that is no name of a built-in: raises on
`undefined`/`null`. -/
def getProp (v : JVal) (k : String) : Except JsError JVal :=
  match v with
  | undefined => throw JsError.typeError
  | null => throw JsError.typeError
  | obj kvs => pure (lookup k kvs)
  | arr xs => pure (if k = "length" then num xs.length else undefined)
  | str s => pure (if k = "length" then num (utf16Length s) else undefined)
  | _ => pure undefined

/-- Optional chaining `v?.k`: `undefined` on `undefined`/`null`, never raises. -/
def getOpt (v : JVal) (k : String) : JVal :=
  match v with
  | obj kvs => lookup k kvs
  | arr xs => if k = "length" then num xs.length else undefined
  | str s => if k = "length" then num (utf16Length s) else undefined
  | _ => undefined

/-- Optional indexing `v?.[i]`.  For a string this is its `i`-th character (code units and
code points coincide on the Basic Multilingual Plane). -/
def idxOpt (v : JVal) (i : Nat) : JVal :=
  match v with
  | arr xs => xs.getD i undefined
  | obj kvs => lookup (toString i) kvs
  | str s => match s.data.get? i with
    | some c => str (String.mk [c])
    | none => undefined
  | _ => undefined

/-- The text of a built-in: a function prints its source form, the object
`Object.prototype` prints as any plain object. -/
def nativeText (name : String) : String :=
  if name = "Object.prototype" then "[object Object]"
  else "function " ++ name ++ "() \x7b [native code] \x7d"

mutual
/-- The abstract operation `ToString`, also the conversion of a value to a property key. -/
def toStr : JVal → String
  | undefined => "undefined"
  | null => "null"
  | bool true => "true"
  | bool false => "false"
  | num n => intText n
  | str s => s
  | arr xs => joinStr xs
  | obj _ => "[object Object]"
  | dbl x => numberToString x
  | native name => nativeText name
/-- The method `Array.prototype.join` with separator `","`. -/
def joinStr : List JVal → String
  | [] => ""
  | [x] => elemStr x
  | x :: y :: rest => elemStr x ++ "," ++ joinStr (y :: rest)
/-- An array element inside `join`: `undefined` and `null` print as the empty string. -/
def elemStr : JVal → String
  | undefined => ""
  | null => ""
  | bool true => "true"
  | bool false => "false"
  | num n => intText n
  | str s => s
  | arr xs => joinStr xs
  | obj _ => "[object Object]"
  | dbl x => numberToString x
  | native name => nativeText name
end

/-- Strict equality `v === s` against a string literal. -/
def strictEqStr (v : JVal) (s : String) : Bool :=
  match v with
  | str t => t == s
  | _ => false

end JVal

open JVal

/-- Lowering of a string, `String.prototype.toLowerCase`.  Only the ASCII letters are mapped.
JavaScript also lowers letters outside ASCII, but no string holding a character outside ASCII
lowers to `pre`, `in` or `post`, so the comparisons made by `parseGameStatus` are the same. -/
def toLowerCase (s : String) : String := String.mk (s.data.map Char.toLower)

/-- Monadic map with the left-to-right, stop-at-first-error order of `Array.prototype.map`
with a callback that may raise. -/
def mapE {α β : Type} (f : α → Except JsError β) : List α → Except JsError (List β)
  | [] => pure []
  | a :: as => do
    let b ← f a
    let bs ← mapE f as
    pure (b :: bs)

/-! ## Objects built from the literal `{}` -/

/-- The prototype of an object built from `{}`: `Object.prototype` at first; `null` or a
value (an object or an array of the parsed data) once an assignment to `__proto__` went
through the accessor. -/
inductive Proto where
  | objectPrototype
  | null
  | value (v : JVal)

/-- An object built from the literal `{}`: its own properties and its prototype. -/
structure PlainObj where
  own : List (String × JVal)
  proto : Proto

/-- The literal `{}`. -/
def PlainObj.empty : PlainObj := { own := [], proto := Proto.objectPrototype }

/-- The names of the function properties of `Object.prototype`. -/
def objectPrototypeNames : List String :=
  ["constructor", "__defineGetter__", "__defineSetter__", "hasOwnProperty",
   "__lookupGetter__", "__lookupSetter__", "isPrototypeOf", "propertyIsEnumerable",
   "toString", "valueOf", "toLocaleString"]

/-- The names of the function properties of `Array.prototype`. -/
def arrayPrototypeNames : List String :=
  ["at", "concat", "constructor", "copyWithin", "entries", "every", "fill", "filter", "find",
   "findIndex", "findLast", "findLastIndex", "flat", "flatMap", "forEach", "includes",
   "indexOf", "join", "keys", "lastIndexOf", "map", "pop", "push", "reduce", "reduceRight",
   "reverse", "shift", "slice", "some", "sort", "splice", "toLocaleString", "toReversed",
   "toSorted", "toSpliced", "toString", "unshift", "values", "with"]

/-- A read that reached `Object.prototype`: the accessor `__proto__` answers with the
prototype `p` of the object the read started from, a function name with that function, any
other name with `undefined`. -/
def objectPrototypeRead (k : String) (p : JVal) : JVal :=
  if k = "__proto__" then p
  else if k ∈ objectPrototypeNames then native k
  else undefined

/-- The element of an array under the key `k`, when `k` is the numeral of an index. -/
def arrayIndexRead (k : String) (xs : List JVal) : Option JVal :=
  match (List.range xs.length).find? (fun i => toString i = k) with
  | some i => some (xs.getD i undefined)
  | none => none

/-- The read `o[k]`: the own property when there is one, else what the prototype chain
answers.  A parsed object put in place as prototype answers with its own properties before
`Object.prototype` does, an array with its length and elements before `Array.prototype`. -/
def PlainObj.get (k : String) (o : PlainObj) : JVal :=
  if hasKey k o.own then lookup k o.own
  else
    match o.proto with
    | Proto.null => undefined
    | Proto.objectPrototype => objectPrototypeRead k (native "Object.prototype")
    | Proto.value (obj kvs) =>
      if hasKey k kvs then lookup k kvs else objectPrototypeRead k (obj kvs)
    | Proto.value (arr xs) =>
      if k = "length" then num xs.length
      else
        match arrayIndexRead k xs with
        | some v => v
        | none =>
          if k ∈ arrayPrototypeNames then native k else objectPrototypeRead k (arr xs)
    | Proto.value v => objectPrototypeRead k v

/-- Whether an assignment to `__proto__` that finds no own property reaches the accessor of
`Object.prototype`: not when the prototype is `null`, and not when a parsed object in the
chain has an own property of that name. -/
def Proto.reachesAccessor : Proto → Bool
  | Proto.objectPrototype => true
  | Proto.null => false
  | Proto.value (obj kvs) => !hasKey "__proto__" kvs
  | Proto.value _ => true

/-- The assignment `o[k] = v`.  For every key but `__proto__` it writes the own property.
For `__proto__` with no own property of that name it calls the accessor when the chain
reaches it: an object, an array or `null` becomes the prototype and any other value is
ignored. -/
def PlainObj.set (k : String) (v : JVal) (o : PlainObj) : PlainObj :=
  if k = "__proto__" ∧ hasKey k o.own = false ∧ o.proto.reachesAccessor = true then
    match v with
    | obj _ => { o with proto := Proto.value v }
    | arr _ => { o with proto := Proto.value v }
    | native _ => { o with proto := Proto.value v }
    | JVal.null => { o with proto := Proto.null }
    | _ => o
  else { o with own := setProp k v o.own }

/-! ## `parseInt` with radix 10 -/

/-- The characters `parseInt` skips at the start of its input (`StrWhiteSpaceChar`). -/
def isStrWhiteSpace (c : Char) : Bool :=
  let n := c.toNat
  n = 9 || n = 10 || n = 11 || n = 12 || n = 13 || n = 32 || n = 160 || n = 5760
    || (8192 ≤ n && n ≤ 8202) || n = 8232 || n = 8233 || n = 8239 || n = 8287
    || n = 12288 || n = 65279

/-- Value of a list of decimal digits. -/
def digitsValue (ds : List Char) : Nat :=
  ds.foldl (fun acc c => 10 * acc + (c.toNat - 48)) 0

/-- The optional sign read by `parseInt`: whether it is `-`, and the text after it. -/
def splitSign (t : List Char) : Bool × List Char :=
  match t with
  | '-' :: r => (true, r)
  | '+' :: r => (false, r)
  | _ => (false, t)

/-- The function `parseInt(s, 10)` on a string: skip white space, read an optional sign, then
the longest prefix of decimal digits; `NaN` when there is none.  The result is the number
nearest to the integer the digits denote. -/
def parseIntStr (s : String) : JsNum :=
  let signed := splitSign (s.data.dropWhile isStrWhiteSpace)
  match signed.2.takeWhile Char.isDigit with
  | [] => JsNum.nan
  | z => roundInt (if signed.1 then - (digitsValue z : Int) else (digitsValue z : Int))

/-- The function `parseInt(v, 10)`: the argument is first converted with `ToString`. -/
def parseInt (v : JVal) : JsNum := parseIntStr v.toStr

/-- Whether a number is an integer that is at least zero, or `+Infinity`. -/
def JsNum.isCount : JsNum → Bool
  | JsNum.nan => false
  | JsNum.int n => decide (0 ≤ n)
  | JsNum.inf neg => !neg

/-- Whether a number is an integer that is at least zero. -/
def JsNum.isNonnegInt : JsNum → Bool
  | JsNum.nan => false
  | JsNum.int n => decide (0 ≤ n)
  | JsNum.inf _ => false

/-! ## Scoreboard normalizer (`src/api/index.js`) -/

/-- The function `parseGameStatus` (index.js 263-274): `state?.toLowerCase()` is `undefined`
for an absent state, raises when `state` is neither absent nor a string. -/
def parseGameStatus (state : JVal) : Except JsError String :=
  match state with
  | undefined => pure "unknown"
  | null => pure "unknown"
  | str s =>
    if toLowerCase s = "pre" then pure "scheduled"
    else if toLowerCase s = "in" then pure "live"
    else if toLowerCase s = "post" then pure "final"
    else pure "unknown"
  | _ => throw JsError.typeError

/-- One side of a game. -/
structure TeamSide where
  id : JVal
  name : JVal
  abbreviation : JVal
  logo : JVal
  color : JVal
  score : JsNum

/-- A normalized game. -/
structure Game where
  id : JVal
  date : JVal
  name : JVal
  shortName : JVal
  status : String
  statusDetail : JVal
  period : JVal
  clock : JVal
  venue : JVal
  homeTeam : TeamSide
  awayTeam : TeamSide

/-- The callback search `cs.find((c) => c.homeAway === side)`: the first competitor marked
`side`, `undefined` when there is none; raises when an element before it is nullish. -/
def findCompetitor (side : String) : List JVal → Except JsError JVal
  | [] => pure undefined
  | c :: cs => do
    let ha ← getProp c "homeAway"
    if ha.strictEqStr side then pure c else findCompetitor side cs

/-- The expression `competition?.competitors?.find((c) => c.homeAway === side)`
(index.js 229-230). -/
def findSide (competition : JVal) (side : String) : Except JsError JVal :=
  match getOpt competition "competitors" with
  | undefined => pure undefined
  | null => pure undefined
  | arr cs => findCompetitor side cs
  | _ => throw JsError.typeError

/-- The object literal built for a side from its competitor `c` (index.js 243-250 for home,
251-258 for away; the two literals are the same up to the competitor). -/
def teamSide (c : JVal) : TeamSide :=
  { id := getOpt (getOpt c "team") "id"
    name := getOpt (getOpt c "team") "displayName"
    abbreviation := getOpt (getOpt c "team") "abbreviation"
    logo := getOpt (getOpt c "team") "logo"
    color := getOpt (getOpt c "team") "color"
    score := parseInt ((getOpt c "score").or (str "0")) }

/-- The callback of `data.events.map` (index.js 227-260). -/
def parseEvent (event : JVal) : Except JsError Game := do
  let competitions ← getProp event "competitions"
  let competition := idxOpt competitions 0
  let homeTeam ← findSide competition "home"
  let awayTeam ← findSide competition "away"
  let status := getOpt (getOpt event "status") "type"
  let st ← parseGameStatus (getOpt status "state")
  pure
    { id := getOpt event "id"
      date := getOpt event "date"
      name := getOpt event "name"
      shortName := getOpt event "shortName"
      status := st
      statusDetail :=
        ((getOpt status "shortDetail").or (getOpt status "description")).or (str "")
      period := (getOpt (getOpt event "status") "period").or (num 0)
      clock := (getOpt (getOpt event "status") "displayClock").or (str "")
      venue := (getOpt (getOpt competition "venue") "fullName").or (str "")
      homeTeam := teamSide homeTeam
      awayTeam := teamSide awayTeam }

/-- The function `parseESPNGames` (index.js 224-261). -/
def parseESPNGames (data : JVal) : Except JsError (List Game) := do
  let events ← getProp data "events"
  if events.truthy then
    match events with
    | arr es => mapE parseEvent es
    | _ => throw JsError.typeError
  else pure []

/-! ## Video feed provider (`src/api/youtube.js`) -/

/-- Addition of JavaScript numbers: the exact sum rounded to the nearest number; `NaN` is
absorbing and infinities of opposite sign add up to `NaN`. -/
def JsNum.add : JsNum → JsNum → JsNum
  | JsNum.int a, JsNum.int b => roundInt (a + b)
  | JsNum.inf s, JsNum.int _ => JsNum.inf s
  | JsNum.int _, JsNum.inf s => JsNum.inf s
  | JsNum.inf s, JsNum.inf t => if s = t then JsNum.inf s else JsNum.nan
  | _, _ => JsNum.nan

/-- Multiplication of JavaScript numbers: the exact product rounded to the nearest number;
`NaN` is absorbing and an infinity times zero is `NaN`. -/
def JsNum.mul : JsNum → JsNum → JsNum
  | JsNum.int a, JsNum.int b => roundInt (a * b)
  | JsNum.inf s, JsNum.int b =>
    if b = 0 then JsNum.nan else JsNum.inf (xor s (decide (b < 0)))
  | JsNum.int a, JsNum.inf s =>
    if a = 0 then JsNum.nan else JsNum.inf (xor s (decide (a < 0)))
  | JsNum.inf s, JsNum.inf t => JsNum.inf (xor s t)
  | _, _ => JsNum.nan

/-- The comparison `x < k` of JavaScript numbers: false as soon as one side is `NaN`. -/
def JsNum.lt : JsNum → JsNum → Bool
  | JsNum.int a, JsNum.int b => decide (a < b)
  | JsNum.inf s, JsNum.int _ => s
  | JsNum.int _, JsNum.inf s => !s
  | JsNum.inf s, JsNum.inf t => s && !t
  | _, _ => false

/-- The capture groups 1, 2, 3 of a successful match of the duration pattern. -/
structure DurationMatch where
  hours : Option (List Char)
  minutes : Option (List Char)
  seconds : Option (List Char)
  deriving DecidableEq, Repr

/-- One optional group `(?:(\d+)c)?` tried at the head of `s`: the captured digits when the
group matches, and the text left.  The greedy `\d+` takes the whole run of digits; giving
digits back never helps because the character wanted next is the letter `c`, so the group
matches exactly when a non-empty run of digits is followed by `c`. -/
def optGroup (c : Char) (s : List Char) : Option (List Char) × List Char :=
  match s.takeWhile Char.isDigit, s.dropWhile Char.isDigit with
  | d :: ds, c1 :: rest => if c1 = c then (some (d :: ds), rest) else (none, s)
  | _, _ => (none, s)

/-- The pattern `PT(?:(\d+)H)?(?:(\d+)M)?(?:(\d+)S)?` tried at the head of `s`.  After `PT`
every part is optional, so the attempt succeeds as soon as `s` starts with `PT`. -/
def matchHere (s : List Char) : Option DurationMatch :=
  match s with
  | 'P' :: 'T' :: r0 =>
    let h := optGroup 'H' r0
    let m := optGroup 'M' h.2
    let sec := optGroup 'S' m.2
    some { hours := h.1, minutes := m.1, seconds := sec.1 }
  | _ => none

/-- The call `duration.match(/PT(?:(\d+)H)?(?:(\d+)M)?(?:(\d+)S)?/)`: the pattern carries no
anchor, so it is tried at every start position from the left and the first success wins. -/
def durationMatch : List Char → Option DurationMatch
  | [] => none
  | c :: cs =>
    match matchHere (c :: cs) with
    | some m => some m
    | none => durationMatch cs

/-- A capture group as a JavaScript value: the matched text, or `undefined`. -/
def capture (g : Option (List Char)) : JVal :=
  match g with
  | some ds => str (String.mk ds)
  | none => undefined

/-- The expression `hours * 3600 + minutes * 60 + seconds` (youtube.js 134). -/
def durationSum (hours minutes seconds : JsNum) : JsNum :=
  ((hours.mul (JsNum.int 3600)).add (minutes.mul (JsNum.int 60))).add seconds

/-- The function `parseDuration` (youtube.js 126-135).  A truthy argument that is not a
string has no `match` method, so the call raises. -/
def parseDuration (duration : JVal) : Except JsError JsNum :=
  if duration.truthy then
    match duration with
    | str s =>
      match durationMatch s.data with
      | none => pure (JsNum.int 0)
      | some m =>
        let hours := parseInt ((capture m.hours).or (num 0))
        let minutes := parseInt ((capture m.minutes).or (num 0))
        let seconds := parseInt ((capture m.seconds).or (num 0))
        pure (durationSum hours minutes seconds)
    | _ => throw JsError.typeError
  else pure (JsNum.int 0)

/-- A normalized video entry. -/
structure Reel where
  id : JVal
  videoId : JVal
  title : JVal
  description : JVal
  thumbnail : JVal
  channelTitle : JVal
  publishedAt : JVal
  duration : JVal
  durationSeconds : JsNum
  viewCount : JVal
  likeCount : JVal

/-- The loop `videoDetails.forEach(video => { detailsMap[video.id] = video })`
(youtube.js 99-102), started from the bindings `m`. -/
def buildDetailsMap : List JVal → PlainObj → Except JsError PlainObj
  | [], m => pure m
  | video :: rest, m => do
    let id ← getProp video "id"
    buildDetailsMap rest (m.set id.toStr video)

/-- The callback of `playlistItems.map` (youtube.js 104-123). -/
def parseItem (detailsMap : PlainObj) (item : JVal) : Except JsError Reel := do
  let contentDetails ← getProp item "contentDetails"
  let videoId ← getProp contentDetails "videoId"
  let details := (detailsMap.get videoId.toStr).or (obj [])
  let snippet ← getProp item "snippet"
  let title ← getProp snippet "title"
  let thumbnails := getOpt snippet "thumbnails"
  let duration := getOpt (getOpt details "contentDetails") "duration"
  let durationSeconds ← parseDuration duration
  pure
    { id := videoId
      videoId := videoId
      title := title
      description := getOpt snippet "description"
      thumbnail :=
        ((getOpt (getOpt thumbnails "maxres") "url").or
          (getOpt (getOpt thumbnails "high") "url")).or
          (getOpt (getOpt thumbnails "medium") "url")
      channelTitle := getOpt snippet "channelTitle"
      publishedAt := getOpt snippet "publishedAt"
      duration := duration.or (str "PT0M0S")
      durationSeconds := durationSeconds
      viewCount := (getOpt (getOpt details "statistics") "viewCount").or (str "0")
      likeCount := (getOpt (getOpt details "statistics") "likeCount").or (str "0") }

/-- The function `parseYouTubeVideos` (youtube.js 97-124). -/
def parseYouTubeVideos (playlistItems videoDetails : JVal) : Except JsError (List Reel) :=
  match videoDetails with
  | arr videos => do
    let detailsMap ← buildDetailsMap videos PlainObj.empty
    match playlistItems with
    | arr items => mapE (parseItem detailsMap) items
    | _ => throw JsError.typeError
  | _ => throw JsError.typeError

/-- One page of the video feed. -/
structure ReelsPage where
  reels : List Reel
  nextPageToken : JVal
  hasMore : Bool

/-- The record stored under `CACHE_KEY`.  `JSON.stringify` followed by `JSON.parse` gives back
a page whose properties read as they did (a property holding `undefined` is dropped and reads
`undefined` again), so the entry is kept as a value. -/
structure CacheEntry where
  data : ReelsPage
  timestamp : Int

/-- What a request can observe and change: the cache entry under `CACHE_KEY` and the number
of upstream calls issued so far to the two endpoints. -/
structure World where
  cache : Option CacheEntry
  playlistCalls : Nat
  videoCalls : Nat

/-- The upstream service as one request sees it: the body (`response.data`) of
`GET /playlistItems` for a page token and of `GET /videos` for an id list, or a failed
call. -/
structure Upstream where
  playlistItems : JVal → Except JsError JVal
  videos : String → Except JsError JVal

/-- The constant `CACHE_DURATION`, one hour in milliseconds (youtube.js 25). -/
def CACHE_DURATION : Int := 60 * 60 * 1000

/-- The cache check (youtube.js 31-39): the cached page when the request has no page token,
does not force a refresh, and an entry exists whose age at time `now` is under
`CACHE_DURATION`. -/
def cachedPage (pageToken : JVal) (forceRefresh : Bool) (now : Int) (w : World) :
    Option ReelsPage :=
  if !forceRefresh && !pageToken.truthy then
    match w.cache with
    | some entry => if now - entry.timestamp < CACHE_DURATION then some entry.data else none
    | none => none
  else none

/-- The expression `item.contentDetails.videoId` (youtube.js 53 and 105). -/
def itemVideoId (item : JVal) : Except JsError JVal := do
  let contentDetails ← getProp item "contentDetails"
  getProp contentDetails "videoId"

/-- The ids sent to `/videos` (youtube.js 52-54):
`items.map(item => item.contentDetails.videoId).join(',')`. -/
def videoIdList (items : JVal) : Except JsError String :=
  match items with
  | arr xs => do
    let ids ← mapE itemVideoId xs
    pure (joinStr ids)
  | _ => throw JsError.typeError

/-- The normalization after both calls returned (youtube.js 65-74). -/
def buildPage (rdata ddata : JVal) : Except JsError ReelsPage := do
  let items ← getProp rdata "items"
  let detailItems ← getProp ddata "items"
  let reels ← parseYouTubeVideos items detailItems
  let filteredReels := reels.filter (fun reel => reel.durationSeconds.lt (JsNum.int 300))
  let nextPageToken ← getProp rdata "nextPageToken"
  pure { reels := filteredReels, nextPageToken := nextPageToken, hasMore := nextPageToken.truthy }

/-- The function `fetchNBAHighlights` (youtube.js 28-95).  `now` is the reading of
`Date.now()` at the cache check, `nowWrite` the reading when the cache is written.  The
result is what the promise settles to, together with the world after the request. -/
def fetchNBAHighlights (up : Upstream) (pageToken : JVal) (forceRefresh : Bool)
    (now nowWrite : Int) (w : World) : Except JsError ReelsPage × World :=
  match cachedPage pageToken forceRefresh now w with
  | some data => (Except.ok data, w)
  | none =>
    let w1 : World := { w with playlistCalls := w.playlistCalls + 1 }
    match up.playlistItems pageToken with
    | Except.error e => (Except.error e, w1)
    | Except.ok rdata =>
      match getProp rdata "items" >>= videoIdList with
      | Except.error e => (Except.error e, w1)
      | Except.ok videoIds =>
        let w2 : World := { w1 with videoCalls := w1.videoCalls + 1 }
        match up.videos videoIds with
        | Except.error e => (Except.error e, w2)
        | Except.ok ddata =>
          match buildPage rdata ddata with
          | Except.error e => (Except.error e, w2)
          | Except.ok result =>
            if pageToken.truthy then (Except.ok result, w2)
            else
              (Except.ok result,
                { w2 with cache := some { data := result, timestamp := nowWrite } })

/-! ## Box-score assembler (`src/api/index.js`) -/

/-- The loop `statsGroup.labels?.forEach((label, index) => { statValues[label] =
athlete.stats?.[index] || '0' })` (index.js 188-190) over the labels left, at position
`index`, with the bindings `sv` built so far. -/
def fillStatValues (athlete : JVal) :
    List JVal → Nat → PlainObj → Except JsError PlainObj
  | [], _, sv => pure sv
  | label :: rest, index, sv => do
    let stats ← getProp athlete "stats"
    fillStatValues athlete rest (index + 1)
      (sv.set label.toStr ((idxOpt stats index).or (str "0")))

/-- The stat mapping of one athlete (index.js 187-190): `statValues` starts empty, and
`labels?.forEach` does nothing for absent labels and raises for labels that are not an
array. -/
def statValues (labels athlete : JVal) : Except JsError PlainObj :=
  match labels with
  | undefined => pure PlainObj.empty
  | null => pure PlainObj.empty
  | arr ls => fillStatValues athlete ls 0 PlainObj.empty
  | _ => throw JsError.typeError

/-! ## Conversion to a number (`Number(v)`) -/

/-- Value of a digit character in a radix up to 16, when it is one. -/
def radixDigit (radix : Nat) (c : Char) : Option Nat :=
  let d : Option Nat :=
    if c.isDigit then some (c.toNat - 48)
    else if 'a' ≤ c ∧ c ≤ 'f' then some (c.toNat - 87)
    else if 'A' ≤ c ∧ c ≤ 'F' then some (c.toNat - 55)
    else none
  match d with
  | some v => if v < radix then some v else none
  | none => none

/-- Value of a non-empty digit string in the given radix. -/
def radixValue (radix : Nat) (ds : List Char) : Option Nat :=
  match ds with
  | [] => none
  | _ => ds.foldl (fun acc c =>
      match acc, radixDigit radix c with
      | some a, some d => some (a * radix + d)
      | _, _ => none) (some 0)

/-- The exponent part of a decimal literal: nothing, or `e`/`E`, an optional sign and digits
up to the end of the text. -/
def exponentPart (cs : List Char) : Option Int :=
  match cs with
  | [] => some 0
  | e :: rest =>
    if e = 'e' ∨ e = 'E' then
      let signed : Bool × List Char :=
        match rest with
        | '-' :: r => (true, r)
        | '+' :: r => (false, r)
        | _ => (false, rest)
      if signed.2 ≠ [] ∧ signed.2.all Char.isDigit then
        some (if signed.1 then - (digitsValue signed.2 : Int) else (digitsValue signed.2 : Int))
      else none
    else none

/-- An unsigned decimal literal (`12`, `12.5`, `12.`, `.5`, each with an optional exponent)
as a double of the given sign; `NaN` when the text is no such literal. -/
def unsignedDecimal (neg : Bool) (cs : List Char) : Dbl :=
  if cs = "Infinity".data then Dbl.inf neg
  else
    let ip := cs.takeWhile Char.isDigit
    let r1 := cs.dropWhile Char.isDigit
    let frac : List Char × List Char :=
      match r1 with
      | '.' :: t => (t.takeWhile Char.isDigit, t.dropWhile Char.isDigit)
      | _ => ([], r1)
    if ip = [] ∧ frac.1 = [] then Dbl.nan
    else
      match exponentPart frac.2 with
      | none => Dbl.nan
      | some e =>
        let shift : Int := e - (frac.1.length : Int)
        roundToDouble neg (digitsValue (ip ++ frac.1) * 10 ^ shift.toNat) (10 ^ (-shift).toNat)

/-- The conversion `StringToNumber`: white space is trimmed, the empty text is 0, then a
hexadecimal, octal or binary integer literal, or a signed decimal literal; anything else is
`NaN`. -/
def stringToNumber (s : String) : Dbl :=
  let cs := ((s.data.dropWhile isStrWhiteSpace).reverse.dropWhile isStrWhiteSpace).reverse
  let radixLiteral (radix : Nat) (ds : List Char) : Dbl :=
    match radixValue radix ds with
    | some v => roundToDouble false v 1
    | none => Dbl.nan
  match cs with
  | [] => Dbl.fin false 0 0
  | '0' :: 'x' :: ds => radixLiteral 16 ds
  | '0' :: 'X' :: ds => radixLiteral 16 ds
  | '0' :: 'o' :: ds => radixLiteral 8 ds
  | '0' :: 'O' :: ds => radixLiteral 8 ds
  | '0' :: 'b' :: ds => radixLiteral 2 ds
  | '0' :: 'B' :: ds => radixLiteral 2 ds
  | '-' :: rest => unsignedDecimal true rest
  | '+' :: rest => unsignedDecimal false rest
  | _ => unsignedDecimal false cs

/-- The conversion `Number(v)`.  An array converts through its `join`, an object through the
text `[object Object]`, which is no numeric literal. -/
def toNumber : JVal → Dbl
  | undefined => Dbl.nan
  | null => Dbl.fin false 0 0
  | JVal.bool true => Dbl.fin false 1 0
  | JVal.bool false => Dbl.fin false 0 0
  | num n => Dbl.fin (decide (n < 0)) n.natAbs 0
  | str s => stringToNumber s
  | arr xs => stringToNumber (joinStr xs)
  | obj _ => Dbl.nan
  | dbl x => x
  | native _ => Dbl.nan

/-- Strict equality `v === 0`. -/
def strictEqZero : JVal → Bool
  | num n => n == 0
  | dbl (Dbl.fin _ m _) => m == 0
  | _ => false

/-- The text `s.padStart(2, '0')`, for `s` without characters outside the Basic Multilingual
Plane. -/
def padStart2 (s : String) : String :=
  String.mk (List.replicate (2 - s.data.length) '0' ++ s.data)

/-! ## Box-score assembler, continued (`fetchBoxScore`, index.js 144-218) -/

/-- The team summary of a box score. -/
structure TeamInfo where
  id : JVal
  name : JVal
  abbreviation : JVal
  logo : JVal

/-- One athlete's line of a box score. -/
structure PlayerBoxLine where
  id : JVal
  name : JVal
  shortName : JVal
  jersey : JVal
  position : JVal
  starter : JVal
  stats : PlainObj
  didNotPlay : JVal
  reason : JVal

/-- One team's box score. -/
structure TeamBoxScore where
  team : TeamInfo
  players : List PlayerBoxLine

/-- The result of `fetchBoxScore`; `none` is `null`. -/
structure BoxScore where
  homeTeam : Option TeamBoxScore
  awayTeam : Option TeamBoxScore

/-- The loop `data.boxscore.teams?.forEach((team) => { teamsInfo[team.team.id] =
team.homeAway })` (index.js 157-159) over the entries left, from the bindings `info`. -/
def fillTeamsInfo : List JVal → PlainObj → Except JsError PlainObj
  | [], info => pure info
  | team :: rest, info => do
    let t ← getProp team "team"
    let id ← getProp t "id"
    fillTeamsInfo rest (info.set id.toStr (getOpt team "homeAway"))

/-- The side lookup `teamsInfo` (index.js 156-159). -/
def buildTeamsInfo (teams : JVal) : Except JsError PlainObj :=
  match teams with
  | undefined => pure PlainObj.empty
  | null => pure PlainObj.empty
  | arr ts => fillTeamsInfo ts PlainObj.empty
  | _ => throw JsError.typeError

/-- The callback of `statsGroup.athletes.map` (index.js 185-203). -/
def parseAthlete (statsGroup athlete : JVal) : Except JsError PlayerBoxLine := do
  let sv ← statValues (getOpt statsGroup "labels") athlete
  let a ← getProp athlete "athlete"
  pure
    { id := getOpt a "id"
      name := (getOpt a "displayName").or (str "Unknown")
      shortName := (getOpt a "shortName").or (str "")
      jersey := (getOpt a "jersey").or (str "")
      position := (getOpt (getOpt a "position") "abbreviation").or (str "")
      starter := (getOpt athlete "starter").or (JVal.bool false)
      stats := sv
      didNotPlay := (getOpt athlete "didNotPlay").or (JVal.bool false)
      reason := (getOpt athlete "reason").or (str "") }

/-- The roster of a team (index.js 183-204): the athletes of the first statistics group, or
the empty list when there is none. -/
def parseRoster (teamData : JVal) : Except JsError (List PlayerBoxLine) :=
  let statsGroup := idxOpt (getOpt teamData "statistics") 0
  if (getOpt statsGroup "athletes").truthy then
    match getOpt statsGroup "athletes" with
    | arr athletes => mapE (parseAthlete statsGroup) athletes
    | _ => throw JsError.typeError
  else pure []

/-- The record `teamStats` built for one entry of `boxscore.players` (index.js 169-204),
with the flag `isHome`. -/
def parseTeamData (teamsInfo : PlainObj) (teamData : JVal) :
    Except JsError (Bool × TeamBoxScore) := do
  let team ← getProp teamData "team"
  let teamId := getOpt team "id"
  let isHome := (teamsInfo.get teamId.toStr).strictEqStr "home"
  let name ← getProp team "displayName"
  let players ← parseRoster teamData
  pure (isHome,
    { team :=
        { id := teamId
          name := name
          abbreviation := getOpt team "abbreviation"
          logo := getOpt team "logo" }
      players := players })

/-- The loop `data.boxscore.players.forEach` (index.js 167-211) over the entries left,
from the box score `bs` built so far. -/
def assembleTeams (teamsInfo : PlainObj) :
    List JVal → BoxScore → Except JsError BoxScore
  | [], bs => pure bs
  | teamData :: rest, bs => do
    let r ← parseTeamData teamsInfo teamData
    assembleTeams teamsInfo rest
      (if r.1 then { bs with homeTeam := some r.2 } else { bs with awayTeam := some r.2 })

/-- The body of the `try` block of `fetchBoxScore` once the response arrived (index.js
150-213); `none` is the early `return null`. -/
def boxScoreBody (data : JVal) : Except JsError (Option BoxScore) := do
  let boxscore ← getProp data "boxscore"
  let players := getOpt boxscore "players"
  if players.truthy then
    let teamsInfo ← buildTeamsInfo (getOpt boxscore "teams")
    match players with
    | arr entries => do
      let bs ← assembleTeams teamsInfo entries { homeTeam := none, awayTeam := none }
      pure (some bs)
    | _ => throw JsError.typeError
  else pure none

/-- The function `fetchBoxScore` (index.js 144-218); `summary` is the outcome of the request
for the game's summary (its body, or a failure).  The `catch` block logs and returns
`null`. -/
def fetchBoxScore (summary : JVal → Except JsError JVal) (gameId : JVal) :
    Except JsError (Option BoxScore) :=
  match summary gameId >>= boxScoreBody with
  | Except.ok r => Except.ok r
  | Except.error _ => Except.ok none

/-! ## Season-stats aggregator (index.js 109-141, 326-378) -/

/-- The two assignments made for one stat triple (index.js 334-335). -/
def flattenStat (allStats : PlainObj) (stat : JVal) : Except JsError PlainObj := do
  let name ← getProp stat "name"
  let value := getOpt stat "value"
  pure ((allStats.set name.toStr value).set (getOpt stat "abbreviation").toStr value)

/-- The loop `cat.stats.forEach` over the triples left. -/
def flattenTriples : List JVal → PlainObj → Except JsError PlainObj
  | [], allStats => pure allStats
  | stat :: rest, allStats => do
    let next ← flattenStat allStats stat
    flattenTriples rest next

/-- The callback of `categories.forEach` (index.js 331-337). -/
def flattenCategory (allStats : PlainObj) (cat : JVal) : Except JsError PlainObj := do
  let stats ← getProp cat "stats"
  if stats.truthy then
    match stats with
    | arr triples => flattenTriples triples allStats
    | _ => throw JsError.typeError
  else pure allStats

/-- The loop `categories.forEach` over the categories left. -/
def flattenCategories : List JVal → PlainObj → Except JsError PlainObj
  | [], allStats => pure allStats
  | cat :: rest, allStats => do
    let next ← flattenCategory allStats cat
    flattenCategories rest next

/-- The helper `formatAvg` (index.js 344-347). -/
def formatAvg (val : JVal) : String :=
  match val with
  | null => "0.0"
  | undefined => "0.0"
  | v => toFixed1 (toNumber v)

/-- The helper `formatPct` (index.js 349-353). -/
def formatPct (val : JVal) : String :=
  match val with
  | null => "0.0"
  | undefined => "0.0"
  | v => toFixed1 (toNumber v)

/-- The season statistics of a player. -/
structure SeasonStats where
  season : Int
  gamesPlayed : JVal
  minutes : String
  points : String
  assists : String
  rebounds : String
  steals : String
  blocks : String
  turnovers : String
  fieldGoalPct : String
  threePointPct : String
  freeThrowPct : String
  fieldGoalsMade : String
  fieldGoalsAttempted : String
  threePointersMade : String
  threePointersAttempted : String
  freeThrowsMade : String
  freeThrowsAttempted : String
  offensiveRebounds : String
  defensiveRebounds : String
  personalFouls : String
  espnPlayerId : JVal

/-- The object literal returned by `parseESPNCoreStats` (index.js 342-377) for the flattened
lookup `allStats`; `year` is `new Date().getFullYear()`. -/
def buildSeasonStats (allStats : PlainObj) (year : Int) : SeasonStats :=
  { season := year
    gamesPlayed := ((allStats.get "gamesPlayed").or (allStats.get "GP")).or (num 0)
    minutes := formatAvg (allStats.get "avgMinutes")
    points := formatAvg (allStats.get "avgPoints")
    assists := formatAvg (allStats.get "avgAssists")
    rebounds := formatAvg (allStats.get "avgRebounds")
    steals := formatAvg (allStats.get "avgSteals")
    blocks := formatAvg (allStats.get "avgBlocks")
    turnovers := formatAvg (allStats.get "avgTurnovers")
    fieldGoalPct := formatPct (allStats.get "fieldGoalPct")
    threePointPct := formatPct (allStats.get "threePointFieldGoalPct")
    freeThrowPct := formatPct (allStats.get "freeThrowPct")
    fieldGoalsMade := formatAvg (allStats.get "avgFieldGoalsMade")
    fieldGoalsAttempted := formatAvg (allStats.get "avgFieldGoalsAttempted")
    threePointersMade := formatAvg (allStats.get "avgThreePointFieldGoalsMade")
    threePointersAttempted := formatAvg (allStats.get "avgThreePointFieldGoalsAttempted")
    freeThrowsMade := formatAvg (allStats.get "avgFreeThrowsMade")
    freeThrowsAttempted := formatAvg (allStats.get "avgFreeThrowsAttempted")
    offensiveRebounds := formatAvg (allStats.get "avgOffensiveRebounds")
    defensiveRebounds := formatAvg (allStats.get "avgDefensiveRebounds")
    personalFouls := formatAvg (allStats.get "avgFouls")
    espnPlayerId := undefined }

/-- The function `parseESPNCoreStats` (index.js 326-378); `none` is `null`. -/
def parseESPNCoreStats (categories : JVal) (year : Int) :
    Except JsError (Option SeasonStats) :=
  if !categories.truthy || strictEqZero (getOpt categories "length") then pure none
  else
    match categories with
    | arr cats => do
      let allStats ← flattenCategories cats PlainObj.empty
      pure (some (buildSeasonStats allStats year))
    | _ => throw JsError.typeError

/-- The body of the `try` block of `fetchPlayerStatsByName` (index.js 111-136), with the
number of statistics requests it issued. -/
def playerStatsBody (search : Except JsError JVal) (statistics : JVal → Except JsError JVal)
    (year : Int) : Except JsError (Option SeasonStats) × Nat :=
  match search with
  | Except.error e => (Except.error e, 0)
  | Except.ok sdata =>
    let items := getOpt sdata "items"
    if !items.truthy || strictEqZero (getOpt items "length") then (Except.ok none, 0)
    else
      match getProp (idxOpt items 0) "id" with
      | Except.error e => (Except.error e, 0)
      | Except.ok espnPlayerId =>
        match statistics espnPlayerId with
        | Except.error e => (Except.error e, 1)
        | Except.ok statsData =>
          let categories := getOpt (getOpt statsData "splits") "categories"
          if categories.truthy then
            match parseESPNCoreStats categories year with
            | Except.error e => (Except.error e, 1)
            | Except.ok none => (Except.error JsError.typeError, 1)
            | Except.ok (some stats) =>
              (Except.ok (some { stats with espnPlayerId := espnPlayerId }), 1)
          else (Except.ok none, 1)

/-- The function `fetchPlayerStatsByName` (index.js 109-141): `search` is the outcome of the
identity search for the name, `statistics` that of the statistics request for an id.  The
`catch` block logs and returns `null`.  The second component counts the statistics requests
issued. -/
def fetchPlayerStatsByName (search : Except JsError JVal)
    (statistics : JVal → Except JsError JVal) (year : Int) :
    Except JsError (Option SeasonStats) × Nat :=
  match playerStatsBody search statistics year with
  | (Except.ok r, calls) => (Except.ok r, calls)
  | (Except.error _, calls) => (Except.ok none, calls)

/-! ## Formatters -/

/-- The function `formatViewCount` (youtube.js 145-156). -/
def formatViewCount (count : JVal) : String :=
  match parseInt count with
  | JsNum.nan => "0 views"
  | JsNum.inf false => "InfinityM views"
  | JsNum.inf true => "-Infinity views"
  | JsNum.int n =>
    if 1000000 ≤ n then
      toFixed1 (roundToDouble (decide (n < 0)) n.natAbs 1000000) ++ "M views"
    else if 1000 ≤ n then
      toFixed1 (roundToDouble (decide (n < 0)) n.natAbs 1000) ++ "K views"
    else intText n ++ " views"

/-- The integer `Math.floor(x)` of a finite number; `0` stands in for `NaN` and the
infinities, which `formatDuration` never floors. -/
def floorDbl : Dbl → Int
  | Dbl.fin false m k => ((m / 2 ^ k : Nat) : Int)
  | Dbl.fin true m k => - (((m + 2 ^ k - 1) / 2 ^ k : Nat) : Int)
  | _ => 0

/-- The function `formatDuration` (youtube.js 137-143).  The argument is a number with an
integer value, an infinity, `NaN`, or absent (`none`): the callers pass
`Reel.durationSeconds`.  The quotient `seconds / 60` is rounded to the nearest double before
`Math.floor`; `%` is exact and takes the sign of the dividend; both parts are printed by
`Number::toString`.  An infinity gives `Infinity % 60 = NaN`. -/
def formatDuration (seconds : Option JsNum) : String :=
  match seconds with
  | none => "0:00"
  | some JsNum.nan => "0:00"
  | some (JsNum.inf neg) => (if neg then "-Infinity" else "Infinity") ++ ":" ++ padStart2 "NaN"
  | some (JsNum.int n) =>
    if n = 0 then "0:00"
    else
      intText (floorDbl (roundToDouble (decide (n < 0)) n.natAbs 60)) ++ ":" ++
        padStart2 (intText (Int.tmod n 60))

/-- The function `formatTimeAgo` (index.js 389-399).  `date` is the time value of
`new Date(dateString)` in milliseconds (`NaN` for an invalid date), `now` that of
`new Date()`, and `localeDate` the text `date.toLocaleDateString()` of the platform. -/
def formatTimeAgo (date : JsNum) (now : Int) (localeDate : String) : String :=
  match date with
  | JsNum.nan => localeDate
  | JsNum.inf false => "Just now"
  | JsNum.inf true => localeDate
  | JsNum.int d =>
    let seconds := (now - d) / 1000
    if seconds < 60 then "Just now"
    else if seconds < 3600 then toString (seconds / 60) ++ "m ago"
    else if seconds < 86400 then toString (seconds / 3600) ++ "h ago"
    else if seconds < 604800 then toString (seconds / 86400) ++ "d ago"
    else localeDate

/-! ## News, teams and players (index.js 16-100, 276-323) -/

/-- A normalized news article. -/
structure NewsArticle where
  id : JVal
  headline : JVal
  description : JVal
  imageUrl : JVal
  publishedAt : JVal
  url : JVal
  source : String

/-- The callback of `data.articles.map` (index.js 279-287); `random` is the value
`Math.random()` returns for this article. -/
def parseArticle (random : Dbl) (article : JVal) : Except JsError NewsArticle := do
  let dataSourceIdentifier ← getProp article "dataSourceIdentifier"
  pure
    { id := dataSourceIdentifier.or (str (numberToString random))
      headline := getOpt article "headline"
      description := (getOpt article "description").or (str "")
      imageUrl := (getOpt (idxOpt (getOpt article "images") 0) "url").or null
      publishedAt := getOpt article "published"
      url := (getOpt (getOpt (getOpt article "links") "web") "href").or (str "")
      source := "ESPN" }

/-- The map over the articles left, article `i` drawing `random i`. -/
def parseArticles (random : Nat → Dbl) : List JVal → Nat → Except JsError (List NewsArticle)
  | [], _ => pure []
  | article :: rest, i => do
    let a ← parseArticle (random i) article
    let as ← parseArticles random rest (i + 1)
    pure (a :: as)

/-- The function `parseESPNNews` (index.js 276-288). -/
def parseESPNNews (random : Nat → Dbl) (data : JVal) : Except JsError (List NewsArticle) := do
  let articles ← getProp data "articles"
  if articles.truthy then
    match articles with
    | arr as => parseArticles random as 0
    | _ => throw JsError.typeError
  else pure []

/-- A normalized team. -/
structure Team where
  id : JVal
  name : JVal
  abbreviation : JVal
  logo : JVal
  color : JVal

/-- The callback of `teams.map` (index.js 292-298). -/
def parseTeam (t : JVal) : Except JsError Team := do
  let team ← getProp t "team"
  let id ← getProp team "id"
  pure
    { id := id
      name := getOpt team "displayName"
      abbreviation := getOpt team "abbreviation"
      logo := getOpt (idxOpt (getOpt team "logos") 0) "href"
      color := getOpt team "color" }

/-- The function `parseESPNTeams` (index.js 290-299). -/
def parseESPNTeams (data : JVal) : Except JsError (List Team) := do
  let sports ← getProp data "sports"
  let teams := (getOpt (idxOpt (getOpt (idxOpt sports 0) "leagues") 0) "teams").or (arr [])
  match teams with
  | arr ts => mapE parseTeam ts
  | _ => throw JsError.typeError

/-- The team summary inside a player. -/
structure PlayerTeam where
  id : JVal
  name : JVal
  abbreviation : JVal
  city : JVal
  conference : JVal
  division : JVal

/-- A normalized player; `team = none` is `null`. -/
structure Player where
  id : JVal
  firstName : JVal
  lastName : JVal
  fullName : String
  position : JVal
  height : JVal
  weight : JVal
  jerseyNumber : JVal
  college : JVal
  country : JVal
  draftYear : JVal
  draftRound : JVal
  draftNumber : JVal
  team : Option PlayerTeam

/-- The function `parsePlayer` (index.js 301-323). -/
def parsePlayer (player : JVal) : Except JsError Player := do
  let id ← getProp player "id"
  let team := getOpt player "team"
  pure
    { id := id
      firstName := getOpt player "first_name"
      lastName := getOpt player "last_name"
      fullName := (getOpt player "first_name").toStr ++ " " ++ (getOpt player "last_name").toStr
      position := (getOpt player "position").or (str "N/A")
      height := (getOpt player "height").or null
      weight := (getOpt player "weight").or null
      jerseyNumber := (getOpt player "jersey_number").or null
      college := (getOpt player "college").or null
      country := (getOpt player "country").or null
      draftYear := (getOpt player "draft_year").or null
      draftRound := (getOpt player "draft_round").or null
      draftNumber := (getOpt player "draft_number").or null
      team :=
        if team.truthy then
          some
            { id := getOpt team "id"
              name := getOpt team "full_name"
              abbreviation := getOpt team "abbreviation"
              city := getOpt team "city"
              conference := getOpt team "conference"
              division := getOpt team "division" }
        else none }

/-- The local calendar fields of a valid `Date`: `getFullYear()`, `getMonth()` (0 to 11) and
`getDate()` (1 to 31). -/
structure LocalDate where
  fullYear : Int
  month : Nat
  date : Nat

/-- The request path built by `fetchScoreboard` (index.js 18-26); `none` is the default
`date = null`. -/
def scoreboardUrl (date : Option LocalDate) : String :=
  match date with
  | none => "/scoreboard"
  | some d =>
    "/scoreboard" ++ ("?dates=" ++
      (toString d.fullYear ++ padStart2 (toString (d.month + 1)) ++ padStart2 (toString d.date)))

/-- The function `fetchScoreboard` (index.js 16-33); `get` is the outcome of `espnApi.get`
for a path.  The `catch` block logs and rethrows. -/
def fetchScoreboard (get : String → Except JsError JVal) (date : Option LocalDate) :
    Except JsError (List Game) :=
  match get (scoreboardUrl date) >>= parseESPNGames with
  | Except.ok games => Except.ok games
  | Except.error e => Except.error e

/-- The function `fetchNews` (index.js 36-44). -/
def fetchNews (get : String → Except JsError JVal) (random : Nat → Dbl) :
    Except JsError (List NewsArticle) :=
  match get "/news" >>= parseESPNNews random with
  | Except.ok articles => Except.ok articles
  | Except.error e => Except.error e

/-- The function `fetchTeams` (index.js 47-55). -/
def fetchTeams (get : String → Except JsError JVal) : Except JsError (List Team) :=
  match get "/teams" >>= parseESPNTeams with
  | Except.ok teams => Except.ok teams
  | Except.error e => Except.error e

/-- The result of `searchPlayers`. -/
structure PlayerSearch where
  players : List Player
  meta : JVal

/-- The normalization inside `searchPlayers` (index.js 81-84). -/
def parsePlayerSearch (body : JVal) : Except JsError PlayerSearch := do
  let data ← getProp body "data"
  match data with
  | arr ps => do
    let players ← mapE parsePlayer ps
    pure { players := players, meta := getOpt body "meta" }
  | _ => throw JsError.typeError

/-- The function `searchPlayers` (index.js 72-89); `get` is the outcome of the request for
the query, page and page size. -/
def searchPlayers (get : JVal → JVal → JVal → Except JsError JVal) (query page perPage : JVal) :
    Except JsError PlayerSearch :=
  match get query page perPage >>= parsePlayerSearch with
  | Except.ok r => Except.ok r
  | Except.error e => Except.error e

/-- The function `fetchPlayer` (index.js 92-100). -/
def fetchPlayer (get : JVal → Except JsError JVal) (playerId : JVal) : Except JsError Player :=
  match get playerId >>= (fun body => getProp body "data" >>= parsePlayer) with
  | Except.ok p => Except.ok p
  | Except.error e => Except.error e

/-! ## Games screen (`src/screens/GamesScreen.js` 38-78) -/

/-- The state `loadGames` writes. -/
structure GamesState where
  todayGames : List Game
  recentGames : List Game
  upcomingGames : List Game
  loading : Bool
  refreshing : Bool
  error : Option String

/-- The property `err.message` of a raised error: the message of a failed request is the
one it was raised with; the text an engine gives a `TypeError` is not modelled and is
represented by the fixed text `TypeError`. -/
def JsError.message : JsError → String
  | JsError.typeError => "TypeError"
  | JsError.upstream msg => msg

/-- One of the two `for` loops of `loadGames`: `count` single-day calls from call number
`call` on, each kept to the games of the given status; the games gathered before are
`acc`.  The result is the gathered list, or the first error, with the number of the next
call. -/
def gatherDays (fetchDay : Nat → Except JsError (List Game)) (status : String) :
    Nat → Nat → List Game → Except JsError (List Game) × Nat
  | 0, call, acc => (Except.ok acc, call)
  | count + 1, call, acc =>
    match fetchDay call with
    | Except.error e => (Except.error e, call + 1)
    | Except.ok games =>
      gatherDays fetchDay status count (call + 1)
        (acc ++ games.filter (fun g => g.status == status))

/-- The function `loadGames` (GamesScreen.js 38-78).  `fetchDay i` is the outcome of the
`i`-th `fetchScoreboard` call (call 0 is today, 1-3 the past days, 4-7 the coming days) and
`sortRecent` the in-place `sort` by date.  The result is the state after the `finally` block
and the number of `fetchScoreboard` calls issued. -/
def loadGames (fetchDay : Nat → Except JsError (List Game))
    (sortRecent : List Game → List Game) (showLoader : Bool) (s : GamesState) :
    GamesState × Nat :=
  let s0 : GamesState := { s with loading := s.loading || showLoader, error := none }
  let finish (st : GamesState) : GamesState := { st with loading := false, refreshing := false }
  match fetchDay 0 with
  | Except.error e => (finish { s0 with error := some e.message }, 1)
  | Except.ok today =>
    let s1 : GamesState := { s0 with todayGames := today }
    match gatherDays fetchDay "final" 3 1 [] with
    | (Except.error e, calls) => (finish { s1 with error := some e.message }, calls)
    | (Except.ok recent, calls) =>
      let s2 : GamesState := { s1 with recentGames := sortRecent recent }
      match gatherDays fetchDay "scheduled" 4 calls [] with
      | (Except.error e, calls2) => (finish { s2 with error := some e.message }, calls2)
      | (Except.ok upcoming, calls2) => (finish { s2 with upcomingGames := upcoming }, calls2)

/-! ## Sample inputs and input texts -/

/-- A scoreboard payload with one event whose home score is not numeric and whose away
competitor carries no score. -/
def nonNumericScorePayload : JVal :=
  obj [("events", arr [obj [("id", str "401"),
    ("status", obj [("type", obj [("state", str "in")])]),
    ("competitions", arr [obj [("competitors", arr [
      obj [("homeAway", str "home"), ("score", str "abc")],
      obj [("homeAway", str "away")]])]])]])]

/-- A scoreboard payload with one event, home score `"102"`, no away score. -/
def numericScorePayload : JVal :=
  obj [("events", arr [obj [("id", str "401"),
    ("status", obj [("type", obj [("state", str "post")])]),
    ("competitions", arr [obj [("competitors", arr [
      obj [("homeAway", str "home"), ("score", str "102")],
      obj [("homeAway", str "away")]])]])]])]

/-- A scoreboard payload with three events, ids 401, 402 and 403 in that order. -/
def threeEventPayload : JVal :=
  obj [("events", arr [
    obj [("id", str "401"), ("date", str "2024-01-05T00:00Z"), ("name", str "BOS at LAL"),
      ("shortName", str "BOS @ LAL"), ("status", obj [("type", obj [("state", str "post")])])],
    obj [("id", str "402"), ("date", str "2024-01-05T02:30Z"), ("name", str "NYK at MIA"),
      ("shortName", str "NYK @ MIA"), ("status", obj [("type", obj [("state", str "in")])])],
    obj [("id", str "403"), ("date", str "2024-01-06T01:00Z"), ("name", str "DEN at PHX"),
      ("shortName", str "DEN @ PHX"), ("status", obj [("type", obj [("state", str "pre")])])]])]

/-- A competitor entry marked `side` with the given team id, name and score. -/
def sampleCompetitor (side id name score : String) : JVal :=
  obj [("homeAway", str side), ("score", str score),
    ("team", obj [("id", str id), ("displayName", str name), ("abbreviation", str "ABC"),
      ("logo", str "logo.png"), ("color", str "552583")])]

/-- An event with two competition records: the first lists an away competitor and then two
competitors marked home, the second lists another home competitor. -/
def twoCompetitionEvent : JVal :=
  obj [("id", str "401"), ("status", obj [("type", obj [("state", str "in")])]),
    ("competitions", arr [
      obj [("competitors", arr [sampleCompetitor "away" "2" "Celtics" "99",
        sampleCompetitor "home" "13" "Lakers" "102",
        sampleCompetitor "home" "99" "Reserve" "1"])],
      obj [("competitors", arr [sampleCompetitor "home" "77" "Other" "5"])]])]

/-- An event whose first competition lists an away competitor only. -/
def awayOnlyEvent : JVal :=
  obj [("id", str "402"), ("status", obj [("type", obj [("state", str "pre")])]),
    ("competitions", arr [
      obj [("competitors", arr [sampleCompetitor "away" "2" "Celtics" "99"])]])]

/-- The text of one duration component: the decimal numeral of `n` followed by the unit
letter `c`, or nothing when the component is omitted. -/
def componentText (x : Option Nat) (c : Char) : List Char :=
  match x with
  | some n => (toString n).data ++ [c]
  | none => []

/-- The duration text `PT[<h>H][<m>M][<s>S]` for the components that are present. -/
def durationText (h m s : Option Nat) : String :=
  String.mk ('P' :: 'T' :: (componentText h 'H' ++ (componentText m 'M' ++ componentText s 'S')))

/-- A world with no cache entry and no call issued. -/
def emptyWorld : World := { cache := none, playlistCalls := 0, videoCalls := 0 }

/-- A playlist item with the given video id and title. -/
def sampleItem (id title : String) : JVal :=
  obj [("contentDetails", obj [("videoId", str id)]), ("snippet", obj [("title", str title)])]

/-- A details record with the given id and duration text. -/
def sampleDetail (id duration : String) : JVal :=
  obj [("id", str id), ("contentDetails", obj [("duration", str duration)])]

/-- A details batch whose single record has the id `__proto__` and carries, under the key
`x`, a record with a duration of nine minutes. -/
def protoDetails : JVal :=
  arr [obj [("id", str "__proto__"),
    ("x", obj [("contentDetails", obj [("duration", str "PT9M")]),
      ("statistics", obj [("viewCount", str "77")])])]]

/-- Three playlist items. -/
def sampleItems : JVal :=
  arr [sampleItem "a" "one", sampleItem "b" "two", sampleItem "c" "three"]

/-- Their details, with durations of 90, 400 and 250 seconds. -/
def sampleDetails : JVal :=
  arr [sampleDetail "a" "PT1M30S", sampleDetail "b" "PT6M40S", sampleDetail "c" "PT4M10S"]

/-- The body of the playlist response of `sampleUpstream`. -/
def samplePlaylistBody : JVal := obj [("items", sampleItems), ("nextPageToken", str "tok2")]

/-- The body of the details response of `sampleUpstream`. -/
def sampleDetailsBody : JVal := obj [("items", sampleDetails)]

/-- An upstream that answers every call with the sample bodies. -/
def sampleUpstream : Upstream :=
  { playlistItems := fun _ => Except.ok samplePlaylistBody
    videos := fun _ => Except.ok sampleDetailsBody }

/-- An upstream whose calls all fail. -/
def failingUpstream : Upstream :=
  { playlistItems := fun _ => Except.error (JsError.upstream "timeout")
    videos := fun _ => Except.error (JsError.upstream "timeout") }

/-- An upstream whose playlist response carries no `items` and whose details call fails. -/
def itemlessUpstream : Upstream :=
  { playlistItems := fun _ => Except.ok (obj [("kind", str "youtube#playlistItemListResponse")])
    videos := fun _ => Except.error (JsError.upstream "timeout") }

/-- A page with no entry, as a cache content. -/
def emptyPage : ReelsPage := { reels := [], nextPageToken := undefined, hasMore := false }

/-- A world whose cache holds `emptyPage` stored at time 1000. -/
def cachedWorld : World :=
  { cache := some { data := emptyPage, timestamp := 1000 }, playlistCalls := 3, videoCalls := 3 }

/-- A summary with one team tagged `home` and two entries in the players list, the second
of a team that the teams list does not hold. -/
def untaggedTeamSummary : JVal :=
  obj [("boxscore", obj [
    ("teams", arr [obj [("team", obj [("id", str "1")]), ("homeAway", str "home")]]),
    ("players", arr [
      obj [("team", obj [("id", str "1"), ("displayName", str "Home Club")])],
      obj [("team", obj [("id", str "2"), ("displayName", str "Other Club")])]])])]

/-- A summary whose home team has two athletes, the second one flagged `didNotPlay`. -/
def rosterSummary : JVal :=
  obj [("boxscore", obj [
    ("teams", arr [obj [("team", obj [("id", str "1")]), ("homeAway", str "home")]]),
    ("players", arr [
      obj [("team", obj [("id", str "1"), ("displayName", str "Home Club")]),
        ("statistics", arr [obj [("labels", arr [str "PTS"]),
          ("athletes", arr [
            obj [("athlete", obj [("id", str "a1")]), ("stats", arr [str "21"])],
            obj [("athlete", obj [("id", str "a2")]), ("didNotPlay", JVal.bool true),
              ("reason", str "COACH DECISION")]])]])]])])]

/-- A text without its leading minus sign, when it has one. -/
def stripMinus (l : List Char) : List Char :=
  match l with
  | '-' :: r => r
  | r => r

/-- Whether a text is one or more digits, a point, one digit. -/
def oneDecimalBody (body : List Char) : Bool :=
  match body.dropWhile Char.isDigit with
  | ['.', d] => d.isDigit && !(body.takeWhile Char.isDigit).isEmpty
  | _ => false

/-- Whether a text is a decimal numeral with exactly one digit after the point: an optional
minus sign, one or more digits, a point, one digit. -/
def isOneDecimal (s : String) : Bool :=
  oneDecimalBody (stripMinus s.data)

/-- The keys of the flattened lookup that `parseESPNCoreStats` formats, in the order of the
19 formatted fields from `minutes` to `personalFouls`. -/
def consumedKeys : List String :=
  ["avgMinutes", "avgPoints", "avgAssists", "avgRebounds", "avgSteals", "avgBlocks",
    "avgTurnovers", "fieldGoalPct", "threePointFieldGoalPct", "freeThrowPct",
    "avgFieldGoalsMade", "avgFieldGoalsAttempted", "avgThreePointFieldGoalsMade",
    "avgThreePointFieldGoalsAttempted", "avgFreeThrowsMade", "avgFreeThrowsAttempted",
    "avgOffensiveRebounds", "avgDefensiveRebounds", "avgFouls"]

/-- The 19 formatted fields of the season statistics, from `minutes` to `personalFouls`. -/
def SeasonStats.formatted (s : SeasonStats) : List String :=
  [s.minutes, s.points, s.assists, s.rebounds, s.steals, s.blocks, s.turnovers,
    s.fieldGoalPct, s.threePointPct, s.freeThrowPct, s.fieldGoalsMade,
    s.fieldGoalsAttempted, s.threePointersMade, s.threePointersAttempted,
    s.freeThrowsMade, s.freeThrowsAttempted, s.offensiveRebounds, s.defensiveRebounds,
    s.personalFouls]

/-- Stat values for which the formatted field is a numeral: absent, `null`, or a finite
number of magnitude below `10^21`. -/
def isModerateNumber : JVal → Bool
  | undefined => true
  | null => true
  | num n => decide (n.natAbs < 10 ^ 21)
  | dbl (Dbl.fin _ m k) => decide (m < 10 ^ 21 * 2 ^ k)
  | _ => false

/-- The stat triples of one category: its `stats` array, or none. -/
def categoryTriples (cat : JVal) : List JVal :=
  match getOpt cat "stats" with
  | arr triples => triples
  | _ => []

/-- The stat triples of a categories list in the order `parseESPNCoreStats` visits them. -/
def allTriples : List JVal → List JVal
  | [] => []
  | cat :: rest => categoryTriples cat ++ allTriples rest

/-- A categories list with the points average and a field-goal percentage of 50.6. -/
def sampleCategories : JVal :=
  arr [obj [("name", str "offensive"), ("stats", arr [
    obj [("name", str "avgPoints"), ("abbreviation", str "PTS"),
      ("value", dbl (roundToDouble false 264 10))],
    obj [("name", str "fieldGoalPct"), ("abbreviation", str "FG%"),
      ("value", dbl (roundToDouble false 506 10))]])]]

/-- A categories list whose single triple is named `__proto__` and carries an object with
the properties `avgPoints` and `gamesPlayed` as its value. -/
def protoCategories : JVal :=
  arr [obj [("name", str "general"), ("stats", arr [
    obj [("name", str "__proto__"), ("abbreviation", str "x"),
      ("value", obj [("avgPoints", num 30), ("gamesPlayed", num 82)])]])]]

/-- A search response whose first match has the id 3975. -/
def sampleSearch : JVal :=
  obj [("items", arr [obj [("id", str "3975"), ("displayName", str "Stephen Curry")],
    obj [("id", str "11")]])]

/-- A statistics document whose `splits.categories` is the given value. -/
def statisticsDocument (categories : JVal) : JVal :=
  obj [("splits", obj [("categories", categories)])]

/-- A categories list whose points average is the text `n/a`. -/
def nonNumericCategories : JVal :=
  arr [obj [("stats", arr [
    obj [("name", str "avgPoints"), ("abbreviation", str "PTS"), ("value", str "n/a")]])]]

/-- A categories list in which the total and the average of points share the abbreviation
`PTS`. -/
def sharedAbbreviationCategories : JVal :=
  arr [obj [("stats", arr [
    obj [("name", str "avgPoints"), ("abbreviation", str "PTS"), ("value", num 26)],
    obj [("name", str "points"), ("abbreviation", str "PTS"), ("value", num 1900)]])]]

/-- A news feed with two articles: the first carries a `dataSourceIdentifier`, the second
does not. -/
def sampleNewsFeed : JVal :=
  obj [("articles", arr [
    obj [("dataSourceIdentifier", str "a1b2"), ("headline", str "Trade")],
    obj [("headline", str "Recap")]])]

/-- How the `id` of a normalized article relates to the raw article. -/
def ArticleId (article : JVal) (a : NewsArticle) : Prop :=
  a.id.truthy = true ∧
  ((getOpt article "dataSourceIdentifier").truthy = true →
    a.id = getOpt article "dataSourceIdentifier") ∧
  ((getOpt article "dataSourceIdentifier").truthy = false →
    ∃ r : Dbl, a.id = str (numberToString r) ∧ numberToString r ≠ "")

/-- The result `r` of `v || d`: the value `v` when it is truthy, the default `d` when it is
absent or otherwise falsy. -/
def OrDefault (v d r : JVal) : Prop :=
  (v.truthy = true → r = v) ∧ (v.truthy = false → r = d)

/-- A raw player record with a team, a position and no college. -/
def samplePlayer : JVal :=
  obj [("id", num 19), ("first_name", str "Stephen"), ("last_name", str "Curry"),
    ("position", str "G"), ("height", str "6-2"), ("jersey_number", str "30"),
    ("team", obj [("id", num 10), ("full_name", str "Golden State Warriors"),
      ("abbreviation", str "GSW"), ("city", str "Golden State"),
      ("conference", str "West"), ("division", str "Pacific")])]

/-- A raw player record without a team and with an empty position. -/
def freeAgentPlayer : JVal :=
  obj [("id", num 7), ("first_name", str "Sam"), ("last_name", str "Doe"),
    ("position", str ""), ("team", null)]

/-- A run of single-day calls in which the call for the second past day fails. -/
def failingThirdCall (j : Nat) : Except JsError (List Game) :=
  if j = 2 then Except.error (JsError.upstream "Network Error") else Except.ok []

/-- The state of the games screen before its first load. -/
def initialGamesState : GamesState :=
  { todayGames := [], recentGames := [], upcomingGames := [], loading := true,
    refreshing := false, error := none }

/-! ## Lemmas on digits and `parseInt` -/

theorem isDigit_iff (c : Char) : c.isDigit = true ↔ 48 ≤ c.toNat ∧ c.toNat ≤ 57 := by
  unfold Char.isDigit
  simp only [Bool.and_eq_true, decide_eq_true_eq, ge_iff_le]
  rw [UInt32.le_def, UInt32.le_def]
  rfl

theorem not_ws_of_isDigit (c : Char) (h : c.isDigit = true) : isStrWhiteSpace c = false := by
  rw [isDigit_iff] at h
  unfold isStrWhiteSpace
  simp only [Bool.or_eq_false_iff, decide_eq_false_iff_not, Bool.and_eq_false_imp, decide_eq_true_eq]
  omega

theorem digitChar_spec (k : Nat) (hk : k < 10) :
    (Nat.digitChar k).isDigit = true ∧ (Nat.digitChar k).toNat - 48 = k := by
  interval_cases k <;> decide

theorem digitsValue_append_single (l : List Char) (c : Char) :
    digitsValue (l ++ [c]) = 10 * digitsValue l + (c.toNat - 48) := by
  simp [digitsValue, List.foldl_append]

theorem toDigitsCore_spec : ∀ (fuel n : Nat) (ds : List Char), n < fuel →
    ∃ l : List Char, Nat.toDigitsCore 10 fuel n ds = l ++ ds ∧ l ≠ [] ∧
      (∀ c ∈ l, c.isDigit = true) ∧ digitsValue l = n := by
  intro fuel
  induction fuel with
  | zero => intro n ds h; omega
  | succ fuel ih =>
    intro n ds h
    have hd := digitChar_spec (n % 10) (Nat.mod_lt _ (by decide))
    by_cases h0 : n / 10 = 0
    · refine ⟨[Nat.digitChar (n % 10)], ?_, by simp, ?_, ?_⟩
      · simp [Nat.toDigitsCore, h0]
      · intro c hc
        simp only [List.mem_singleton] at hc
        rw [hc]; exact hd.1
      · have : digitsValue [Nat.digitChar (n % 10)] = (Nat.digitChar (n % 10)).toNat - 48 := by
          simp [digitsValue]
        rw [this, hd.2]
        omega
    · have hlt : n / 10 < fuel := by omega
      obtain ⟨l, hl, _, hdig, hval⟩ := ih (n / 10) (Nat.digitChar (n % 10) :: ds) hlt
      refine ⟨l ++ [Nat.digitChar (n % 10)], ?_, by simp, ?_, ?_⟩
      · simp [Nat.toDigitsCore, h0, hl]
      · intro c hc
        rcases List.mem_append.mp hc with hc | hc
        · exact hdig c hc
        · simp only [List.mem_singleton] at hc
          rw [hc]; exact hd.1
      · rw [digitsValue_append_single, hval, hd.2]
        omega

theorem repr_digits (n : Nat) :
    (toString n).data ≠ [] ∧ (∀ c ∈ (toString n).data, c.isDigit = true) ∧
      digitsValue (toString n).data = n := by
  obtain ⟨l, hl, hne, hdig, hval⟩ := toDigitsCore_spec (n + 1) n [] (Nat.lt_succ_self n)
  have : (toString n).data = l := by
    show (Nat.repr n).data = l
    simp [Nat.repr, Nat.toDigits, hl, List.asString]
  rw [this]
  exact ⟨hne, hdig, hval⟩

theorem takeWhile_all {α : Type} (p : α → Bool) (l : List α) (h : ∀ x ∈ l, p x = true) :
    l.takeWhile p = l := by
  induction l with
  | nil => rfl
  | cons x xs ih =>
    simp only [List.takeWhile, h x (List.mem_cons_self _ _)]
    rw [ih (fun y hy => h y (List.mem_cons_of_mem _ hy))]

theorem roundInt_small (n : Int) (h : n.natAbs ≤ 2 ^ 53) : roundInt n = JsNum.int n := by
  unfold roundInt
  rw [if_pos h]

theorem intText_small (n : Int) (h : n.natAbs ≤ 2 ^ 53) : intText n = toString n := by
  unfold intText
  rw [if_pos h]

theorem splitSign_digit (d : Char) (rest : List Char) (hd : d.isDigit = true) :
    splitSign (d :: rest) = (false, d :: rest) := by
  have hm : d ≠ '-' := by
    intro h; rw [h] at hd; exact absurd hd (by decide)
  have hp : d ≠ '+' := by
    intro h; rw [h] at hd; exact absurd hd (by decide)
  unfold splitSign
  split
  · rename_i heq
    exact absurd (List.cons.inj heq).1 hm
  · rename_i heq
    exact absurd (List.cons.inj heq).1 hp
  · rfl

theorem parseIntStr_digits (ds : List Char) (hne : ds ≠ [])
    (hd : ∀ c ∈ ds, c.isDigit = true) :
    parseIntStr (String.mk ds) = roundInt (digitsValue ds) := by
  cases ds with
  | nil => exact absurd rfl hne
  | cons d rest =>
    have hdd := hd d (List.mem_cons_self _ _)
    have hws := not_ws_of_isDigit d hdd
    have htw := takeWhile_all Char.isDigit (d :: rest) hd
    unfold parseIntStr
    simp only [List.dropWhile, hws, splitSign_digit d rest hdd, htw]
    simp

theorem parseInt_numeral (n : Nat) (h : n ≤ 2 ^ 53) :
    parseInt (str (toString n)) = JsNum.int n := by
  obtain ⟨hne, hd, hv⟩ := repr_digits n
  have := parseIntStr_digits (toString n).data hne hd
  rw [hv, roundInt_small _ (by simpa using h)] at this
  exact this

theorem parseInt_natNum (n : Nat) (h : n ≤ 2 ^ 53) : parseInt (num n) = JsNum.int n := by
  have : toStr (num (n : Int)) = toString n := by
    simp only [toStr]
    rw [intText_small _ (by simpa using h)]
    rfl
  unfold parseInt
  rw [this]
  exact parseInt_numeral n h

/-! ## Scoreboard normalizer -/

theorem mapE_mem {α β : Type} (f : α → Except JsError β) :
    ∀ (xs : List α) (ys : List β), mapE f xs = Except.ok ys →
      ∀ y ∈ ys, ∃ x ∈ xs, f x = Except.ok y := by
  intro xs
  induction xs with
  | nil =>
    intro ys h y hy
    simp [mapE, pure, Except.pure] at h
    subst h
    simp at hy
  | cons a as ih =>
    intro ys h y hy
    simp only [mapE, bind, Except.bind] at h
    cases hfa : f a with
    | error e => rw [hfa] at h; simp at h
    | ok b =>
      rw [hfa] at h
      cases hrest : mapE f as with
      | error e => rw [hrest] at h; simp at h
      | ok bs =>
        rw [hrest] at h
        simp only [pure, Except.pure, Except.ok.injEq] at h
        subst h
        rcases List.mem_cons.mp hy with hy | hy
        · exact ⟨a, List.mem_cons_self _ _, by rw [hfa, hy]⟩
        · obtain ⟨x, hx, hfx⟩ := ih bs hrest y hy
          exact ⟨x, List.mem_cons_of_mem _ hx, hfx⟩

theorem parseEvent_sides (event : JVal) (g : Game) (h : parseEvent event = Except.ok g) :
    ∃ home away : JVal,
      findSide (idxOpt (getOpt event "competitions") 0) "home" = Except.ok home ∧
      findSide (idxOpt (getOpt event "competitions") 0) "away" = Except.ok away ∧
      g.homeTeam = teamSide home ∧ g.awayTeam = teamSide away := by
  unfold parseEvent at h
  simp only [bind, Except.bind] at h
  cases hc : getProp event "competitions" with
  | error e => rw [hc] at h; simp at h
  | ok competitions =>
    have hopt : getOpt event "competitions" = competitions := by
      cases event <;> simp_all [getProp, getOpt, pure, Except.pure, throw, throwThe, MonadExceptOf.throw]
    rw [hc] at h
    simp only at h
    rw [hopt]
    cases hh : findSide (idxOpt competitions 0) "home" with
    | error e => rw [hh] at h; simp at h
    | ok home =>
      rw [hh] at h
      cases ha : findSide (idxOpt competitions 0) "away" with
      | error e => rw [ha] at h; simp at h
      | ok away =>
        rw [ha] at h
        cases hs : parseGameStatus (getOpt (getOpt (getOpt event "status") "type") "state") with
        | error e => rw [hs] at h; simp at h
        | ok st =>
          rw [hs] at h
          simp only [pure, Except.pure, Except.ok.injEq] at h
          subst h
          exact ⟨home, away, rfl, rfl, rfl, rfl⟩

theorem getProp_eq_getOpt (v : JVal) (k : String) (h : v.isNullish = false) :
    getProp v k = Except.ok (getOpt v k) := by
  cases v <;> simp_all [getProp, getOpt, isNullish, pure, Except.pure]

theorem getProp_ok_getOpt (v r : JVal) (k : String) (h : getProp v k = Except.ok r) :
    getOpt v k = r ∧ v.isNullish = false := by
  cases v <;>
    simp_all [getProp, getOpt, isNullish, pure, Except.pure, throw, throwThe,
      MonadExceptOf.throw]

theorem truthy_false_of_nullish (v : JVal) (h : v.isNullish = true) : v.truthy = false := by
  cases v <;> simp_all [isNullish, truthy]

/-- C1: `parseGameStatus` is a total, case-insensitive mapping on state strings and on an
absent state: the result is `scheduled`, `live` or `final` exactly when the lowered string is
`pre`, `in` or `post`, and `unknown` otherwise and for `undefined`/`null`; it never raises
there and every result lies in the four-element status set. -/
theorem parseGameStatus_total_mapping :
    (∀ s : String, parseGameStatus (str s) = Except.ok
        (if toLowerCase s = "pre" then "scheduled"
         else if toLowerCase s = "in" then "live"
         else if toLowerCase s = "post" then "final"
         else "unknown")) ∧
    parseGameStatus undefined = Except.ok "unknown" ∧
    parseGameStatus null = Except.ok "unknown" ∧
    (∀ s : String, ∃ r : String, parseGameStatus (str s) = Except.ok r ∧
        r ∈ ["scheduled", "live", "final", "unknown"]) ∧
    (∀ s t : String, toLowerCase s = toLowerCase t →
        parseGameStatus (str s) = parseGameStatus (str t)) ∧
    parseGameStatus (str "pre") = Except.ok "scheduled" ∧
    parseGameStatus (str "PRE") = Except.ok "scheduled" ∧
    parseGameStatus (str "In") = Except.ok "live" ∧
    parseGameStatus (str "POST") = Except.ok "final" ∧
    parseGameStatus (str "halftime") = Except.ok "unknown" ∧
    parseGameStatus (str "") = Except.ok "unknown" := by
  have hmap : ∀ s : String, parseGameStatus (str s) = Except.ok
        (if toLowerCase s = "pre" then "scheduled"
         else if toLowerCase s = "in" then "live"
         else if toLowerCase s = "post" then "final"
         else "unknown") := by
    intro s
    unfold parseGameStatus
    simp only [pure, Except.pure]
    split_ifs <;> rfl
  refine ⟨hmap, rfl, rfl, ?_, ?_, rfl, rfl, rfl, rfl, rfl, rfl⟩
  · intro s
    refine ⟨_, hmap s, ?_⟩
    split_ifs <;> simp
  · intro s t hst
    rw [hmap s, hmap t, hst]

/-- C2, the failing input: for an event whose home competitor carries the non-numeric score
`"abc"` a game is produced whose home score is `NaN`, not the integer 0. -/
theorem parseESPNGames_non_numeric_score :
    (parseESPNGames nonNumericScorePayload).toOption.map
        (fun games => games.map (fun g => (g.homeTeam.score, g.homeTeam.score.isNonnegInt))) =
      some [(JsNum.nan, false)] := by
  rfl

/-- C3 (claim as stated fails): the payloads `null` and `undefined` lack the events
collection, and for them `parseESPNGames` raises a `TypeError` instead of returning the
empty sequence. -/
theorem parseESPNGames_null_payload :
    parseESPNGames null = Except.error JsError.typeError ∧
    parseESPNGames undefined = Except.error JsError.typeError :=
  ⟨rfl, rfl⟩

/-- C3 (amended): a payload other than `null` and `undefined` that lacks the events
collection (the property reads `undefined` or `null`) is normalized to the empty sequence,
without raising. -/
theorem parseESPNGames_missing_events (data : JVal) (hdata : data.isNullish = false)
    (hev : (getOpt data "events").isNullish = true) :
    parseESPNGames data = Except.ok [] := by
  unfold parseESPNGames
  rw [getProp_eq_getOpt data "events" hdata]
  simp only [bind, Except.bind, truthy_false_of_nullish _ hev]
  rfl

/-- C3 at concrete payloads: an empty document and a document with other keys only. -/
theorem parseESPNGames_missing_events_witness :
    parseESPNGames (obj []) = Except.ok [] ∧
    parseESPNGames (obj [("leagues", arr []), ("day", str "2024-01-01")]) = Except.ok [] :=
  ⟨parseESPNGames_missing_events (obj []) rfl rfl,
   parseESPNGames_missing_events (obj [("leagues", arr []), ("day", str "2024-01-01")]) rfl rfl⟩

/-! ## Duration parsing -/

theorem optGroup_nil (c : Char) : optGroup c [] = (none, []) := rfl

theorem optGroup_hit (c : Char) (ds rest : List Char) (hne : ds ≠ [])
    (hd : ∀ x ∈ ds, x.isDigit = true) (hc : c.isDigit = false) :
    optGroup c (ds ++ c :: rest) = (some ds, rest) := by
  have h1 : (ds ++ c :: rest).takeWhile Char.isDigit = ds := by
    rw [List.takeWhile_append_of_pos hd]
    simp [List.takeWhile, hc]
  have h2 : (ds ++ c :: rest).dropWhile Char.isDigit = c :: rest := by
    rw [List.dropWhile_append_of_pos hd]
    simp [List.dropWhile, hc]
  unfold optGroup
  rw [h1, h2]
  cases ds with
  | nil => exact absurd rfl hne
  | cons d ds => simp

theorem optGroup_miss (c c1 : Char) (ds rest : List Char)
    (hd : ∀ x ∈ ds, x.isDigit = true) (hc : c1.isDigit = false) (hne : c1 ≠ c) :
    optGroup c (ds ++ c1 :: rest) = (none, ds ++ c1 :: rest) := by
  have h1 : (ds ++ c1 :: rest).takeWhile Char.isDigit = ds := by
    rw [List.takeWhile_append_of_pos hd]
    simp [List.takeWhile, hc]
  have h2 : (ds ++ c1 :: rest).dropWhile Char.isDigit = c1 :: rest := by
    rw [List.dropWhile_append_of_pos hd]
    simp [List.dropWhile, hc]
  unfold optGroup
  rw [h1, h2]
  cases ds with
  | nil => simp
  | cons d ds => simp [hne]

theorem mk_truthy (l : List Char) (h : l ≠ []) : (str (String.mk l)).truthy = true := by
  simp only [truthy, bne_iff_ne, ne_eq]
  intro hcon
  exact h (congrArg String.data hcon)

theorem parseInt_capture_some (ds : List Char) (hne : ds ≠ [])
    (hd : ∀ c ∈ ds, c.isDigit = true) :
    parseInt ((capture (some ds)).or (num 0)) = roundInt (digitsValue ds) := by
  simp only [capture, JVal.or, mk_truthy ds hne, if_true]
  exact parseIntStr_digits ds hne hd

theorem parseInt_capture_none : parseInt ((capture none).or (num 0)) = JsNum.int 0 := rfl

theorem roundInt_zero : roundInt 0 = JsNum.int 0 := rfl

theorem parseInt_capture_numeral (n : Nat) :
    parseInt ((capture (some (toString n).data)).or (num 0)) = roundInt n := by
  obtain ⟨hne, hd, hv⟩ := repr_digits n
  rw [parseInt_capture_some _ hne hd, hv]

theorem parseDuration_text (h m s : Option Nat) :
    parseDuration (str (durationText h m s)) =
      Except.ok (durationSum (roundInt (h.getD 0 : Nat)) (roundInt (m.getD 0 : Nat))
        (roundInt (s.getD 0 : Nat))) := by
  have hH : Char.isDigit 'H' = false := by decide
  have hM : Char.isDigit 'M' = false := by decide
  have hS : Char.isDigit 'S' = false := by decide
  have hMH : 'M' ≠ 'H' := by decide
  have hSH : 'S' ≠ 'H' := by decide
  have hSM : 'S' ≠ 'M' := by decide
  have ht : (str (durationText h m s)).truthy = true := mk_truthy _ (by simp)
  unfold parseDuration
  simp only [ht, if_true]
  simp only [durationText, durationMatch, matchHere]
  cases h with
  | none =>
    cases m with
    | none =>
      cases s with
      | none => rfl
      | some c =>
        obtain ⟨hne, hd, hv⟩ := repr_digits c
        simp only [componentText, List.nil_append, List.append_assoc, List.singleton_append,
          optGroup_miss 'H' 'S' _ [] hd hS hSH, optGroup_miss 'M' 'S' _ [] hd hS hSM,
          optGroup_hit 'S' _ [] hne hd hS, parseInt_capture_none, parseInt_capture_numeral]
        simp [roundInt_zero, pure, Except.pure]
    | some b =>
      obtain ⟨hneb, hdb, hvb⟩ := repr_digits b
      cases s with
      | none =>
        simp only [componentText, List.nil_append, List.append_nil, List.append_assoc,
          List.singleton_append,
          optGroup_miss 'H' 'M' _ [] hdb hM hMH, optGroup_hit 'M' _ [] hneb hdb hM,
          optGroup_nil, parseInt_capture_none, parseInt_capture_numeral]
        simp [roundInt_zero, pure, Except.pure]
      | some c =>
        obtain ⟨hne, hd, hv⟩ := repr_digits c
        simp only [componentText, List.nil_append, List.append_assoc, List.singleton_append,
          optGroup_miss 'H' 'M' _ _ hdb hM hMH, optGroup_hit 'M' _ _ hneb hdb hM,
          optGroup_hit 'S' _ [] hne hd hS, parseInt_capture_none, parseInt_capture_numeral]
        simp [roundInt_zero, pure, Except.pure]
  | some a =>
    obtain ⟨hnea, hda, hva⟩ := repr_digits a
    cases m with
    | none =>
      cases s with
      | none =>
        simp only [componentText, List.nil_append, List.append_nil, List.append_assoc,
          List.singleton_append,
          optGroup_hit 'H' _ [] hnea hda hH,
          optGroup_nil, parseInt_capture_none, parseInt_capture_numeral]
        simp [roundInt_zero, pure, Except.pure]
      | some c =>
        obtain ⟨hne, hd, hv⟩ := repr_digits c
        simp only [componentText, List.nil_append, List.append_assoc, List.singleton_append,
          optGroup_hit 'H' _ _ hnea hda hH,
          optGroup_miss 'M' 'S' _ [] hd hS hSM,
          optGroup_hit 'S' _ [] hne hd hS, parseInt_capture_none, parseInt_capture_numeral]
        simp [roundInt_zero, pure, Except.pure]
    | some b =>
      obtain ⟨hneb, hdb, hvb⟩ := repr_digits b
      cases s with
      | none =>
        simp only [componentText, List.nil_append, List.append_nil, List.append_assoc,
          List.singleton_append,
          optGroup_hit 'H' _ _ hnea hda hH, optGroup_hit 'M' _ [] hneb hdb hM,
          optGroup_nil, parseInt_capture_none, parseInt_capture_numeral]
        simp [roundInt_zero, pure, Except.pure]
      | some c =>
        obtain ⟨hne, hd, hv⟩ := repr_digits c
        simp only [componentText, List.nil_append, List.append_assoc, List.singleton_append,
          optGroup_hit 'H' _ _ hnea hda hH, optGroup_hit 'M' _ _ hneb hdb hM,
          optGroup_hit 'S' _ [] hne hd hS, parseInt_capture_none, parseInt_capture_numeral]
        simp [roundInt_zero, pure, Except.pure]

theorem optGroup_capture (c : Char) (s : List Char) :
    (optGroup c s).1 = none ∨
      ∃ ds : List Char, ds ≠ [] ∧ (∀ x ∈ ds, x.isDigit = true) ∧ (optGroup c s).1 = some ds := by
  unfold optGroup
  split
  · rename_i d ds c1 rest htw hdw
    split
    · right
      refine ⟨d :: ds, by simp, ?_, rfl⟩
      intro x hx
      rw [← htw] at hx
      exact List.mem_takeWhile_imp hx
    · left; rfl
  · left; rfl

theorem roundToDouble_nonneg (p q : Nat) :
    (∃ m k, roundToDouble false p q = Dbl.fin false m k) ∨
      roundToDouble false p q = Dbl.inf false := by
  unfold roundToDouble
  simp only []
  split_ifs
  · exact Or.inl ⟨_, _, rfl⟩
  · exact Or.inr rfl
  · exact Or.inl ⟨_, _, rfl⟩
  · exact Or.inl ⟨_, _, rfl⟩

theorem roundInt_count (n : Nat) : (roundInt (n : Int)).isCount = true := by
  unfold roundInt
  have hneg : decide (((n : Nat) : Int) < 0) = false := by simp
  split_ifs
  · simp [JsNum.isCount]
  · rw [hneg, Int.natAbs_ofNat]
    rcases roundToDouble_nonneg n 1 with ⟨m, k, h⟩ | h
    · rw [h]
      simp only [Bool.false_eq_true, if_false, JsNum.isCount, decide_eq_true_eq]
      exact Int.ofNat_nonneg _
    · rw [h]
      rfl

theorem mul_count (x : JsNum) (c : Nat) (hc : 0 < c) (hx : x.isCount = true) :
    (x.mul (JsNum.int c)).isCount = true := by
  cases x with
  | nan => simp [JsNum.isCount] at hx
  | int a =>
    have ha : 0 ≤ a := by simpa [JsNum.isCount] using hx
    obtain ⟨k, rfl⟩ := Int.eq_ofNat_of_zero_le ha
    have : ((k : Int) * (c : Int)) = ((k * c : Nat) : Int) := by push_cast; rfl
    simp only [JsNum.mul]
    rw [this]
    exact roundInt_count _
  | inf neg =>
    have hn : neg = false := by simpa [JsNum.isCount] using hx
    subst hn
    have hc0 : ((c : Nat) : Int) ≠ 0 := by exact_mod_cast (Nat.pos_iff_ne_zero.1 hc)
    have hcn : decide (((c : Nat) : Int) < 0) = false := by simp
    simp [JsNum.mul, hc0, hcn, JsNum.isCount]

theorem add_count (x y : JsNum) (hx : x.isCount = true) (hy : y.isCount = true) :
    (x.add y).isCount = true := by
  cases x with
  | nan => simp [JsNum.isCount] at hx
  | int a =>
    have ha : 0 ≤ a := by simpa [JsNum.isCount] using hx
    obtain ⟨k, rfl⟩ := Int.eq_ofNat_of_zero_le ha
    cases y with
    | nan => simp [JsNum.isCount] at hy
    | int b =>
      have hb : 0 ≤ b := by simpa [JsNum.isCount] using hy
      obtain ⟨l, rfl⟩ := Int.eq_ofNat_of_zero_le hb
      have : ((k : Int) + (l : Int)) = ((k + l : Nat) : Int) := by push_cast; rfl
      simp only [JsNum.add]
      rw [this]
      exact roundInt_count _
    | inf neg => simpa [JsNum.add] using hy
  | inf neg =>
    have hn : neg = false := by simpa [JsNum.isCount] using hx
    subst hn
    cases y with
    | nan => simp [JsNum.isCount] at hy
    | int b => simp [JsNum.add, JsNum.isCount]
    | inf neg2 =>
      have hn2 : neg2 = false := by simpa [JsNum.isCount] using hy
      subst hn2
      simp [JsNum.add, JsNum.isCount]

theorem durationSum_count (x y z : JsNum) (hx : x.isCount = true) (hy : y.isCount = true)
    (hz : z.isCount = true) : (durationSum x y z).isCount = true := by
  unfold durationSum
  exact add_count _ _ (add_count _ _ (mul_count x 3600 (by decide) hx)
    (mul_count y 60 (by decide) hy)) hz

theorem durationSum_exact (h m s : Nat) (hb : 3600 * h + 60 * m + s ≤ 2 ^ 53) :
    durationSum (roundInt h) (roundInt m) (roundInt s) =
      JsNum.int ((3600 * h + 60 * m + s : Nat) : Int) := by
  have e1 : roundInt ((h : Nat) : Int) = JsNum.int h :=
    roundInt_small _ (by rw [Int.natAbs_ofNat]; omega)
  have e2 : roundInt ((m : Nat) : Int) = JsNum.int m :=
    roundInt_small _ (by rw [Int.natAbs_ofNat]; omega)
  have e3 : roundInt ((s : Nat) : Int) = JsNum.int s :=
    roundInt_small _ (by rw [Int.natAbs_ofNat]; omega)
  have e4 : roundInt ((h : Int) * 3600) = JsNum.int ((h * 3600 : Nat) : Int) := by
    have : ((h : Int) * 3600) = ((h * 3600 : Nat) : Int) := by push_cast; rfl
    rw [this]
    exact roundInt_small _ (by rw [Int.natAbs_ofNat]; omega)
  have e5 : roundInt ((m : Int) * 60) = JsNum.int ((m * 60 : Nat) : Int) := by
    have : ((m : Int) * 60) = ((m * 60 : Nat) : Int) := by push_cast; rfl
    rw [this]
    exact roundInt_small _ (by rw [Int.natAbs_ofNat]; omega)
  have e6 : roundInt (((h * 3600 : Nat) : Int) + ((m * 60 : Nat) : Int)) =
      JsNum.int ((h * 3600 + m * 60 : Nat) : Int) := by
    have : (((h * 3600 : Nat) : Int) + ((m * 60 : Nat) : Int)) =
        ((h * 3600 + m * 60 : Nat) : Int) := by push_cast; rfl
    rw [this]
    exact roundInt_small _ (by rw [Int.natAbs_ofNat]; omega)
  have e7 : roundInt (((h * 3600 + m * 60 : Nat) : Int) + ((s : Nat) : Int)) =
      JsNum.int ((3600 * h + 60 * m + s : Nat) : Int) := by
    have : (((h * 3600 + m * 60 : Nat) : Int) + ((s : Nat) : Int)) =
        ((3600 * h + 60 * m + s : Nat) : Int) := by push_cast; ring
    rw [this]
    exact roundInt_small _ (by rw [Int.natAbs_ofNat]; omega)
  unfold durationSum
  rw [e1, e2, e3]
  simp only [JsNum.mul, JsNum.add]
  rw [e4, e5]
  simp only [JsNum.add]
  rw [e6]
  simp only [JsNum.add]
  rw [e7]

theorem parseInt_capture_count (c : Char) (s : List Char) :
    (parseInt ((capture (optGroup c s).1).or (num 0))).isCount = true := by
  rcases optGroup_capture c s with h | ⟨ds, hne, hd, h⟩
  · rw [h, parseInt_capture_none]
    rfl
  · rw [h, parseInt_capture_some ds hne hd]
    exact roundInt_count _

theorem matchHere_some (t : List Char) (m : DurationMatch) (h : matchHere t = some m) :
    ∃ r0 : List Char, t = 'P' :: 'T' :: r0 ∧
      m = { hours := (optGroup 'H' r0).1
            minutes := (optGroup 'M' (optGroup 'H' r0).2).1
            seconds := (optGroup 'S' (optGroup 'M' (optGroup 'H' r0).2).2).1 } := by
  unfold matchHere at h
  split at h
  · rename_i r0
    simp only [Option.some.injEq] at h
    exact ⟨r0, rfl, h.symm⟩
  · simp at h

theorem durationMatch_some (l : List Char) (m : DurationMatch) (h : durationMatch l = some m) :
    ∃ pre t : List Char, l = pre ++ t ∧ matchHere t = some m := by
  induction l with
  | nil => simp [durationMatch] at h
  | cons c cs ih =>
    unfold durationMatch at h
    cases hm : matchHere (c :: cs) with
    | some m1 =>
      rw [hm] at h
      simp only [Option.some.injEq] at h
      subst h
      exact ⟨[], c :: cs, rfl, hm⟩
    | none =>
      rw [hm] at h
      obtain ⟨pre, t, hl, ht⟩ := ih h
      exact ⟨c :: pre, t, by rw [hl]; rfl, ht⟩

theorem durationMatch_none_of_no_PT (l : List Char) (h : ¬ (['P', 'T'] <:+: l)) :
    durationMatch l = none := by
  cases hd : durationMatch l with
  | none => rfl
  | some m =>
    exfalso
    obtain ⟨pre, t, hl, ht⟩ := durationMatch_some l m hd
    obtain ⟨r0, hr0, _⟩ := matchHere_some t m ht
    apply h
    exact ⟨pre, r0, by rw [hl, hr0]; simp⟩

theorem parseDuration_str_count (s : String) :
    ∃ r : JsNum, parseDuration (str s) = Except.ok r ∧ r.isCount = true := by
  unfold parseDuration
  by_cases ht : (str s).truthy = true
  · simp only [ht, if_true]
    cases hd : durationMatch s.data with
    | none => exact ⟨JsNum.int 0, rfl, rfl⟩
    | some m =>
      obtain ⟨pre, t, _, hmt⟩ := durationMatch_some s.data m hd
      obtain ⟨r0, _, hm⟩ := matchHere_some t m hmt
      subst hm
      exact ⟨_, rfl, durationSum_count _ _ _ (parseInt_capture_count 'H' r0)
        (parseInt_capture_count 'M' _) (parseInt_capture_count 'S' _)⟩
  · simp only [ht]
    exact ⟨JsNum.int 0, rfl, rfl⟩

theorem parseDuration_ok_count (v : JVal) (r : JsNum) (h : parseDuration v = Except.ok r) :
    r.isCount = true := by
  by_cases ht : v.truthy = true
  · cases v with
    | str s =>
      obtain ⟨r2, hr2, hc⟩ := parseDuration_str_count s
      rw [hr2] at h
      injection h with h
      rw [← h]
      exact hc
    | _ =>
      unfold parseDuration at h
      rw [ht] at h
      simp [throw, throwThe, MonadExceptOf.throw] at h
  · have hf : v.truthy = false := by simpa using ht
    unfold parseDuration at h
    rw [hf] at h
    simp only [Bool.false_eq_true, if_false, pure, Except.pure, Except.ok.injEq] at h
    rw [← h]
    rfl

theorem isCount_cases (r : JsNum) (h : r.isCount = true) :
    (∃ n : Nat, r = JsNum.int n) ∨ r = JsNum.inf false := by
  cases r with
  | nan => simp [JsNum.isCount] at h
  | int a =>
    have ha : 0 ≤ a := by simpa [JsNum.isCount] using h
    obtain ⟨k, rfl⟩ := Int.eq_ofNat_of_zero_le ha
    exact Or.inl ⟨k, rfl⟩
  | inf neg =>
    have hn : neg = false := by simpa [JsNum.isCount] using h
    subst hn
    exact Or.inr rfl

theorem roundInt_overflow : roundInt ((10 ^ 309 : Nat) : Int) = JsNum.inf false := by
  decide!

theorem roundInt_above_two53 :
    roundInt 9007199254740993 = JsNum.int 9007199254740992 := by
  decide!

/-- C4 (claim as stated fails): numbers are doubles, so a component beyond `2^53` is not
read exactly: `PT9007199254740993S` gives 9007199254740992 seconds. -/
theorem parseDuration_rounds_large_component :
    parseDuration (str "PT9007199254740993S") = Except.ok (JsNum.int 9007199254740992) := by
  have ht : "PT9007199254740993S" = durationText none none (some 9007199254740993) := by
    decide
  rw [ht, parseDuration_text]
  simp only [Option.getD, Nat.cast_zero, roundInt_zero]
  rw [show ((9007199254740993 : Nat) : Int) = 9007199254740993 from rfl,
    roundInt_above_two53]
  rfl

/-- C4 (amended): for all natural numbers `h`, `m`, `s` with `3600·h + 60·m + s ≤ 2^53`, on
the text `PT` followed by any subset, in H-M-S order, of the components `<h>H`, `<m>M`,
`<s>S` (decimal numerals), `parseDuration` returns `3600·h + 60·m + s`, an omitted component
counting as zero; in particular `PT1M30S` gives 90, `PT0M0S` gives 0, `PT2H` gives 7200 and
the empty string gives 0. -/
theorem parseDuration_components :
    (∀ h m s : Option Nat,
      3600 * (h.getD 0 : Nat) + 60 * (m.getD 0 : Nat) + (s.getD 0 : Nat) ≤ 2 ^ 53 →
      parseDuration (str (durationText h m s)) =
        Except.ok (JsNum.int
          ((3600 * (h.getD 0 : Nat) + 60 * (m.getD 0 : Nat) + (s.getD 0 : Nat) : Nat) : Int))) ∧
    durationText none (some 1) (some 30) = "PT1M30S" ∧
    durationText (some 2) none none = "PT2H" ∧
    durationText (some 1) (some 2) (some 3) = "PT1H2M3S" ∧
    parseDuration (str "PT1M30S") = Except.ok (JsNum.int 90) ∧
    parseDuration (str "PT0M0S") = Except.ok (JsNum.int 0) ∧
    parseDuration (str "PT2H") = Except.ok (JsNum.int 7200) ∧
    parseDuration (str "") = Except.ok (JsNum.int 0) :=
  ⟨fun h m s hb => by rw [parseDuration_text, durationSum_exact _ _ _ hb],
    by decide, by decide, by decide, rfl, rfl, rfl, rfl⟩

/-- C5 (claim as stated fails): text around a PT-duration does not make the result zero,
because the pattern has no anchors and the embedded duration is read; and a truthy input
that is not a string, such as the number 90, has no `match` method, so the call raises. -/
theorem parseDuration_embedded_duration :
    parseDuration (str "xPT1M30S") = Except.ok (JsNum.int 90) ∧
    parseDuration (str "PT1M30S trailing") = Except.ok (JsNum.int 90) ∧
    parseDuration (num 90) = Except.error JsError.typeError ∧
    parseDuration (JVal.bool true) = Except.error JsError.typeError ∧
    parseDuration (arr []) = Except.error JsError.typeError ∧
    parseDuration (obj []) = Except.error JsError.typeError :=
  ⟨rfl, rfl, rfl, rfl, rfl, rfl⟩

/-- C5 (amended): `parseDuration` returns 0 for every falsy input (absent, `null`, the empty
string, 0, `false`) and for every string that does not contain `PT`; on every string it
returns without raising a non-negative integer or `+Infinity` (a seconds component of 310
digits gives `+Infinity`); on a truthy input that is not a string it raises a
`TypeError`. -/
theorem parseDuration_unparseable :
    (∀ v : JVal, v.truthy = false → parseDuration v = Except.ok (JsNum.int 0)) ∧
    parseDuration undefined = Except.ok (JsNum.int 0) ∧
    parseDuration null = Except.ok (JsNum.int 0) ∧
    parseDuration (str "") = Except.ok (JsNum.int 0) ∧
    (∀ s : String, (∃ n : Nat, parseDuration (str s) = Except.ok (JsNum.int n)) ∨
      parseDuration (str s) = Except.ok (JsNum.inf false)) ∧
    (∀ s : String, ¬ (['P', 'T'] <:+: s.data) →
      parseDuration (str s) = Except.ok (JsNum.int 0)) ∧
    (∀ v : JVal, v.truthy = true → (∀ s : String, v ≠ str s) →
      parseDuration v = Except.error JsError.typeError) ∧
    parseDuration (str (durationText none none (some (10 ^ 309)))) =
      Except.ok (JsNum.inf false) := by
  refine ⟨?_, rfl, rfl, rfl, ?_, ?_, ?_, ?_⟩
  rotate_right
  · rw [parseDuration_text]
    simp only [Option.getD, Nat.cast_zero, roundInt_zero, roundInt_overflow]
    rfl
  · intro v hv
    unfold parseDuration
    rw [hv]
    rfl
  · intro s
    obtain ⟨r, hr, hc⟩ := parseDuration_str_count s
    rcases isCount_cases r hc with ⟨n, rfl⟩ | rfl
    · exact Or.inl ⟨n, hr⟩
    · exact Or.inr hr
  · intro s hs
    unfold parseDuration
    by_cases ht : (str s).truthy = true
    · simp only [ht, if_true, durationMatch_none_of_no_PT s.data hs]
      rfl
    · simp only [ht]
      rfl
  · intro v hv hns
    unfold parseDuration
    rw [hv]
    cases v with
    | str s => exact absurd rfl (hns s)
    | _ => rfl

/-! ## Video feed provider -/

theorem buildPage_ok (rdata ddata items detailItems : JVal) (reels : List Reel)
    (h2 : getProp rdata "items" = Except.ok items)
    (h5 : getProp ddata "items" = Except.ok detailItems)
    (h6 : parseYouTubeVideos items detailItems = Except.ok reels) :
    buildPage rdata ddata = Except.ok
      { reels := reels.filter (fun reel => reel.durationSeconds.lt (JsNum.int 300))
        nextPageToken := getOpt rdata "nextPageToken"
        hasMore := (getOpt rdata "nextPageToken").truthy } := by
  have hn := (getProp_ok_getOpt rdata items "items" h2).2
  unfold buildPage
  simp only [h2, h5, h6, getProp_eq_getOpt rdata "nextPageToken" hn, bind, Except.bind, pure,
    Except.pure]

theorem fetch_miss_ok (up : Upstream) (pageToken : JVal) (forceRefresh : Bool)
    (now nowWrite : Int) (w : World) (rdata ddata items : JVal) (ids : String)
    (result : ReelsPage)
    (hmiss : cachedPage pageToken forceRefresh now w = none)
    (h1 : up.playlistItems pageToken = Except.ok rdata)
    (h2 : getProp rdata "items" = Except.ok items)
    (h3 : videoIdList items = Except.ok ids)
    (h4 : up.videos ids = Except.ok ddata)
    (h5 : buildPage rdata ddata = Except.ok result) :
    fetchNBAHighlights up pageToken forceRefresh now nowWrite w =
      (Except.ok result,
        { cache := if pageToken.truthy then w.cache
            else some { data := result, timestamp := nowWrite }
          playlistCalls := w.playlistCalls + 1
          videoCalls := w.videoCalls + 1 }) := by
  unfold fetchNBAHighlights
  simp only [hmiss, h1, h2, bind, Except.bind, h3, h4, h5]
  by_cases ht : pageToken.truthy = true <;> simp [ht]

theorem fetch_miss_calls (up : Upstream) (pageToken : JVal) (forceRefresh : Bool)
    (now nowWrite : Int) (w : World)
    (hmiss : cachedPage pageToken forceRefresh now w = none) :
    (fetchNBAHighlights up pageToken forceRefresh now nowWrite w).2.playlistCalls =
      w.playlistCalls + 1 := by
  unfold fetchNBAHighlights
  simp only [hmiss]
  cases up.playlistItems pageToken with
  | error e => rfl
  | ok rdata =>
    simp only
    cases (getProp rdata "items" >>= videoIdList) with
    | error e => rfl
    | ok ids =>
      simp only
      cases up.videos ids with
      | error e => rfl
      | ok ddata =>
        simp only
        cases buildPage rdata ddata with
        | error e => rfl
        | ok result =>
          simp only
          split <;> rfl

theorem fetch_hit (up : Upstream) (pageToken : JVal) (forceRefresh : Bool)
    (now nowWrite : Int) (w : World) (data : ReelsPage)
    (hhit : cachedPage pageToken forceRefresh now w = some data) :
    fetchNBAHighlights up pageToken forceRefresh now nowWrite w = (Except.ok data, w) := by
  unfold fetchNBAHighlights
  simp only [hhit]

/-- What a completed request that was not served from the cache went through. -/
theorem fetch_miss_inv (up : Upstream) (pageToken : JVal) (forceRefresh : Bool)
    (now nowWrite : Int) (w w1 : World) (page : ReelsPage)
    (hmiss : cachedPage pageToken forceRefresh now w = none)
    (h : fetchNBAHighlights up pageToken forceRefresh now nowWrite w = (Except.ok page, w1)) :
    ∃ (rdata ddata items : JVal) (ids : String),
      up.playlistItems pageToken = Except.ok rdata ∧
      getProp rdata "items" = Except.ok items ∧
      videoIdList items = Except.ok ids ∧
      up.videos ids = Except.ok ddata ∧
      buildPage rdata ddata = Except.ok page := by
  unfold fetchNBAHighlights at h
  simp only [hmiss] at h
  cases h1 : up.playlistItems pageToken with
  | error e => rw [h1] at h; simp at h
  | ok rdata =>
    rw [h1] at h
    simp only at h
    cases h2 : getProp rdata "items" with
    | error e => rw [h2] at h; simp [bind, Except.bind] at h
    | ok items =>
      rw [h2] at h
      simp only [bind, Except.bind] at h
      cases h3 : videoIdList items with
      | error e => rw [h3] at h; simp at h
      | ok ids =>
        rw [h3] at h
        simp only at h
        cases h4 : up.videos ids with
        | error e => rw [h4] at h; simp at h
        | ok ddata =>
          rw [h4] at h
          simp only at h
          cases h5 : buildPage rdata ddata with
          | error e => rw [h5] at h; simp at h
          | ok result =>
            rw [h5] at h
            simp only at h
            refine ⟨rdata, ddata, items, ids, rfl, h2, h3, h4, ?_⟩
            split at h
            · simp only [Prod.mk.injEq, Except.ok.injEq] at h
              rw [← h.1]; exact h5
            · simp only [Prod.mk.injEq, Except.ok.injEq] at h
              rw [← h.1]; exact h5

theorem fetch_error_cache (up : Upstream) (pageToken : JVal) (forceRefresh : Bool)
    (now nowWrite : Int) (w : World) (e : JsError)
    (h : (fetchNBAHighlights up pageToken forceRefresh now nowWrite w).1 = Except.error e) :
    (fetchNBAHighlights up pageToken forceRefresh now nowWrite w).2.cache = w.cache := by
  unfold fetchNBAHighlights at h ⊢
  cases hc : cachedPage pageToken forceRefresh now w with
  | some data => simp only [hc]
  | none =>
    simp only [hc] at h ⊢
    cases h1 : up.playlistItems pageToken with
    | error e => rfl
    | ok rdata =>
      rw [h1] at h
      simp only at h ⊢
      cases h2 : (getProp rdata "items" >>= videoIdList) with
      | error e => rfl
      | ok ids =>
        rw [h2] at h
        simp only at h ⊢
        cases h4 : up.videos ids with
        | error e => rfl
        | ok ddata =>
          rw [h4] at h
          simp only at h ⊢
          cases h5 : buildPage rdata ddata with
          | error e => rfl
          | ok result =>
            rw [h5] at h
            simp only at h
            split at h <;> simp at h

theorem cachedPage_forced (pageToken : JVal) (now : Int) (w : World) :
    cachedPage pageToken true now w = none := by
  simp [cachedPage]

theorem cachedPage_token (pageToken : JVal) (forceRefresh : Bool) (now : Int) (w : World)
    (h : pageToken.truthy = true) : cachedPage pageToken forceRefresh now w = none := by
  simp [cachedPage, h]

theorem cachedPage_empty (pageToken : JVal) (forceRefresh : Bool) (now : Int) (w : World)
    (h : w.cache = none) : cachedPage pageToken forceRefresh now w = none := by
  simp [cachedPage, h]

theorem cachedPage_fresh (pageToken : JVal) (now : Int) (w : World) (entry : CacheEntry)
    (htok : pageToken.truthy = false) (hc : w.cache = some entry)
    (hage : now - entry.timestamp < CACHE_DURATION) :
    cachedPage pageToken false now w = some entry.data := by
  simp [cachedPage, htok, hc, hage]

theorem cachedPage_stale (pageToken : JVal) (forceRefresh : Bool) (now : Int) (w : World)
    (entry : CacheEntry) (hc : w.cache = some entry)
    (hage : CACHE_DURATION ≤ now - entry.timestamp) :
    cachedPage pageToken forceRefresh now w = none := by
  have : ¬ (now - entry.timestamp < CACHE_DURATION) := not_lt.mpr hage
  simp [cachedPage, hc, this]

theorem mapE_map {α β γ : Type} (f : α → Except JsError β) (g : α → Except JsError γ)
    (p : β → γ) (hfg : ∀ (x : α) (y : β), f x = Except.ok y → g x = Except.ok (p y)) :
    ∀ (xs : List α) (ys : List β), mapE f xs = Except.ok ys →
      mapE g xs = Except.ok (ys.map p) := by
  intro xs
  induction xs with
  | nil =>
    intro ys h
    simp only [mapE, pure, Except.pure, Except.ok.injEq] at h
    subst h
    rfl
  | cons a as ih =>
    intro ys h
    simp only [mapE, bind, Except.bind] at h
    cases hfa : f a with
    | error e => rw [hfa] at h; simp at h
    | ok b =>
      rw [hfa] at h
      cases hrest : mapE f as with
      | error e => rw [hrest] at h; simp at h
      | ok bs =>
        rw [hrest] at h
        simp only [pure, Except.pure, Except.ok.injEq] at h
        subst h
        simp only [mapE, bind, Except.bind, hfg a b hfa, ih bs hrest, pure, Except.pure,
          List.map_cons]

theorem parseItem_videoId (detailsMap : PlainObj) (item : JVal) (r : Reel)
    (h : parseItem detailsMap item = Except.ok r) :
    itemVideoId item = Except.ok r.videoId := by
  unfold parseItem at h
  unfold itemVideoId
  simp only [bind, Except.bind] at h ⊢
  cases h1 : getProp item "contentDetails" with
  | error e => rw [h1] at h; simp at h
  | ok contentDetails =>
    rw [h1] at h
    simp only at h ⊢
    cases h2 : getProp contentDetails "videoId" with
    | error e => rw [h2] at h; simp at h
    | ok videoId =>
      rw [h2] at h
      simp only at h
      cases h3 : getProp item "snippet" with
      | error e => rw [h3] at h; simp at h
      | ok snippet =>
        rw [h3] at h
        simp only at h
        cases h4 : getProp snippet "title" with
        | error e => rw [h4] at h; simp at h
        | ok title =>
          rw [h4] at h
          simp only at h
          split at h
          · simp at h
          · simp only [pure, Except.pure, Except.ok.injEq] at h
            rw [← h]

theorem parseYouTubeVideos_order (items detailItems : JVal) (reels : List Reel)
    (h : parseYouTubeVideos items detailItems = Except.ok reels) :
    ∃ elems : List JVal, items = arr elems ∧
      mapE itemVideoId elems = Except.ok (reels.map (fun r => r.videoId)) := by
  unfold parseYouTubeVideos at h
  cases detailItems with
  | arr videos =>
    simp only [bind, Except.bind] at h
    cases hm : buildDetailsMap videos PlainObj.empty with
    | error e => rw [hm] at h; simp at h
    | ok detailsMap =>
      rw [hm] at h
      simp only at h
      cases items with
      | arr elems =>
        simp only at h
        exact ⟨elems, rfl, mapE_map (parseItem detailsMap) itemVideoId (fun r => r.videoId)
          (parseItem_videoId detailsMap) elems reels h⟩
      | _ => simp [throw, throwThe, MonadExceptOf.throw] at h
  | _ => simp [throw, throwThe, MonadExceptOf.throw] at h

theorem parseItem_count (detailsMap : PlainObj) (item : JVal) (r : Reel)
    (h : parseItem detailsMap item = Except.ok r) : r.durationSeconds.isCount = true := by
  unfold parseItem at h
  simp only [bind, Except.bind] at h
  cases h1 : getProp item "contentDetails" with
  | error e => rw [h1] at h; simp at h
  | ok contentDetails =>
    rw [h1] at h
    simp only at h
    cases h2 : getProp contentDetails "videoId" with
    | error e => rw [h2] at h; simp at h
    | ok videoId =>
      rw [h2] at h
      simp only at h
      cases h3 : getProp item "snippet" with
      | error e => rw [h3] at h; simp at h
      | ok snippet =>
        rw [h3] at h
        simp only at h
        cases h4 : getProp snippet "title" with
        | error e => rw [h4] at h; simp at h
        | ok title =>
          rw [h4] at h
          simp only at h
          cases h5 : parseDuration (getOpt (getOpt
              ((detailsMap.get videoId.toStr).or (obj [])) "contentDetails") "duration") with
          | error e => rw [h5] at h; simp at h
          | ok d =>
            rw [h5] at h
            simp only [pure, Except.pure, Except.ok.injEq] at h
            rw [← h]
            exact parseDuration_ok_count _ _ h5

theorem parseYouTubeVideos_count (items detailItems : JVal) (reels : List Reel)
    (h : parseYouTubeVideos items detailItems = Except.ok reels) :
    ∀ r ∈ reels, r.durationSeconds.isCount = true := by
  unfold parseYouTubeVideos at h
  cases detailItems with
  | arr videos =>
    simp only [bind, Except.bind] at h
    cases hm : buildDetailsMap videos PlainObj.empty with
    | error e => rw [hm] at h; simp at h
    | ok detailsMap =>
      rw [hm] at h
      simp only at h
      cases items with
      | arr elems =>
        simp only at h
        intro r hr
        obtain ⟨x, _, hx⟩ := mapE_mem (parseItem detailsMap) elems reels h r hr
        exact parseItem_count detailsMap x r hx
      | _ => simp [throw, throwThe, MonadExceptOf.throw] at h
  | _ => simp [throw, throwThe, MonadExceptOf.throw] at h

theorem lt_300_iff (x : JsNum) (hx : x.isCount = true) :
    x.lt (JsNum.int 300) = true ↔ ∃ n : Int, x = JsNum.int n ∧ n < 300 := by
  cases x with
  | nan => simp [JsNum.lt]
  | int n => simp [JsNum.lt]
  | inf neg =>
    have hn : neg = false := by simpa [JsNum.isCount] using hx
    subst hn
    simp [JsNum.lt]

/-- C6: when a request is not served from the cache and both upstream calls and the join
succeed, the page returned holds exactly the joined entries whose `durationSeconds` is below
300 and discards every entry of 300 seconds or more; the kept entries are an order-preserving
sublist of the joined entries, which follow the playlist items one for one (entry `i` carries
the video id of playlist item `i`). -/
theorem fetchNBAHighlights_keeps_short (up : Upstream) (pageToken : JVal)
    (forceRefresh : Bool) (now nowWrite : Int) (w : World)
    (rdata ddata items detailItems : JVal) (ids : String) (reels : List Reel)
    (hmiss : cachedPage pageToken forceRefresh now w = none)
    (h1 : up.playlistItems pageToken = Except.ok rdata)
    (h2 : getProp rdata "items" = Except.ok items)
    (h3 : videoIdList items = Except.ok ids)
    (h4 : up.videos ids = Except.ok ddata)
    (h5 : getProp ddata "items" = Except.ok detailItems)
    (h6 : parseYouTubeVideos items detailItems = Except.ok reels) :
    ∃ page : ReelsPage,
      (fetchNBAHighlights up pageToken forceRefresh now nowWrite w).1 = Except.ok page ∧
      page.reels = reels.filter (fun reel => reel.durationSeconds.lt (JsNum.int 300)) ∧
      page.reels.Sublist reels ∧
      (∀ r : Reel, r ∈ page.reels ↔
        r ∈ reels ∧ ∃ n : Int, r.durationSeconds = JsNum.int n ∧ n < 300) ∧
      (∀ r ∈ reels, (∃ n : Int, r.durationSeconds = JsNum.int n ∧ 300 ≤ n) →
        r ∉ page.reels) ∧
      (∃ elems : List JVal, items = arr elems ∧
        mapE itemVideoId elems = Except.ok (reels.map (fun r => r.videoId))) := by
  have hb := buildPage_ok rdata ddata items detailItems reels h2 h5 h6
  have hf := fetch_miss_ok up pageToken forceRefresh now nowWrite w rdata ddata items ids _
    hmiss h1 h2 h3 h4 hb
  have hcount := parseYouTubeVideos_count items detailItems reels h6
  refine ⟨_, by rw [hf], rfl, List.filter_sublist _, ?_, ?_,
    parseYouTubeVideos_order items detailItems reels h6⟩
  · intro r
    simp only [List.mem_filter]
    constructor
    · intro hr
      exact ⟨hr.1, (lt_300_iff _ (hcount r hr.1)).1 hr.2⟩
    · intro hr
      exact ⟨hr.1, (lt_300_iff _ (hcount r hr.1)).2 hr.2⟩
  · intro r _ hbig hmem
    simp only [List.mem_filter] at hmem
    obtain ⟨n, hn, hge⟩ := hbig
    obtain ⟨hmr, hlt0⟩ := hmem
    obtain ⟨m, hm, hlt⟩ := (lt_300_iff _ (hcount r hmr)).1 hlt0
    rw [hn] at hm
    injection hm with hnm
    omega

/-- C6 at the sample upstream: joined durations 90, 400, 250 give the page 90, 250. -/
theorem fetchNBAHighlights_keeps_short_witness :
    (parseYouTubeVideos sampleItems sampleDetails).toOption.map
        (fun reels => reels.map (fun r => r.durationSeconds)) =
      some [JsNum.int 90, JsNum.int 400, JsNum.int 250] ∧
    ∃ page : ReelsPage,
      (fetchNBAHighlights sampleUpstream null false 0 0 emptyWorld).1 = Except.ok page ∧
      page.reels.map (fun r => r.durationSeconds) = [JsNum.int 90, JsNum.int 250] := by
  refine ⟨rfl, ?_⟩
  obtain ⟨page, hp, hf, _⟩ := fetchNBAHighlights_keeps_short sampleUpstream null false 0 0
    emptyWorld samplePlaylistBody sampleDetailsBody sampleItems sampleDetails "a,b,c"
    ((parseYouTubeVideos sampleItems sampleDetails).toOption.getD [])
    rfl rfl rfl rfl rfl rfl rfl
  exact ⟨page, hp, by rw [hf]; rfl⟩

/-- C7 (claim as stated fails): when the first request does not complete (the upstream call
fails, or the playlist response carries no items and the normalization raises), nothing is
cached, and a second first-page request one second later fetches the playlist again: two
playlist fetches in total. -/
theorem fetchNBAHighlights_failed_first_request :
    (fetchNBAHighlights failingUpstream null false 0 0 emptyWorld).1 =
      Except.error (JsError.upstream "timeout") ∧
    (fetchNBAHighlights failingUpstream null false 1000 1000
      (fetchNBAHighlights failingUpstream null false 0 0 emptyWorld).2).2.playlistCalls = 2 ∧
    (fetchNBAHighlights itemlessUpstream null false 0 0 emptyWorld).1 =
      Except.error JsError.typeError ∧
    (fetchNBAHighlights itemlessUpstream null false 1000 1000
      (fetchNBAHighlights itemlessUpstream null false 0 0 emptyWorld).2).2.playlistCalls = 2 :=
  ⟨rfl, rfl, rfl, rfl⟩

/-- C7 (amended): from an empty cache, after a first-page, non-forced request that completes,
a second such request made less than one hour later is served from the cache: it returns the
same page and leaves the world unchanged, so one playlist fetch was issued in total; a
further first-page request made once the cached entry is one hour old or more, or made with
`forceRefresh = true`, issues a new playlist fetch. -/
theorem fetchNBAHighlights_one_fetch_in_window (up1 up2 : Upstream) (tok1 tok2 : JVal)
    (t1 t1w t2 t2w : Int) (w0 w1 : World) (page : ReelsPage)
    (htok1 : tok1.truthy = false) (htok2 : tok2.truthy = false)
    (hempty : w0.cache = none)
    (hclock : t1 ≤ t1w) (hwin : t2 - t1 < CACHE_DURATION)
    (hfirst : fetchNBAHighlights up1 tok1 false t1 t1w w0 = (Except.ok page, w1)) :
    w1.playlistCalls = w0.playlistCalls + 1 ∧
    fetchNBAHighlights up2 tok2 false t2 t2w w1 = (Except.ok page, w1) ∧
    (∀ (up3 : Upstream) (tok3 : JVal) (t3 t3w : Int), tok3.truthy = false →
      CACHE_DURATION ≤ t3 - t1w →
      (fetchNBAHighlights up3 tok3 false t3 t3w w1).2.playlistCalls =
        w0.playlistCalls + 2) ∧
    (∀ (up3 : Upstream) (tok3 : JVal) (t3 t3w : Int),
      (fetchNBAHighlights up3 tok3 true t3 t3w w1).2.playlistCalls =
        w0.playlistCalls + 2) := by
  have hmiss := cachedPage_empty tok1 false t1 w0 hempty
  obtain ⟨rdata, ddata, items, ids, h1, h2, h3, h4, h5⟩ :=
    fetch_miss_inv up1 tok1 false t1 t1w w0 w1 page hmiss hfirst
  have hf := fetch_miss_ok up1 tok1 false t1 t1w w0 rdata ddata items ids page
    hmiss h1 h2 h3 h4 h5
  rw [hf] at hfirst
  simp only [htok1, Prod.mk.injEq, true_and] at hfirst
  have hcache : w1.cache = some { data := page, timestamp := t1w } := by
    rw [← hfirst]; simp
  have hcalls : w1.playlistCalls = w0.playlistCalls + 1 := by
    rw [← hfirst]
  refine ⟨hcalls, ?_, ?_, ?_⟩
  · apply fetch_hit
    have := cachedPage_fresh tok2 t2 w1 _ htok2 hcache (by show t2 - t1w < CACHE_DURATION; omega)
    exact this
  · intro up3 tok3 t3 t3w _ hold
    rw [fetch_miss_calls up3 tok3 false t3 t3w w1
      (cachedPage_stale tok3 false t3 w1 _ hcache hold), hcalls]
  · intro up3 tok3 t3 t3w
    rw [fetch_miss_calls up3 tok3 true t3 t3w w1 (cachedPage_forced tok3 t3 w1), hcalls]

/-- C7 at the sample upstream: requests at times 0 and 3599999 issue one playlist fetch. -/
theorem fetchNBAHighlights_one_fetch_in_window_witness :
    (fetchNBAHighlights sampleUpstream null false 0 5 emptyWorld).2.playlistCalls = 1 ∧
    (fetchNBAHighlights failingUpstream null false 3599999 3599999
      (fetchNBAHighlights sampleUpstream null false 0 5 emptyWorld).2).2.playlistCalls = 1 ∧
    (fetchNBAHighlights failingUpstream null false 3600005 3600005
      (fetchNBAHighlights sampleUpstream null false 0 5 emptyWorld).2).2.playlistCalls = 2 := by
  have h := fetchNBAHighlights_one_fetch_in_window sampleUpstream failingUpstream null null
    0 5 3599999 3599999 emptyWorld
    (fetchNBAHighlights sampleUpstream null false 0 5 emptyWorld).2
    ((fetchNBAHighlights sampleUpstream null false 0 5 emptyWorld).1.toOption.getD emptyPage)
    rfl rfl rfl (by decide) (by decide) rfl
  refine ⟨h.1, ?_, ?_⟩
  · rw [h.2.1]
    exact h.1
  · exact h.2.2.1 failingUpstream null 3600005 3600005 rfl (by decide)

/-- C8: a first-page, non-forced request made while a cached page exists whose age
`now - timestamp` is under `CACHE_DURATION` returns that page and leaves the world (cache
and call counters) unchanged; when the age is `CACHE_DURATION` or more, or no cached page
exists, a playlist fetch is issued. -/
theorem fetchNBAHighlights_cache_hit (up : Upstream) (pageToken : JVal) (now nowWrite : Int)
    (w : World) (htok : pageToken.truthy = false) :
    (∀ entry : CacheEntry, w.cache = some entry → now - entry.timestamp < CACHE_DURATION →
      fetchNBAHighlights up pageToken false now nowWrite w = (Except.ok entry.data, w)) ∧
    (∀ entry : CacheEntry, w.cache = some entry → CACHE_DURATION ≤ now - entry.timestamp →
      (fetchNBAHighlights up pageToken false now nowWrite w).2.playlistCalls =
        w.playlistCalls + 1) ∧
    (w.cache = none →
      (fetchNBAHighlights up pageToken false now nowWrite w).2.playlistCalls =
        w.playlistCalls + 1) ∧
    CACHE_DURATION = 3600000 := by
  refine ⟨?_, ?_, ?_, by decide⟩
  · intro entry hc hage
    exact fetch_hit up pageToken false now nowWrite w entry.data
      (cachedPage_fresh pageToken now w entry htok hc hage)
  · intro entry hc hage
    exact fetch_miss_calls up pageToken false now nowWrite w
      (cachedPage_stale pageToken false now w entry hc hage)
  · intro hc
    exact fetch_miss_calls up pageToken false now nowWrite w
      (cachedPage_empty pageToken false now w hc)

/-- C8 at a cache stored at time 1000: a request at 3600999 is a hit, one at 3601000 is
not. -/
theorem fetchNBAHighlights_cache_hit_witness :
    (fetchNBAHighlights sampleUpstream null false 3600999 3600999 cachedWorld).2.playlistCalls
      = 3 ∧
    (fetchNBAHighlights sampleUpstream null false 3601000 3601000 cachedWorld).2.playlistCalls
      = 4 := by
  have h1 := fetchNBAHighlights_cache_hit sampleUpstream null 3600999 3600999 cachedWorld rfl
  have h2 := fetchNBAHighlights_cache_hit sampleUpstream null 3601000 3601000 cachedWorld rfl
  refine ⟨?_, ?_⟩
  · rw [h1.1 { data := emptyPage, timestamp := 1000 } rfl (by decide)]
    rfl
  · exact h2.2.1 { data := emptyPage, timestamp := 1000 } rfl (by decide)

/-- C9 (claim as stated fails): a forced first-page request overwrites the cache; here the
cache is empty before and holds the new page, stamped with the write time, after. -/
theorem fetchNBAHighlights_forced_refresh_writes_cache :
    emptyWorld.cache.isSome = false ∧
    (fetchNBAHighlights sampleUpstream null true 5 7 emptyWorld).2.cache.map
      (fun entry => (entry.timestamp, entry.data.reels.length)) = some (7, 2) := by
  decide

/-- C9 (amended): `fetchNBAHighlights` overwrites the cache with the new result and the
current timestamp exactly when the completed upstream fetch was a first-page request, forced
or not; a request with a page token, a request served from the cache and a request that
fails leave the cached page and its timestamp unchanged. -/
theorem fetchNBAHighlights_cache_write (up : Upstream) (pageToken : JVal)
    (forceRefresh : Bool) (now nowWrite : Int) (w : World) :
    (∀ (page : ReelsPage) (w1 : World),
      cachedPage pageToken forceRefresh now w = none →
      fetchNBAHighlights up pageToken forceRefresh now nowWrite w = (Except.ok page, w1) →
      w1.cache = if pageToken.truthy then w.cache
        else some { data := page, timestamp := nowWrite }) ∧
    (∀ data : ReelsPage, cachedPage pageToken forceRefresh now w = some data →
      fetchNBAHighlights up pageToken forceRefresh now nowWrite w = (Except.ok data, w)) ∧
    (pageToken.truthy = true →
      (fetchNBAHighlights up pageToken forceRefresh now nowWrite w).2.cache = w.cache) ∧
    (∀ e : JsError,
      (fetchNBAHighlights up pageToken forceRefresh now nowWrite w).1 = Except.error e →
      (fetchNBAHighlights up pageToken forceRefresh now nowWrite w).2.cache = w.cache) := by
  have hfirst : ∀ (page : ReelsPage) (w1 : World),
      cachedPage pageToken forceRefresh now w = none →
      fetchNBAHighlights up pageToken forceRefresh now nowWrite w = (Except.ok page, w1) →
      w1.cache = if pageToken.truthy then w.cache
        else some { data := page, timestamp := nowWrite } := by
    intro page w1 hmiss h
    obtain ⟨rdata, ddata, items, ids, h1, h2, h3, h4, h5⟩ :=
      fetch_miss_inv up pageToken forceRefresh now nowWrite w w1 page hmiss h
    have hf := fetch_miss_ok up pageToken forceRefresh now nowWrite w rdata ddata items ids
      page hmiss h1 h2 h3 h4 h5
    rw [hf] at h
    simp only [Prod.mk.injEq, true_and] at h
    rw [← h]
  refine ⟨hfirst, ?_, ?_, ?_⟩
  · intro data hhit
    exact fetch_hit up pageToken forceRefresh now nowWrite w data hhit
  · intro htok
    have hmiss := cachedPage_token pageToken forceRefresh now w htok
    cases hr : (fetchNBAHighlights up pageToken forceRefresh now nowWrite w).1 with
    | error e => exact fetch_error_cache up pageToken forceRefresh now nowWrite w e hr
    | ok page =>
      have := hfirst page (fetchNBAHighlights up pageToken forceRefresh now nowWrite w).2
        hmiss (by rw [← hr])
      rw [this, if_pos htok]
  · intro e he
    exact fetch_error_cache up pageToken forceRefresh now nowWrite w e he

/-! ## Box-score stat mapping -/

theorem lookup_setProp_eq (k : String) (v : JVal) (kvs : List (String × JVal)) :
    lookup k (setProp k v kvs) = v := by
  induction kvs with
  | nil => simp [setProp, lookup]
  | cons p rest ih =>
    obtain ⟨k1, v1⟩ := p
    by_cases h : k1 = k
    · simp [setProp, lookup, h]
    · simp [setProp, lookup, h, ih]

theorem lookup_setProp_ne (k k2 : String) (v : JVal) (kvs : List (String × JVal))
    (hne : k ≠ k2) : lookup k2 (setProp k v kvs) = lookup k2 kvs := by
  induction kvs with
  | nil => simp [setProp, lookup, hne]
  | cons p rest ih =>
    obtain ⟨k1, v1⟩ := p
    by_cases h : k1 = k
    · subst h
      simp [setProp, lookup, hne]
    · by_cases h2 : k1 = k2
      · subst h2
        simp [setProp, lookup, h]
      · simp [setProp, lookup, h, h2, ih]

theorem hasKey_setProp (k k2 : String) (v : JVal) (kvs : List (String × JVal)) :
    hasKey k2 (setProp k v kvs) = (hasKey k2 kvs || decide (k = k2)) := by
  induction kvs with
  | nil => simp [setProp, hasKey]
  | cons p rest ih =>
    obtain ⟨k1, v1⟩ := p
    by_cases h : k1 = k
    · subst h
      by_cases h2 : k1 = k2 <;> simp [setProp, hasKey, h2]
    · by_cases h2 : k1 = k2
      · subst h2
        simp [setProp, hasKey, h]
      · simp [setProp, hasKey, h, h2, ih]

theorem set_own (k : String) (v : JVal) (o : PlainObj) :
    (o.set k v).own = o.own ∨ (o.set k v).own = setProp k v o.own := by
  unfold PlainObj.set
  split_ifs
  · left
    cases v <;> rfl
  · right
    rfl

theorem set_own_ordinary (k : String) (v : JVal) (o : PlainObj) (hk : k ≠ "__proto__") :
    o.set k v = { o with own := setProp k v o.own } := by
  unfold PlainObj.set
  rw [if_neg (fun h => hk h.1)]

theorem set_lookup_self (k : String) (v : JVal) (o : PlainObj) (hk : k ≠ "__proto__") :
    hasKey k (o.set k v).own = true ∧ lookup k (o.set k v).own = v := by
  rw [set_own_ordinary k v o hk]
  exact ⟨by simp [hasKey_setProp], lookup_setProp_eq k v o.own⟩

theorem set_lookup_other (k k2 : String) (v : JVal) (o : PlainObj) (hne : k ≠ k2) :
    hasKey k2 (o.set k v).own = hasKey k2 o.own ∧
      lookup k2 (o.set k v).own = lookup k2 o.own := by
  rcases set_own k v o with h | h
  · rw [h]
    exact ⟨rfl, rfl⟩
  · rw [h]
    exact ⟨by simp [hasKey_setProp, hne], lookup_setProp_ne k k2 v o.own hne⟩

theorem get_own (k : String) (o : PlainObj) (h : hasKey k o.own = true) :
    o.get k = lookup k o.own := by
  unfold PlainObj.get
  rw [if_pos h]

theorem fillStatValues_spec (athlete stats : JVal)
    (hs : getProp athlete "stats" = Except.ok stats) :
    ∀ (ls : List JVal) (index : Nat) (sv0 : PlainObj),
      ∃ sv : PlainObj,
        fillStatValues athlete ls index sv0 = Except.ok sv ∧
        (∀ k : String, hasKey k sv.own = true →
          (hasKey k sv0.own = true ∨ ∃ l ∈ ls, l.toStr = k)) ∧
        (∀ k : String, k ≠ "__proto__" →
          (hasKey k sv0.own = true ∨ ∃ l ∈ ls, l.toStr = k) → hasKey k sv.own = true) ∧
        (∀ k : String, (∀ l ∈ ls, l.toStr ≠ k) →
          hasKey k sv.own = hasKey k sv0.own ∧ lookup k sv.own = lookup k sv0.own) ∧
        (∀ i : Nat, i < ls.length → (ls.getD i undefined).toStr ≠ "__proto__" →
          (∀ j : Nat, i < j → j < ls.length →
            (ls.getD j undefined).toStr ≠ (ls.getD i undefined).toStr) →
          lookup (ls.getD i undefined).toStr sv.own =
            (idxOpt stats (index + i)).or (str "0")) := by
  intro ls
  induction ls with
  | nil =>
    intro index sv0
    refine ⟨sv0, rfl, ?_, ?_, ?_, ?_⟩
    · intro k h; exact Or.inl h
    · intro k _ h
      rcases h with h | ⟨l, hl, _⟩
      · exact h
      · cases hl
    · intro k _; exact ⟨rfl, rfl⟩
    · intro i hi; simp at hi
  | cons l rest ih =>
    intro index sv0
    obtain ⟨sv, hsv, hsub, hkeys, hframe, hval⟩ :=
      ih (index + 1) (sv0.set l.toStr ((idxOpt stats index).or (str "0")))
    refine ⟨sv, ?_, ?_, ?_, ?_, ?_⟩
    · simp only [fillStatValues, hs, bind, Except.bind]
      exact hsv
    · intro k hk
      rcases hsub k hk with h | ⟨x, hx, hxk⟩
      · by_cases hlk : l.toStr = k
        · exact Or.inr ⟨l, List.mem_cons_self _ _, hlk⟩
        · rw [(set_lookup_other _ k _ sv0 hlk).1] at h
          exact Or.inl h
      · exact Or.inr ⟨x, List.mem_cons_of_mem _ hx, hxk⟩
    · intro k hk h
      apply hkeys k hk
      rcases h with h | ⟨x, hx, hxk⟩
      · by_cases hlk : l.toStr = k
        · left
          rw [← hlk]
          exact (set_lookup_self _ _ sv0 (by rw [hlk]; exact hk)).1
        · left
          rw [(set_lookup_other _ k _ sv0 hlk).1]
          exact h
      · rcases List.mem_cons.1 hx with rfl | hx
        · left
          rw [← hxk]
          exact (set_lookup_self _ _ sv0 (by rw [hxk]; exact hk)).1
        · exact Or.inr ⟨x, hx, hxk⟩
    · intro k hk
      obtain ⟨f1, f2⟩ := hframe k (fun x hx => hk x (List.mem_cons_of_mem _ hx))
      obtain ⟨g1, g2⟩ := set_lookup_other l.toStr k ((idxOpt stats index).or (str "0")) sv0
        (hk l (List.mem_cons_self _ _))
      exact ⟨by rw [f1, g1], by rw [f2, g2]⟩
    · intro i hi hproto hlast
      cases i with
      | zero =>
        simp only [List.getD_cons_zero, Nat.add_zero] at hproto ⊢
        rw [(hframe _ _).2]
        · exact (set_lookup_self _ _ sv0 hproto).2
        · intro x hx
          obtain ⟨j, hj, hxj⟩ := List.getElem_of_mem hx
          have := hlast (j + 1) (Nat.succ_pos j) (by simpa using hj)
          simp only [List.getD_cons_succ, List.getD_cons_zero] at this
          rw [List.getD_eq_getElem _ _ hj, hxj] at this
          exact this
      | succ i =>
        simp only [List.getD_cons_succ] at hproto ⊢
        have hi2 : i < rest.length := by simpa using hi
        have := hval i hi2 hproto (fun j hij hj => by
          have := hlast (j + 1) (by omega) (by simpa using hj)
          simpa only [List.getD_cons_succ] using this)
        rw [this]
        congr 2
        omega

/-- C10 (claim as stated fails): with labels MIN, PTS, REB and the value array `["32","21"]`
the mapping does hold a REB key, bound to the default `'0'`.  (The label `__proto__` is the
one label that is not stored: the assignment goes to the prototype accessor and ignores the
string.) -/
theorem statValues_short_values_default :
    (statValues (arr [str "MIN", str "PTS", str "REB"])
        (obj [("stats", arr [str "32", str "21"])])).toOption.map
      (fun sv => (sv.own.map (fun p => (p.1, p.2.toStr)), hasKey "REB" sv.own)) =
      some ([("MIN", "32"), ("PTS", "21"), ("REB", "0")], true) ∧
    (statValues (arr [str "__proto__", str "PTS"])
        (obj [("stats", arr [str "7", str "21"])])).toOption.map
      (fun sv => sv.own.map (fun p => (p.1, p.2.toStr))) = some [("PTS", "21")] := by
  decide

/-- C10 (amended): for every label array `L` and every athlete value array `V`, the stat
mapping is built without raising; every own key of it is a label, and every label other than
`__proto__` is an own key; a label other than `__proto__` that does not occur again later in
`L` is bound, at its index `i`, to `V[i]` when that value exists and is truthy and to the
default `'0'` otherwise, so with `V` shorter than `L` the trailing labels are bound to
`'0'`. -/
theorem statValues_zip_default (L V : List JVal) (athlete : JVal)
    (hstats : getProp athlete "stats" = Except.ok (arr V)) :
    ∃ sv : PlainObj,
      statValues (arr L) athlete = Except.ok sv ∧
      (∀ k : String, hasKey k sv.own = true → ∃ l ∈ L, l.toStr = k) ∧
      (∀ k : String, k ≠ "__proto__" → (∃ l ∈ L, l.toStr = k) → hasKey k sv.own = true) ∧
      (∀ i : Nat, i < L.length → (L.getD i undefined).toStr ≠ "__proto__" →
        (∀ j : Nat, i < j → j < L.length →
          (L.getD j undefined).toStr ≠ (L.getD i undefined).toStr) →
        sv.get (L.getD i undefined).toStr = (V.getD i undefined).or (str "0") ∧
        (i < V.length → (V.getD i undefined).truthy = true →
          sv.get (L.getD i undefined).toStr = V.getD i undefined) ∧
        (V.length ≤ i → sv.get (L.getD i undefined).toStr = str "0")) := by
  obtain ⟨sv, hsv, hsub, hkeys, _, hval⟩ :=
    fillStatValues_spec athlete (arr V) hstats L 0 PlainObj.empty
  refine ⟨sv, hsv, ?_, ?_, ?_⟩
  · intro k hk
    rcases hsub k hk with h | h
    · simp [PlainObj.empty, hasKey] at h
    · exact h
  · intro k hk h
    exact hkeys k hk (Or.inr h)
  · intro i hi hproto hlast
    have hown : hasKey (L.getD i undefined).toStr sv.own = true :=
      hkeys _ hproto (Or.inr ⟨L.getD i undefined, by
        rw [List.getD_eq_getElem _ _ hi]
        exact List.getElem_mem _, rfl⟩)
    have h := hval i hi hproto hlast
    simp only [Nat.zero_add, idxOpt] at h
    rw [get_own _ _ hown]
    refine ⟨h, ?_, ?_⟩
    · intro _ ht
      rw [h]
      unfold JVal.or
      rw [if_pos ht]
    · intro hle
      rw [h, List.getD_eq_default _ _ hle]
      rfl

/-- C10 (amended) at labels MIN, PTS, REB and values `"32"`, `"21"`. -/
theorem statValues_zip_default_witness :
    ∃ sv : PlainObj,
      statValues (arr [str "MIN", str "PTS", str "REB"])
        (obj [("stats", arr [str "32", str "21"])]) = Except.ok sv ∧
      (sv.get "MIN").toStr = "32" ∧ (sv.get "PTS").toStr = "21" ∧
      (sv.get "REB").toStr = "0" := by
  obtain ⟨sv, hsv, _, _, hval⟩ := statValues_zip_default
    [str "MIN", str "PTS", str "REB"] [str "32", str "21"]
    (obj [("stats", arr [str "32", str "21"])]) rfl
  refine ⟨sv, hsv, ?_, ?_, ?_⟩
  · have := (hval 0 (by decide) (by decide) (by
      intro j h1 h2
      have : j = 1 ∨ j = 2 := by simp at h2; omega
      rcases this with h | h <;> subst h <;> decide)).1
    simp only [List.getD_cons_zero] at this
    rw [show (str "MIN").toStr = "MIN" from rfl] at this
    rw [this]; rfl
  · have := (hval 1 (by decide) (by decide) (by
      intro j h1 h2
      have : j = 2 := by simp at h2; omega
      subst this; decide)).1
    simp only [List.getD_cons_succ, List.getD_cons_zero] at this
    rw [show (str "PTS").toStr = "PTS" from rfl] at this
    rw [this]; rfl
  · have := (hval 2 (by decide) (by decide) (by
      intro j h1 h2
      simp at h2; omega)).1
    simp only [List.getD_cons_succ, List.getD_cons_zero] at this
    rw [show (str "REB").toStr = "REB" from rfl] at this
    rw [this]; rfl

/-! ## Event sequence, sides and join -/

theorem mapE_forall2 {α β : Type} (f : α → Except JsError β) :
    ∀ (xs : List α) (ys : List β), mapE f xs = Except.ok ys →
      List.Forall₂ (fun x y => f x = Except.ok y) xs ys := by
  intro xs
  induction xs with
  | nil =>
    intro ys h
    simp only [mapE, pure, Except.pure, Except.ok.injEq] at h
    subst h
    exact List.Forall₂.nil
  | cons a as ih =>
    intro ys h
    simp only [mapE, bind, Except.bind] at h
    cases hfa : f a with
    | error e => rw [hfa] at h; simp at h
    | ok b =>
      rw [hfa] at h
      cases hrest : mapE f as with
      | error e => rw [hrest] at h; simp at h
      | ok bs =>
        rw [hrest] at h
        simp only [pure, Except.pure, Except.ok.injEq] at h
        subst h
        exact List.Forall₂.cons hfa (ih bs hrest)

theorem forall2_map_eq {α β γ : Type} (R : α → β → Prop) (p : α → γ) (q : β → γ)
    (hR : ∀ a b, R a b → q b = p a) :
    ∀ (xs : List α) (ys : List β), List.Forall₂ R xs ys → ys.map q = xs.map p := by
  intro xs ys h
  induction h with
  | nil => rfl
  | cons hab _ ih => simp [hR _ _ hab, ih]

theorem parseEvent_identity (event : JVal) (g : Game) (h : parseEvent event = Except.ok g) :
    g.id = getOpt event "id" ∧ g.date = getOpt event "date" ∧
      g.name = getOpt event "name" ∧ g.shortName = getOpt event "shortName" := by
  unfold parseEvent at h
  simp only [bind, Except.bind] at h
  cases hc : getProp event "competitions" with
  | error e => rw [hc] at h; simp at h
  | ok competitions =>
    rw [hc] at h
    simp only at h
    cases hh : findSide (idxOpt competitions 0) "home" with
    | error e => rw [hh] at h; simp at h
    | ok home =>
      rw [hh] at h
      cases ha : findSide (idxOpt competitions 0) "away" with
      | error e => rw [ha] at h; simp at h
      | ok away =>
        rw [ha] at h
        cases hs : parseGameStatus (getOpt (getOpt (getOpt event "status") "type") "state") with
        | error e => rw [hs] at h; simp at h
        | ok st =>
          rw [hs] at h
          simp only [pure, Except.pure, Except.ok.injEq] at h
          subst h
          exact ⟨rfl, rfl, rfl, rfl⟩

theorem parseESPNGames_arr (data : JVal) (events : List JVal) (games : List Game)
    (hev : getOpt data "events" = arr events)
    (h : parseESPNGames data = Except.ok games) :
    mapE parseEvent events = Except.ok games := by
  unfold parseESPNGames at h
  have hn : data.isNullish = false := by
    cases data <;> simp_all [getOpt, isNullish]
  rw [getProp_eq_getOpt data "events" hn, hev] at h
  simpa [bind, Except.bind, truthy] using h

/-- C30: for every payload with an events collection, the games `parseESPNGames` produces
are one per raw event, in the same order: the output has the length of the events array and
game `i` carries the id, date, name and shortName of raw event `i`. -/
theorem parseESPNGames_preserves_sequence (data : JVal) (events : List JVal)
    (games : List Game) (hev : getOpt data "events" = arr events)
    (h : parseESPNGames data = Except.ok games) :
    games.length = events.length ∧
    List.Forall₂ (fun event g => parseEvent event = Except.ok g) events games ∧
    games.map (fun g => g.id) = events.map (fun e => getOpt e "id") ∧
    games.map (fun g => g.date) = events.map (fun e => getOpt e "date") ∧
    games.map (fun g => g.name) = events.map (fun e => getOpt e "name") ∧
    games.map (fun g => g.shortName) = events.map (fun e => getOpt e "shortName") := by
  have hm := parseESPNGames_arr data events games hev h
  have hf := mapE_forall2 parseEvent events games hm
  refine ⟨hf.length_eq.symm, hf, ?_, ?_, ?_, ?_⟩
  · exact forall2_map_eq _ _ _ (fun a b hab => (parseEvent_identity a b hab).1) _ _ hf
  · exact forall2_map_eq _ _ _ (fun a b hab => (parseEvent_identity a b hab).2.1) _ _ hf
  · exact forall2_map_eq _ _ _ (fun a b hab => (parseEvent_identity a b hab).2.2.1) _ _ hf
  · exact forall2_map_eq _ _ _ (fun a b hab => (parseEvent_identity a b hab).2.2.2) _ _ hf

/-- C30 at a payload with three events: the games carry the ids 401, 402, 403, their dates,
names and short names in the order of the events. -/
theorem parseESPNGames_preserves_sequence_witness :
    ∃ games : List Game, parseESPNGames threeEventPayload = Except.ok games ∧
      games.length = 3 ∧
      games.map (fun g => g.id) = [str "401", str "402", str "403"] ∧
      games.map (fun g => g.date) =
        [str "2024-01-05T00:00Z", str "2024-01-05T02:30Z", str "2024-01-06T01:00Z"] ∧
      games.map (fun g => g.name) = [str "BOS at LAL", str "NYK at MIA", str "DEN at PHX"] ∧
      games.map (fun g => g.shortName) =
        [str "BOS @ LAL", str "NYK @ MIA", str "DEN @ PHX"] ∧
      games.map (fun g => g.status) = ["final", "live", "scheduled"] := by
  have hrun : ∃ games : List Game, parseESPNGames threeEventPayload = Except.ok games ∧
      games.map (fun g => g.status) = ["final", "live", "scheduled"] := ⟨_, rfl, rfl⟩
  obtain ⟨games, hg, hst⟩ := hrun
  have h := parseESPNGames_preserves_sequence threeEventPayload
    (match getOpt threeEventPayload "events" with
      | arr es => es
      | _ => [])
    games rfl hg
  exact ⟨games, hg, h.1.trans rfl, h.2.2.1.trans rfl, h.2.2.2.1.trans rfl,
    h.2.2.2.2.1.trans rfl, h.2.2.2.2.2.trans rfl, hst⟩

/-- C28: whenever `fetchNBAHighlights` fails, the cached page and its timestamp are as
before the request, for every page token and every `forceRefresh`; a failed playlist fetch,
a failed details fetch and a failed normalization each make the request fail with that
error. -/
theorem fetchNBAHighlights_failure_keeps_cache (up : Upstream) (pageToken : JVal)
    (forceRefresh : Bool) (now nowWrite : Int) (w : World) :
    (∀ e : JsError,
      (fetchNBAHighlights up pageToken forceRefresh now nowWrite w).1 = Except.error e →
      (fetchNBAHighlights up pageToken forceRefresh now nowWrite w).2.cache = w.cache) ∧
    (∀ e : JsError, cachedPage pageToken forceRefresh now w = none →
      up.playlistItems pageToken = Except.error e →
      (fetchNBAHighlights up pageToken forceRefresh now nowWrite w).1 = Except.error e) ∧
    (∀ (e : JsError) (rdata items : JVal) (ids : String),
      cachedPage pageToken forceRefresh now w = none →
      up.playlistItems pageToken = Except.ok rdata →
      getProp rdata "items" = Except.ok items → videoIdList items = Except.ok ids →
      up.videos ids = Except.error e →
      (fetchNBAHighlights up pageToken forceRefresh now nowWrite w).1 = Except.error e) ∧
    (∀ (e : JsError) (rdata ddata items : JVal) (ids : String),
      cachedPage pageToken forceRefresh now w = none →
      up.playlistItems pageToken = Except.ok rdata →
      getProp rdata "items" = Except.ok items → videoIdList items = Except.ok ids →
      up.videos ids = Except.ok ddata → buildPage rdata ddata = Except.error e →
      (fetchNBAHighlights up pageToken forceRefresh now nowWrite w).1 = Except.error e) := by
  refine ⟨fun e he => fetch_error_cache up pageToken forceRefresh now nowWrite w e he,
    ?_, ?_, ?_⟩
  · intro e hmiss h1
    simp only [fetchNBAHighlights, hmiss, h1]
  · intro e rdata items ids hmiss h1 h2 h3 h4
    simp only [fetchNBAHighlights, hmiss, h1, h2, bind, Except.bind, h3, h4]
  · intro e rdata ddata items ids hmiss h1 h2 h3 h4 h5
    simp only [fetchNBAHighlights, hmiss, h1, h2, bind, Except.bind, h3, h4, h5]

theorem findCompetitor_first (side : String) :
    ∀ (cs : List JVal) (c : JVal), findCompetitor side cs = Except.ok c →
      (c = undefined ∧ ∀ x ∈ cs, (getOpt x "homeAway").strictEqStr side = false) ∨
      (∃ pre post : List JVal, cs = pre ++ c :: post ∧
        (getOpt c "homeAway").strictEqStr side = true ∧
        ∀ x ∈ pre, (getOpt x "homeAway").strictEqStr side = false) := by
  intro cs
  induction cs with
  | nil =>
    intro c h
    simp only [findCompetitor, pure, Except.pure, Except.ok.injEq] at h
    left
    exact ⟨h.symm, by simp⟩
  | cons x xs ih =>
    intro c h
    simp only [findCompetitor, bind, Except.bind] at h
    cases hx : getProp x "homeAway" with
    | error e => rw [hx] at h; simp at h
    | ok ha =>
      rw [hx] at h
      simp only at h
      have hopt := (getProp_ok_getOpt x ha "homeAway" hx).1
      by_cases hm : ha.strictEqStr side = true
      · simp only [hm, if_true, pure, Except.pure, Except.ok.injEq] at h
        subst h
        right
        exact ⟨[], xs, rfl, by rw [hopt]; exact hm, by simp⟩
      · simp only [hm] at h
        have hmf : (getOpt x "homeAway").strictEqStr side = false := by
          rw [hopt]; simpa using hm
        rcases ih c h with ⟨hc, hall⟩ | ⟨pre, post, hcs, hmark, hpre⟩
        · left
          refine ⟨hc, ?_⟩
          intro y hy
          rcases List.mem_cons.mp hy with hy | hy
          · rw [hy]; exact hmf
          · exact hall y hy
        · right
          refine ⟨x :: pre, post, by rw [hcs]; rfl, hmark, ?_⟩
          intro y hy
          rcases List.mem_cons.mp hy with hy | hy
          · rw [hy]; exact hmf
          · exact hpre y hy

theorem findSide_absent (competition : JVal) (side : String)
    (h : (getOpt competition "competitors").isNullish = true) :
    findSide competition side = Except.ok undefined := by
  unfold findSide
  cases hc : getOpt competition "competitors" <;> simp_all [isNullish, pure, Except.pure]

theorem parseEvent_of_sides (event home away : JVal) (st : String)
    (hev : event.isNullish = false)
    (hh : findSide (idxOpt (getOpt event "competitions") 0) "home" = Except.ok home)
    (ha : findSide (idxOpt (getOpt event "competitions") 0) "away" = Except.ok away)
    (hs : parseGameStatus (getOpt (getOpt (getOpt event "status") "type") "state") =
      Except.ok st) :
    ∃ g : Game, parseEvent event = Except.ok g ∧ g.homeTeam = teamSide home ∧
      g.awayTeam = teamSide away ∧ g.status = st := by
  unfold parseEvent
  simp only [getProp_eq_getOpt event "competitions" hev, bind, Except.bind, hh, ha, hs, pure,
    Except.pure]
  exact ⟨_, rfl, rfl, rfl, rfl⟩

theorem findCompetitor_total (side : String) :
    ∀ cs : List JVal, (∀ x ∈ cs, x.isNullish = false) →
      ∃ c : JVal, findCompetitor side cs = Except.ok c := by
  intro cs
  induction cs with
  | nil => intro _; exact ⟨undefined, rfl⟩
  | cons x xs ih =>
    intro hall
    have hx := hall x (List.mem_cons_self _ _)
    obtain ⟨c, hc⟩ := ih (fun y hy => hall y (List.mem_cons_of_mem _ hy))
    simp only [findCompetitor, getProp_eq_getOpt x "homeAway" hx, bind, Except.bind]
    by_cases hm : (getOpt x "homeAway").strictEqStr side = true
    · simp only [hm, if_true]
      exact ⟨x, rfl⟩
    · simp only [hm]
      exact ⟨c, hc⟩

theorem findSide_total (competition : JVal) (side : String)
    (hcs : (getOpt competition "competitors").isNullish = true ∨
      ∃ cs : List JVal, getOpt competition "competitors" = arr cs ∧
        ∀ x ∈ cs, x.isNullish = false) :
    ∃ c : JVal, findSide competition side = Except.ok c ∧
      ((getOpt competition "competitors").isNullish = true → c = undefined) ∧
      (∀ cs : List JVal, getOpt competition "competitors" = arr cs →
        (∀ x ∈ cs, (getOpt x "homeAway").strictEqStr side = false) → c = undefined) := by
  rcases hcs with hno | ⟨cs, hcs, hall⟩
  · refine ⟨undefined, findSide_absent competition side hno, fun _ => rfl, fun _ _ _ => rfl⟩
  · obtain ⟨c, hc⟩ := findCompetitor_total side cs hall
    have hfs : findSide competition side = Except.ok c := by
      unfold findSide
      rw [hcs]
      exact hc
    refine ⟨c, hfs, ?_, ?_⟩
    · intro hn
      rw [hcs] at hn
      simp [isNullish] at hn
    · intro cs2 hcs2 hnone
      rw [hcs] at hcs2
      injection hcs2 with hEq
      subst hEq
      rcases findCompetitor_first side cs c hc with ⟨hu, _⟩ | ⟨pre, post, hsplit, hmark, _⟩
      · exact hu
      · have := hnone c (by rw [hsplit]; simp)
        rw [this] at hmark
        cases hmark

theorem parseGameStatus_total (state : JVal)
    (h : state.isNullish = true ∨ ∃ s : String, state = str s) :
    ∃ st : String, parseGameStatus state = Except.ok st := by
  rcases h with h | ⟨s, rfl⟩
  · cases state <;> simp_all [isNullish, parseGameStatus, pure, Except.pure]
  · unfold parseGameStatus
    simp only []
    split_ifs <;> exact ⟨_, rfl⟩

/-- C19 (claim as stated fails): in an event whose first competition lists the single
competitor `null`, no competitor is marked home, and the event is not normalized: the search
reads `homeAway` of `null` and raises; the same happens when a side is absent and the status
state is a number. -/
theorem parseEvent_null_competitor_raises :
    parseEvent (obj [("competitions", arr [obj [("competitors", arr [null])]])]) =
      Except.error JsError.typeError ∧
    parseEvent (obj [("status", obj [("type", obj [("state", num 1)])]),
      ("competitions", arr [obj [("competitors", arr [])]])]) =
      Except.error JsError.typeError :=
  ⟨rfl, rfl⟩

/-- C19 (amended): for every raw event that `parseESPNGames` normalizes, the home side is
built from the first competitor marked `home` and the away side from the first competitor
marked `away` of the event's first competition record (later competition records are not
read), a side carrying the competitor's team id, displayName, abbreviation, logo and color
and the parsed score.  For every event object whose first competition is absent or lists no
competitors or lists competitor entries other than `null`/`undefined`, and whose status
state is a string or absent, the event is normalized without raising, and a side with no
competitor so marked has id, name, abbreviation, logo and color `undefined` and score 0. -/
theorem parseEvent_sides_first_competition :
    (∀ (event : JVal) (g : Game), parseEvent event = Except.ok g →
      ∃ home away : JVal,
        findSide (idxOpt (getOpt event "competitions") 0) "home" = Except.ok home ∧
        findSide (idxOpt (getOpt event "competitions") 0) "away" = Except.ok away ∧
        g.homeTeam = teamSide home ∧ g.awayTeam = teamSide away) ∧
    (∀ (competition : JVal) (cs : List JVal) (side : String) (c : JVal),
      getOpt competition "competitors" = arr cs →
      findSide competition side = Except.ok c →
      (c = undefined ∧ ∀ x ∈ cs, (getOpt x "homeAway").strictEqStr side = false) ∨
      (∃ pre post : List JVal, cs = pre ++ c :: post ∧
        (getOpt c "homeAway").strictEqStr side = true ∧
        ∀ x ∈ pre, (getOpt x "homeAway").strictEqStr side = false)) ∧
    (∀ (kvs : List (String × JVal)) (first : JVal) (later : List JVal),
      parseEvent (obj (("competitions", arr (first :: later)) :: kvs)) =
        parseEvent (obj (("competitions", arr [first]) :: kvs))) ∧
    (∀ c : JVal,
      (teamSide c).id = getOpt (getOpt c "team") "id" ∧
      (teamSide c).name = getOpt (getOpt c "team") "displayName" ∧
      (teamSide c).abbreviation = getOpt (getOpt c "team") "abbreviation" ∧
      (teamSide c).logo = getOpt (getOpt c "team") "logo" ∧
      (teamSide c).color = getOpt (getOpt c "team") "color" ∧
      (teamSide c).score = parseInt ((getOpt c "score").or (str "0"))) ∧
    (∀ event : JVal, event.isNullish = false →
      ((getOpt (idxOpt (getOpt event "competitions") 0) "competitors").isNullish = true ∨
        ∃ cs : List JVal,
          getOpt (idxOpt (getOpt event "competitions") 0) "competitors" = arr cs ∧
          ∀ x ∈ cs, x.isNullish = false) →
      ((getOpt (getOpt (getOpt event "status") "type") "state").isNullish = true ∨
        ∃ s : String, getOpt (getOpt (getOpt event "status") "type") "state" = str s) →
      ∃ g : Game, parseEvent event = Except.ok g ∧
        ((getOpt (idxOpt (getOpt event "competitions") 0) "competitors").isNullish = true →
          g.homeTeam = teamSide undefined ∧ g.awayTeam = teamSide undefined) ∧
        (∀ cs : List JVal,
          getOpt (idxOpt (getOpt event "competitions") 0) "competitors" = arr cs →
          ((∀ x ∈ cs, (getOpt x "homeAway").strictEqStr "home" = false) →
            g.homeTeam = teamSide undefined) ∧
          ((∀ x ∈ cs, (getOpt x "homeAway").strictEqStr "away" = false) →
            g.awayTeam = teamSide undefined))) ∧
    (teamSide undefined).id = undefined ∧ (teamSide undefined).name = undefined ∧
    (teamSide undefined).abbreviation = undefined ∧ (teamSide undefined).logo = undefined ∧
    (teamSide undefined).color = undefined ∧ (teamSide undefined).score = JsNum.int 0 := by
  refine ⟨parseEvent_sides, ?_, ?_, ?_, ?_, rfl, rfl, rfl, rfl, rfl, rfl⟩
  · intro competition cs side c hcs h
    unfold findSide at h
    rw [hcs] at h
    exact findCompetitor_first side cs c h
  · intro kvs first later
    simp [parseEvent, getProp, getOpt, lookup, idxOpt]
  · intro c
    exact ⟨rfl, rfl, rfl, rfl, rfl, rfl⟩
  · intro event hev hcs hstate
    obtain ⟨home, hh, hh1, hh2⟩ :=
      findSide_total (idxOpt (getOpt event "competitions") 0) "home" hcs
    obtain ⟨away, ha, ha1, ha2⟩ :=
      findSide_total (idxOpt (getOpt event "competitions") 0) "away" hcs
    obtain ⟨st, hst⟩ := parseGameStatus_total _ hstate
    obtain ⟨g, hg, h1, h2, _⟩ := parseEvent_of_sides event home away st hev hh ha hst
    refine ⟨g, hg, ?_, ?_⟩
    · intro hn
      rw [h1, h2, hh1 hn, ha1 hn]
      exact ⟨rfl, rfl⟩
    · intro cs hcs2
      refine ⟨?_, ?_⟩
      · intro hnone
        rw [h1, hh2 cs hcs2 hnone]
      · intro hnone
        rw [h2, ha2 cs hcs2 hnone]

/-- C19 at two events: with two competition records the sides come from the first record
and from the first competitor of each mark; with an away competitor only, the home side is
the placeholder with score 0. -/
theorem parseEvent_sides_first_competition_witness :
    (∃ g : Game, parseEvent twoCompetitionEvent = Except.ok g ∧
      g.homeTeam.id = str "13" ∧ g.homeTeam.name = str "Lakers" ∧
      g.homeTeam.score = JsNum.int 102 ∧
      g.awayTeam.id = str "2" ∧ g.awayTeam.name = str "Celtics" ∧
      g.awayTeam.score = JsNum.int 99) ∧
    (∃ g : Game, parseEvent awayOnlyEvent = Except.ok g ∧
      g.homeTeam = teamSide undefined ∧ g.homeTeam.score = JsNum.int 0 ∧
      g.awayTeam.id = str "2") := by
  have hmain := parseEvent_sides_first_competition
  constructor
  · have hrun : ∃ g : Game, parseEvent twoCompetitionEvent = Except.ok g ∧
        g.homeTeam.id = str "13" ∧ g.homeTeam.name = str "Lakers" ∧
        g.homeTeam.score = JsNum.int 102 ∧
        g.awayTeam.id = str "2" ∧ g.awayTeam.name = str "Celtics" ∧
        g.awayTeam.score = JsNum.int 99 := ⟨_, rfl, rfl, rfl, rfl, rfl, rfl, rfl⟩
    exact hrun
  · obtain ⟨g, hg, _, hsides⟩ := hmain.2.2.2.2.1 awayOnlyEvent rfl
      (Or.inr ⟨[sampleCompetitor "away" "2" "Celtics" "99"], rfl, by
        intro x hx
        simp only [List.mem_singleton] at hx
        subst hx
        rfl⟩)
      (Or.inr ⟨"pre", rfl⟩)
    have hhome := (hsides [sampleCompetitor "away" "2" "Celtics" "99"] rfl).1 (by
      intro x hx
      simp only [List.mem_singleton] at hx
      subst hx
      rfl)
    have hrun : ∃ g2 : Game, parseEvent awayOnlyEvent = Except.ok g2 ∧
        g2.awayTeam.id = str "2" := ⟨_, rfl, rfl⟩
    obtain ⟨g2, hg2, hid⟩ := hrun
    rw [hg] at hg2
    injection hg2 with hEq
    subst hEq
    exact ⟨g, hg, hhome, by rw [hhome]; rfl, hid⟩

theorem buildDetailsMap_frame (k : String) :
    ∀ (videos : List JVal) (m0 m : PlainObj),
      buildDetailsMap videos m0 = Except.ok m →
      (∀ v ∈ videos, (getOpt v "id").toStr ≠ k) →
      hasKey k m.own = hasKey k m0.own ∧ lookup k m.own = lookup k m0.own := by
  intro videos
  induction videos with
  | nil =>
    intro m0 m h _
    simp only [buildDetailsMap, pure, Except.pure, Except.ok.injEq] at h
    subst h
    exact ⟨rfl, rfl⟩
  | cons v rest ih =>
    intro m0 m h hne
    simp only [buildDetailsMap, bind, Except.bind] at h
    cases hid : getProp v "id" with
    | error e => rw [hid] at h; simp at h
    | ok id =>
      rw [hid] at h
      simp only at h
      have hopt := (getProp_ok_getOpt v id "id" hid).1
      obtain ⟨f1, f2⟩ := ih _ m h (fun x hx => hne x (List.mem_cons_of_mem _ hx))
      have hk : id.toStr ≠ k := by
        rw [← hopt]
        exact hne v (List.mem_cons_self _ _)
      obtain ⟨g1, g2⟩ := set_lookup_other id.toStr k v m0 hk
      exact ⟨by rw [f1, g1], by rw [f2, g2]⟩

theorem buildDetailsMap_proto :
    ∀ (videos : List JVal) (m0 m : PlainObj),
      buildDetailsMap videos m0 = Except.ok m →
      (∀ v ∈ videos, (getOpt v "id").toStr ≠ "__proto__") → m.proto = m0.proto := by
  intro videos
  induction videos with
  | nil =>
    intro m0 m h _
    simp only [buildDetailsMap, pure, Except.pure, Except.ok.injEq] at h
    subst h
    rfl
  | cons v rest ih =>
    intro m0 m h hne
    simp only [buildDetailsMap, bind, Except.bind] at h
    cases hid : getProp v "id" with
    | error e => rw [hid] at h; simp at h
    | ok id =>
      rw [hid] at h
      simp only at h
      have hopt := (getProp_ok_getOpt v id "id" hid).1
      have hk : id.toStr ≠ "__proto__" := by
        rw [← hopt]
        exact hne v (List.mem_cons_self _ _)
      rw [ih _ m h (fun x hx => hne x (List.mem_cons_of_mem _ hx)),
        set_own_ordinary _ _ _ hk]

theorem buildDetailsMap_lookup (k : String) (hk : k ≠ "__proto__") :
    ∀ (videos : List JVal) (m0 m : PlainObj),
      buildDetailsMap videos m0 = Except.ok m →
      ∀ v : JVal,
        videos.reverse.find? (fun v => decide ((getOpt v "id").toStr = k)) = some v →
        hasKey k m.own = true ∧ lookup k m.own = v := by
  intro videos
  induction videos with
  | nil =>
    intro m0 m _ v hv
    simp at hv
  | cons x rest ih =>
    intro m0 m h v hv
    simp only [buildDetailsMap, bind, Except.bind] at h
    cases hid : getProp x "id" with
    | error e => rw [hid] at h; simp at h
    | ok id =>
      rw [hid] at h
      simp only at h
      have hopt := (getProp_ok_getOpt x id "id" hid).1
      rw [List.reverse_cons, List.find?_append] at hv
      cases hf : rest.reverse.find? (fun v => decide ((getOpt v "id").toStr = k)) with
      | some v1 =>
        rw [hf] at hv
        have hv1 : v1 = v := by simpa using hv
        subst hv1
        exact ih _ m h v1 hf
      | none =>
        rw [hf] at hv
        simp only [Option.none_or, List.find?_cons, List.find?_nil] at hv
        by_cases hxk : (getOpt x "id").toStr = k
        · simp only [hxk, decide_True, Option.some.injEq] at hv
          subst hv
          have hnone : ∀ y ∈ rest, (getOpt y "id").toStr ≠ k := by
            intro y hy hyk
            have := List.find?_eq_none.1 hf y (List.mem_reverse.2 hy)
            simp [hyk] at this
          obtain ⟨f1, f2⟩ := buildDetailsMap_frame k rest _ m h hnone
          have hidk : id.toStr = k := by rw [← hopt]; exact hxk
          obtain ⟨g1, g2⟩ := set_lookup_self id.toStr x m0 (by rw [hidk]; exact hk)
          rw [hidk] at g1 g2 f1 f2
          exact ⟨by rw [f1, g1], by rw [f2, g2]⟩
        · simp [hxk] at hv

theorem get_unmatched (k : String) (m : PlainObj) (hown : hasKey k m.own = false)
    (hproto : m.proto = Proto.objectPrototype) :
    getOpt ((m.get k).or (obj [])) "contentDetails" = undefined ∧
      getOpt ((m.get k).or (obj [])) "statistics" = undefined := by
  have hget : m.get k = objectPrototypeRead k (native "Object.prototype") := by
    unfold PlainObj.get
    rw [hown, hproto]
    rfl
  rw [hget]
  unfold objectPrototypeRead
  split_ifs <;> exact ⟨rfl, rfl⟩

theorem parseItem_fields (detailsMap : PlainObj) (item : JVal) (r : Reel)
    (h : parseItem detailsMap item = Except.ok r) :
    itemVideoId item = Except.ok r.videoId ∧ r.id = r.videoId ∧
    r.duration =
      (getOpt (getOpt ((detailsMap.get r.videoId.toStr).or (obj [])) "contentDetails")
        "duration").or (str "PT0M0S") ∧
    parseDuration
      (getOpt (getOpt ((detailsMap.get r.videoId.toStr).or (obj [])) "contentDetails")
        "duration") = Except.ok r.durationSeconds ∧
    r.viewCount =
      (getOpt (getOpt ((detailsMap.get r.videoId.toStr).or (obj [])) "statistics")
        "viewCount").or (str "0") ∧
    r.likeCount =
      (getOpt (getOpt ((detailsMap.get r.videoId.toStr).or (obj [])) "statistics")
        "likeCount").or (str "0") := by
  have hv := parseItem_videoId detailsMap item r h
  refine ⟨hv, ?_⟩
  unfold itemVideoId at hv
  unfold parseItem at h
  simp only [bind, Except.bind] at h hv
  cases h1 : getProp item "contentDetails" with
  | error e => rw [h1] at h; simp at h
  | ok contentDetails =>
    rw [h1] at h hv
    simp only at h hv
    cases h2 : getProp contentDetails "videoId" with
    | error e => rw [h2] at h; simp at h
    | ok videoId =>
      rw [h2] at h hv
      simp only [Except.ok.injEq] at h hv
      cases h3 : getProp item "snippet" with
      | error e => rw [h3] at h; simp at h
      | ok snippet =>
        rw [h3] at h
        simp only at h
        cases h4 : getProp snippet "title" with
        | error e => rw [h4] at h; simp at h
        | ok title =>
          rw [h4] at h
          simp only at h
          cases h5 : parseDuration (getOpt (getOpt ((detailsMap.get videoId.toStr).or
              (obj [])) "contentDetails") "duration") with
          | error e => rw [h5] at h; simp at h
          | ok secs =>
            rw [h5] at h
            simp only [pure, Except.pure, Except.ok.injEq] at h
            subst h
            exact ⟨rfl, rfl, h5, rfl, rfl⟩

/-- C18 (claim as stated fails): with a details batch whose single record has the id
`__proto__`, that record becomes the prototype of the lookup; the playlist item `x` has no
details record with the id `x`, and still it does not get the defaults: it reads the
property `x` inherited from the record and shows its duration and view count. -/
theorem parseYouTubeVideos_inherited_details :
    (parseYouTubeVideos (arr [sampleItem "x" "one"]) protoDetails).toOption.map
        (fun reels => reels.map
          (fun r => (r.id.toStr, r.duration.toStr, r.durationSeconds, r.viewCount.toStr))) =
      some [("x", "PT9M", JsNum.int 540, "77")] := by
  rfl

/-- C18 (amended): `parseYouTubeVideos` joins by identifier without dropping entries: the
output follows the playlist items one for one (same length, same order); entry `i` has as id
the video id of playlist item `i` and takes its duration and counts from what the lookup
built from the batch answers for that id, each with its default when absent.  For an id
other than `__proto__` with a details record of that id the lookup answers with that record
(the last one in the batch when several share the id).  When no record has that id and no
record of the batch has the id `__proto__`, the entry gets duration `PT0M0S`,
durationSeconds 0, viewCount `0` and likeCount `0`. -/
theorem parseYouTubeVideos_join (items videos : List JVal) (reels : List Reel)
    (h : parseYouTubeVideos (arr items) (arr videos) = Except.ok reels) :
    reels.length = items.length ∧
    ∃ detailsMap : PlainObj, buildDetailsMap videos PlainObj.empty = Except.ok detailsMap ∧
    List.Forall₂ (fun item r =>
      itemVideoId item = Except.ok r.videoId ∧ r.id = r.videoId ∧
      ∃ details : JVal,
        details = (detailsMap.get r.videoId.toStr).or (obj []) ∧
        r.duration =
          (getOpt (getOpt details "contentDetails") "duration").or (str "PT0M0S") ∧
        parseDuration (getOpt (getOpt details "contentDetails") "duration") =
          Except.ok r.durationSeconds ∧
        r.viewCount = (getOpt (getOpt details "statistics") "viewCount").or (str "0") ∧
        r.likeCount = (getOpt (getOpt details "statistics") "likeCount").or (str "0") ∧
        (r.videoId.toStr ≠ "__proto__" → ∀ v : JVal,
          videos.reverse.find?
            (fun v => decide ((getOpt v "id").toStr = r.videoId.toStr)) = some v →
          details = v.or (obj [])) ∧
        ((∀ v ∈ videos, (getOpt v "id").toStr ≠ r.videoId.toStr) →
          (∀ v ∈ videos, (getOpt v "id").toStr ≠ "__proto__") →
          r.duration = str "PT0M0S" ∧ r.durationSeconds = JsNum.int 0 ∧
          r.viewCount = str "0" ∧ r.likeCount = str "0")) items reels := by
  unfold parseYouTubeVideos at h
  simp only [bind, Except.bind] at h
  cases hm : buildDetailsMap videos PlainObj.empty with
  | error e => rw [hm] at h; simp at h
  | ok detailsMap =>
    rw [hm] at h
    simp only at h
    have hf := mapE_forall2 (parseItem detailsMap) items reels h
    refine ⟨hf.length_eq.symm, detailsMap, rfl, ?_⟩
    refine hf.imp ?_
    intro item r hr
    obtain ⟨h1, h2, h3, h4, h5, h6⟩ := parseItem_fields detailsMap item r hr
    refine ⟨h1, h2, (detailsMap.get r.videoId.toStr).or (obj []), rfl, h3, h4, h5, h6, ?_, ?_⟩
    · intro hk v hv
      obtain ⟨g1, g2⟩ :=
        buildDetailsMap_lookup r.videoId.toStr hk videos PlainObj.empty detailsMap hm v hv
      rw [get_own _ _ g1, g2]
    · intro hnone hnoproto
      obtain ⟨f1, _⟩ :=
        buildDetailsMap_frame r.videoId.toStr videos PlainObj.empty detailsMap hm hnone
      have hp := buildDetailsMap_proto videos PlainObj.empty detailsMap hm hnoproto
      obtain ⟨d1, d2⟩ := get_unmatched r.videoId.toStr detailsMap (by rw [f1]; rfl) hp
      rw [d1] at h3 h4
      rw [d2] at h5 h6
      refine ⟨h3, ?_, h5, h6⟩
      have : parseDuration (getOpt undefined "duration") = Except.ok (JsNum.int 0) := rfl
      rw [this] at h4
      injection h4 with h4
      exact h4.symm

/-- C18 at the sample items and details: three entries in playlist order, each with the
duration of the details record of its id; with an empty details batch every entry gets the
defaults. -/
theorem parseYouTubeVideos_join_witness :
    ((parseYouTubeVideos sampleItems sampleDetails).toOption.getD []).map
        (fun r => (r.id.toStr, r.duration.toStr, r.durationSeconds)) =
      [("a", "PT1M30S", JsNum.int 90), ("b", "PT6M40S", JsNum.int 400),
        ("c", "PT4M10S", JsNum.int 250)] ∧
    ((parseYouTubeVideos sampleItems (arr [])).toOption.getD []).map
        (fun r => (r.id.toStr, r.duration.toStr, r.durationSeconds, r.viewCount.toStr)) =
      [("a", "PT0M0S", JsNum.int 0, "0"), ("b", "PT0M0S", JsNum.int 0, "0"),
        ("c", "PT0M0S", JsNum.int 0, "0")] ∧
    ((parseYouTubeVideos sampleItems sampleDetails).toOption.getD []).length = 3 := by
  have h := parseYouTubeVideos_join
    [sampleItem "a" "one", sampleItem "b" "two", sampleItem "c" "three"]
    [sampleDetail "a" "PT1M30S", sampleDetail "b" "PT6M40S", sampleDetail "c" "PT4M10S"]
    ((parseYouTubeVideos sampleItems sampleDetails).toOption.getD []) rfl
  exact ⟨rfl, rfl, h.1.trans rfl⟩

/-! ## Box-score assembler -/

theorem assembleTeams_spec (teamsInfo : PlainObj) :
    ∀ (entries : List JVal) (bs0 bs : BoxScore),
      assembleTeams teamsInfo entries bs0 = Except.ok bs →
      ∃ rs : List (Bool × TeamBoxScore),
        List.Forall₂ (fun e r => parseTeamData teamsInfo e = Except.ok r) entries rs ∧
        bs.homeTeam =
          (match rs.reverse.find? (fun r => r.1) with
            | some r => some r.2
            | none => bs0.homeTeam) ∧
        bs.awayTeam =
          (match rs.reverse.find? (fun r => !r.1) with
            | some r => some r.2
            | none => bs0.awayTeam) := by
  intro entries
  induction entries with
  | nil =>
    intro bs0 bs h
    simp only [assembleTeams, pure, Except.pure, Except.ok.injEq] at h
    subst h
    exact ⟨[], List.Forall₂.nil, rfl, rfl⟩
  | cons e rest ih =>
    intro bs0 bs h
    simp only [assembleTeams, bind, Except.bind] at h
    cases hp : parseTeamData teamsInfo e with
    | error err => rw [hp] at h; simp at h
    | ok r =>
      rw [hp] at h
      simp only at h
      obtain ⟨rs, hf, hh, ha⟩ := ih _ bs h
      refine ⟨r :: rs, List.Forall₂.cons hp hf, ?_, ?_⟩
      · rw [hh, List.reverse_cons, List.find?_append]
        cases rs.reverse.find? (fun r => r.1) with
        | some r1 => rfl
        | none =>
          cases hr : r.1 <;> simp [hr]
      · rw [ha, List.reverse_cons, List.find?_append]
        cases rs.reverse.find? (fun r => !r.1) with
        | some r1 => rfl
        | none =>
          cases hr : r.1 <;> simp [hr]

theorem parseTeamData_spec (teamsInfo : PlainObj) (teamData : JVal)
    (r : Bool × TeamBoxScore) (h : parseTeamData teamsInfo teamData = Except.ok r) :
    r.1 = (teamsInfo.get (getOpt (getOpt teamData "team") "id").toStr).strictEqStr "home" ∧
    r.2.team.id = getOpt (getOpt teamData "team") "id" ∧
    (getOpt teamData "team").isNullish = false ∧
    parseRoster teamData = Except.ok r.2.players := by
  unfold parseTeamData at h
  simp only [bind, Except.bind] at h
  cases h1 : getProp teamData "team" with
  | error e => rw [h1] at h; simp at h
  | ok team =>
    rw [h1] at h
    simp only at h
    have ht := (getProp_ok_getOpt teamData team "team" h1).1
    cases h2 : getProp team "displayName" with
    | error e => rw [h2] at h; simp at h
    | ok name =>
      rw [h2] at h
      simp only at h
      have hn := (getProp_ok_getOpt team name "displayName" h2).2
      cases h3 : parseRoster teamData with
      | error e => rw [h3] at h; simp at h
      | ok players =>
        rw [h3] at h
        simp only [pure, Except.pure, Except.ok.injEq] at h
        subst h
        rw [ht]
        exact ⟨rfl, rfl, hn, rfl⟩

theorem assembleTeams_malformed (teamsInfo : PlainObj) :
    ∀ (entries : List JVal) (bs0 : BoxScore),
      (∃ e ∈ entries, (getOpt e "team").isNullish = true) →
      ∃ err, assembleTeams teamsInfo entries bs0 = Except.error err := by
  intro entries
  induction entries with
  | nil => intro bs0 h; simp at h
  | cons e rest ih =>
    intro bs0 h
    simp only [assembleTeams, bind, Except.bind]
    cases hp : parseTeamData teamsInfo e with
    | error err => exact ⟨err, rfl⟩
    | ok r =>
      simp only
      obtain ⟨x, hx, hnull⟩ := h
      rcases List.mem_cons.mp hx with hx | hx
      · subst hx
        have := (parseTeamData_spec teamsInfo x r hp).2.2.1
        rw [hnull] at this
        exact absurd this (by simp)
      · exact ih _ ⟨x, hx, hnull⟩

theorem boxScoreBody_some (data : JVal) (bs : BoxScore)
    (h : boxScoreBody data = Except.ok (some bs)) :
    ∃ (entries : List JVal) (teamsInfo : PlainObj),
      getOpt (getOpt data "boxscore") "players" = arr entries ∧
      buildTeamsInfo (getOpt (getOpt data "boxscore") "teams") = Except.ok teamsInfo ∧
      assembleTeams teamsInfo entries { homeTeam := none, awayTeam := none } =
        Except.ok bs := by
  unfold boxScoreBody at h
  simp only [bind, Except.bind] at h
  cases h1 : getProp data "boxscore" with
  | error e => rw [h1] at h; simp at h
  | ok boxscore =>
    rw [h1] at h
    simp only at h
    have hb := (getProp_ok_getOpt data boxscore "boxscore" h1).1
    rw [hb]
    by_cases ht : (getOpt boxscore "players").truthy = true
    · simp only [ht, if_true] at h
      cases h2 : buildTeamsInfo (getOpt boxscore "teams") with
      | error e => rw [h2] at h; simp at h
      | ok teamsInfo =>
        rw [h2] at h
        simp only at h
        cases h3 : getOpt boxscore "players" with
        | arr entries =>
          rw [h3] at h
          simp only at h
          cases h4 : assembleTeams teamsInfo entries { homeTeam := none, awayTeam := none } with
          | error e => rw [h4] at h; simp at h
          | ok bs1 =>
            rw [h4] at h
            simp only [pure, Except.pure, Except.ok.injEq, Option.some.injEq] at h
            subst h
            exact ⟨entries, teamsInfo, rfl, rfl, h4⟩
        | _ => rw [h3] at h; simp [throw, throwThe, MonadExceptOf.throw] at h
    · simp only [ht] at h
      simp [pure, Except.pure] at h

theorem fetchBoxScore_some (summary : JVal → Except JsError JVal) (gameId : JVal)
    (bs : BoxScore) (h : fetchBoxScore summary gameId = Except.ok (some bs)) :
    ∃ data : JVal, summary gameId = Except.ok data ∧
      boxScoreBody data = Except.ok (some bs) := by
  unfold fetchBoxScore at h
  cases hs : summary gameId with
  | error e => rw [hs] at h; simp [bind, Except.bind] at h
  | ok data =>
    rw [hs] at h
    simp only [bind, Except.bind] at h
    cases hb : boxScoreBody data with
    | error e => rw [hb] at h; simp at h
    | ok r =>
      rw [hb] at h
      simp only [Except.ok.injEq] at h
      exact ⟨data, rfl, by rw [hb, h]⟩

/-- C11 (claim as stated fails): with one team tagged `home` and no team tagged `away`, the
entry of a team missing from the side-lookup is stored as `awayTeam`, which is not left
null. -/
theorem fetchBoxScore_untagged_team_is_away :
    (fetchBoxScore (fun _ => Except.ok untaggedTeamSummary) (str "401")).toOption.map
      (fun r => r.map (fun bs =>
        (bs.homeTeam.map (fun t => t.team.id.toStr),
          bs.awayTeam.map (fun t => t.team.id.toStr)))) =
      some (some (some "1", some "2")) := by
  rfl

/-- C11 (amended): in the BoxScore `fetchBoxScore` returns, `homeTeam` is the last entry of
the players list whose team id is tagged `home` in the side-lookup built from
`boxscore.teams`, and `awayTeam` is the last entry whose team id is not tagged `home`
(tagged `away`, tagged otherwise, or missing from the side-lookup); a side with no such
entry is left null. -/
theorem fetchBoxScore_sides (summary : JVal → Except JsError JVal) (gameId : JVal)
    (bs : BoxScore) (h : fetchBoxScore summary gameId = Except.ok (some bs)) :
    ∃ (data : JVal) (entries : List JVal) (teamsInfo : PlainObj)
      (rs : List (Bool × TeamBoxScore)),
      summary gameId = Except.ok data ∧
      getOpt (getOpt data "boxscore") "players" = arr entries ∧
      buildTeamsInfo (getOpt (getOpt data "boxscore") "teams") = Except.ok teamsInfo ∧
      List.Forall₂ (fun e r => parseTeamData teamsInfo e = Except.ok r ∧
        r.1 = (teamsInfo.get (getOpt (getOpt e "team") "id").toStr).strictEqStr "home" ∧
        r.2.team.id = getOpt (getOpt e "team") "id") entries rs ∧
      bs.homeTeam = (rs.reverse.find? (fun r => r.1)).map (fun r => r.2) ∧
      bs.awayTeam = (rs.reverse.find? (fun r => !r.1)).map (fun r => r.2) := by
  obtain ⟨data, hs, hb⟩ := fetchBoxScore_some summary gameId bs h
  obtain ⟨entries, teamsInfo, hp, ht, ha⟩ := boxScoreBody_some data bs hb
  obtain ⟨rs, hf, hh, haw⟩ := assembleTeams_spec teamsInfo entries _ bs ha
  refine ⟨data, entries, teamsInfo, rs, hs, hp, ht, ?_, ?_, ?_⟩
  · refine hf.imp ?_
    intro e r hr
    have := parseTeamData_spec teamsInfo e r hr
    exact ⟨hr, this.1, this.2.1⟩
  · rw [hh]
    cases rs.reverse.find? (fun r => r.1) <;> rfl
  · rw [haw]
    cases rs.reverse.find? (fun r => !r.1) <;> rfl

/-- C11 (amended) at the summary above. -/
theorem fetchBoxScore_sides_witness :
    ∃ bs : BoxScore,
      fetchBoxScore (fun _ => Except.ok untaggedTeamSummary) (str "401") =
        Except.ok (some bs) ∧
      ∃ rs : List (Bool × TeamBoxScore),
        bs.homeTeam = (rs.reverse.find? (fun r => r.1)).map (fun r => r.2) ∧
        bs.awayTeam = (rs.reverse.find? (fun r => !r.1)).map (fun r => r.2) ∧
        rs.map (fun r => r.1) = [true, false] := by
  have hrun : ∃ bs : BoxScore,
      fetchBoxScore (fun _ => Except.ok untaggedTeamSummary) (str "401") =
        Except.ok (some bs) := ⟨_, rfl⟩
  obtain ⟨bs, hbs⟩ := hrun
  obtain ⟨data, entries, teamsInfo, rs, hs, hp, ht, hf, hh, ha⟩ :=
    fetchBoxScore_sides (fun _ => Except.ok untaggedTeamSummary) (str "401") bs hbs
  refine ⟨bs, hbs, rs, hh, ha, ?_⟩
  simp only [Except.ok.injEq] at hs
  subst hs
  have he : entries = [
      obj [("team", obj [("id", str "1"), ("displayName", str "Home Club")])],
      obj [("team", obj [("id", str "2"), ("displayName", str "Other Club")])]] := by
    have : getOpt (getOpt untaggedTeamSummary "boxscore") "players" = arr [
      obj [("team", obj [("id", str "1"), ("displayName", str "Home Club")])],
      obj [("team", obj [("id", str "2"), ("displayName", str "Other Club")])]] := rfl
    rw [this] at hp
    injection hp with hp
    exact hp.symm
  have hti : teamsInfo =
      { own := [("1", str "home")], proto := Proto.objectPrototype } := by
    have : buildTeamsInfo (getOpt (getOpt untaggedTeamSummary "boxscore") "teams") =
        Except.ok { own := [("1", str "home")], proto := Proto.objectPrototype } := rfl
    rw [this] at ht
    injection ht with ht
    exact ht.symm
  subst he hti
  cases hf with
  | cons h1 hrest =>
    cases hrest with
    | cons h2 hnil =>
      cases hnil
      simp only [List.map_cons, List.map_nil]
      rw [h1.2.1, h2.2.1]
      rfl

theorem parseAthlete_flags (statsGroup athlete : JVal) (p : PlayerBoxLine)
    (h : parseAthlete statsGroup athlete = Except.ok p) :
    p.didNotPlay = (getOpt athlete "didNotPlay").or (JVal.bool false) ∧
    p.reason = (getOpt athlete "reason").or (str "") ∧
    p.id = getOpt (getOpt athlete "athlete") "id" := by
  unfold parseAthlete at h
  simp only [bind, Except.bind] at h
  cases h1 : statValues (getOpt statsGroup "labels") athlete with
  | error e => rw [h1] at h; simp at h
  | ok sv =>
    rw [h1] at h
    simp only at h
    cases h2 : getProp athlete "athlete" with
    | error e => rw [h2] at h; simp at h
    | ok a =>
      rw [h2] at h
      simp only [pure, Except.pure, Except.ok.injEq] at h
      subst h
      rw [(getProp_ok_getOpt athlete a "athlete" h2).1]
      exact ⟨rfl, rfl, rfl⟩

theorem parseRoster_spec (teamData : JVal) (players : List PlayerBoxLine)
    (h : parseRoster teamData = Except.ok players) :
    (∃ athletes : List JVal,
      getOpt (idxOpt (getOpt teamData "statistics") 0) "athletes" = arr athletes ∧
      List.Forall₂ (fun athlete p =>
        p.didNotPlay = (getOpt athlete "didNotPlay").or (JVal.bool false) ∧
        p.reason = (getOpt athlete "reason").or (str "") ∧
        p.id = getOpt (getOpt athlete "athlete") "id") athletes players) ∨
    ((getOpt (idxOpt (getOpt teamData "statistics") 0) "athletes").truthy = false ∧
      players = []) := by
  unfold parseRoster at h
  simp only at h
  by_cases ht : (getOpt (idxOpt (getOpt teamData "statistics") 0) "athletes").truthy = true
  · simp only [ht, if_true] at h
    cases ha : getOpt (idxOpt (getOpt teamData "statistics") 0) "athletes" with
    | arr athletes =>
      rw [ha] at h
      simp only at h
      left
      refine ⟨athletes, rfl, ?_⟩
      exact (mapE_forall2 _ athletes players h).imp
        (fun a p hp => parseAthlete_flags _ a p hp)
    | _ => rw [ha] at h; simp [throw, throwThe, MonadExceptOf.throw] at h
  · have hfalse : (getOpt (idxOpt (getOpt teamData "statistics") 0) "athletes").truthy =
        false := by simpa using ht
    rw [hfalse] at h
    simp only [pure, Except.pure, Bool.false_eq_true, if_false, Except.ok.injEq] at h
    exact Or.inr ⟨hfalse, h.symm⟩

theorem find_reverse_mem {α : Type} (p : α → Bool) (l : List α) (x : α)
    (h : l.reverse.find? p = some x) : x ∈ l := by
  have := List.mem_of_find?_eq_some h
  simpa using this

theorem forall2_mem_right {α β : Type} (R : α → β → Prop) :
    ∀ (xs : List α) (ys : List β), List.Forall₂ R xs ys →
      ∀ y ∈ ys, ∃ x ∈ xs, R x y := by
  intro xs ys h
  induction h with
  | nil => intro y hy; simp at hy
  | cons hab _ ih =>
    intro y hy
    rcases List.mem_cons.mp hy with hy | hy
    · subst hy
      exact ⟨_, List.mem_cons_self _ _, hab⟩
    · obtain ⟨x, hx, hr⟩ := ih y hy
      exact ⟨x, List.mem_cons_of_mem _ hx, hr⟩

/-- C12: `fetchBoxScore` never raises: for every game id and every upstream outcome it
returns null or a BoxScore; it returns null when the request fails, when
`boxscore.players` is absent, and when an entry of the players list lacks its team record;
a BoxScore it returns is the complete result of processing every entry of the players
list. -/
theorem fetchBoxScore_never_raises (summary : JVal → Except JsError JVal) (gameId : JVal) :
    ∃ r : Option BoxScore,
      fetchBoxScore summary gameId = Except.ok r ∧
      (∀ e : JsError, summary gameId = Except.error e → r = none) ∧
      (∀ data : JVal, summary gameId = Except.ok data →
        (getOpt (getOpt data "boxscore") "players").truthy = false → r = none) ∧
      (∀ (data : JVal) (entries : List JVal), summary gameId = Except.ok data →
        getOpt (getOpt data "boxscore") "players" = arr entries →
        (∃ e ∈ entries, (getOpt e "team").isNullish = true) → r = none) ∧
      (∀ bs : BoxScore, r = some bs →
        ∃ (data : JVal) (entries : List JVal) (teamsInfo : PlainObj)
          (rs : List (Bool × TeamBoxScore)),
          summary gameId = Except.ok data ∧
          getOpt (getOpt data "boxscore") "players" = arr entries ∧
          List.Forall₂ (fun e r => parseTeamData teamsInfo e = Except.ok r) entries rs) := by
  have htotal : ∃ r : Option BoxScore, fetchBoxScore summary gameId = Except.ok r := by
    unfold fetchBoxScore
    cases summary gameId >>= boxScoreBody with
    | ok r => exact ⟨r, rfl⟩
    | error e => exact ⟨none, rfl⟩
  obtain ⟨r, hr⟩ := htotal
  refine ⟨r, hr, ?_, ?_, ?_, ?_⟩
  · intro e he
    unfold fetchBoxScore at hr
    rw [he] at hr
    simp only [bind, Except.bind, Except.ok.injEq] at hr
    exact hr.symm
  · intro data hd hfalsy
    cases r with
    | none => rfl
    | some bs =>
      exfalso
      obtain ⟨data1, hs, hb⟩ := fetchBoxScore_some summary gameId bs hr
      rw [hd] at hs
      injection hs with hs
      subst hs
      obtain ⟨entries, _, hp, _, _⟩ := boxScoreBody_some data bs hb
      rw [hp] at hfalsy
      simp [truthy] at hfalsy
  · intro data entries hd hp hbad
    cases r with
    | none => rfl
    | some bs =>
      exfalso
      obtain ⟨data1, hs, hb⟩ := fetchBoxScore_some summary gameId bs hr
      rw [hd] at hs
      injection hs with hs
      subst hs
      obtain ⟨entries1, teamsInfo, hp1, _, ha⟩ := boxScoreBody_some data bs hb
      rw [hp] at hp1
      injection hp1 with hp1
      subst hp1
      obtain ⟨err, herr⟩ := assembleTeams_malformed teamsInfo entries
        { homeTeam := none, awayTeam := none } hbad
      rw [herr] at ha
      simp at ha
  · intro bs hbs
    subst hbs
    obtain ⟨data, entries, teamsInfo, rs, hs, hp, _, hf, _, _⟩ :=
      fetchBoxScore_sides summary gameId bs hr
    exact ⟨data, entries, teamsInfo, rs, hs, hp, hf.imp (fun _ _ h => h.1)⟩

/-- C23: `fetchBoxScore` retains every athlete: each team of the BoxScore comes from an
entry of the players list, and its roster follows the athletes array of that entry's first
statistics group one for one (same length, same order; the empty roster when there is no
such array); every line keeps `didNotPlay` as `athlete.didNotPlay || false` and `reason` as
`athlete.reason || ''`, so an athlete flagged `didNotPlay` is kept with the flag `true` and
its reason text, and an athlete without flag or reason has `false` and the empty text. -/
theorem fetchBoxScore_retains_athletes (summary : JVal → Except JsError JVal)
    (gameId : JVal) (bs : BoxScore)
    (h : fetchBoxScore summary gameId = Except.ok (some bs)) :
    (∀ tbs : TeamBoxScore, bs.homeTeam = some tbs ∨ bs.awayTeam = some tbs →
      ∃ (data : JVal) (entries : List JVal) (teamData : JVal),
        summary gameId = Except.ok data ∧
        getOpt (getOpt data "boxscore") "players" = arr entries ∧
        teamData ∈ entries ∧
        tbs.team.id = getOpt (getOpt teamData "team") "id" ∧
        ((∃ athletes : List JVal,
            getOpt (idxOpt (getOpt teamData "statistics") 0) "athletes" = arr athletes ∧
            tbs.players.length = athletes.length ∧
            List.Forall₂ (fun athlete p =>
              p.didNotPlay = (getOpt athlete "didNotPlay").or (JVal.bool false) ∧
              p.reason = (getOpt athlete "reason").or (str "") ∧
              p.id = getOpt (getOpt athlete "athlete") "id") athletes tbs.players) ∨
          ((getOpt (idxOpt (getOpt teamData "statistics") 0) "athletes").truthy = false ∧
            tbs.players = []))) ∧
    (JVal.bool true).or (JVal.bool false) = JVal.bool true ∧
    undefined.or (JVal.bool false) = JVal.bool false ∧
    undefined.or (str "") = str "" ∧
    (∀ s : String, s ≠ "" → (str s).or (str "") = str s) := by
  refine ⟨?_, rfl, rfl, rfl, ?_⟩
  · intro tbs hside
    obtain ⟨data, entries, teamsInfo, rs, hs, hp, _, hf, hh, ha⟩ :=
      fetchBoxScore_sides summary gameId bs h
    have hmem : ∃ r ∈ rs, r.2 = tbs := by
      rcases hside with hside | hside
      · rw [hh] at hside
        cases hfind : rs.reverse.find? (fun r => r.1) with
        | none => rw [hfind] at hside; simp at hside
        | some r =>
          rw [hfind] at hside
          simp only [Option.map_some', Option.some.injEq] at hside
          exact ⟨r, find_reverse_mem _ rs r hfind, hside⟩
      · rw [ha] at hside
        cases hfind : rs.reverse.find? (fun r => !r.1) with
        | none => rw [hfind] at hside; simp at hside
        | some r =>
          rw [hfind] at hside
          simp only [Option.map_some', Option.some.injEq] at hside
          exact ⟨r, find_reverse_mem _ rs r hfind, hside⟩
    obtain ⟨r, hr, hrt⟩ := hmem
    obtain ⟨teamData, hte, hpt, _, hid⟩ := forall2_mem_right _ entries rs hf r hr
    have hroster := (parseTeamData_spec teamsInfo teamData r hpt).2.2.2
    subst hrt
    refine ⟨data, entries, teamData, hs, hp, hte, hid, ?_⟩
    rcases parseRoster_spec teamData r.2.players hroster with ⟨athletes, hat, hfa⟩ | hno
    · exact Or.inl ⟨athletes, hat, hfa.length_eq.symm, hfa⟩
    · exact Or.inr hno
  · intro s hs
    simp [JVal.or, truthy, hs]

/-- C23 at a summary with two athletes, the second one flagged `didNotPlay`. -/
theorem fetchBoxScore_retains_athletes_witness :
    (fetchBoxScore (fun _ => Except.ok rosterSummary) (str "401")).toOption.map
      (fun r => r.map (fun bs => bs.homeTeam.map (fun t =>
        t.players.map (fun p => (p.id.toStr, p.didNotPlay.toStr, p.reason.toStr))))) =
      some (some (some [("a1", "false", ""), ("a2", "true", "COACH DECISION")])) ∧
    undefined.or (JVal.bool false) = JVal.bool false := by
  have hrun : ∃ bs : BoxScore,
      fetchBoxScore (fun _ => Except.ok rosterSummary) (str "401") = Except.ok (some bs) :=
    ⟨_, rfl⟩
  obtain ⟨bs, hbs⟩ := hrun
  exact ⟨rfl,
    (fetchBoxScore_retains_athletes (fun _ => Except.ok rosterSummary) (str "401") bs
      hbs).2.2.1⟩

/-! ## Season-stats aggregator -/

theorem string_append_data (a b : String) : (a ++ b).data = a.data ++ b.data := by
  simp

theorem isOneDecimal_of_parts (neg : Bool) (ip fp : List Char) (hne : ip ≠ [])
    (hip : ∀ c ∈ ip, c.isDigit = true) (hfp : ∃ d : Char, fp = [d] ∧ d.isDigit = true) :
    isOneDecimal (String.mk ((if neg then ['-'] else []) ++ ip ++ '.' :: fp)) = true := by
  obtain ⟨d, hd, hdd⟩ := hfp
  subst hd
  have hdot : Char.isDigit '.' = false := by decide
  have hdrop : (ip ++ ['.', d]).dropWhile Char.isDigit = ['.', d] := by
    rw [List.dropWhile_append_of_pos hip]
    simp [List.dropWhile, hdot]
  have htake : (ip ++ ['.', d]).takeWhile Char.isDigit = ip := by
    rw [List.takeWhile_append_of_pos hip]
    simp [List.takeWhile, hdot]
  have hbody : stripMinus (ip ++ ['.', d]) = ip ++ ['.', d] := by
    cases ip with
    | nil => exact absurd rfl hne
    | cons c rest =>
      have hc := hip c (List.mem_cons_self _ _)
      have : c ≠ '-' := by
        intro h; rw [h] at hc; exact absurd hc (by decide)
      unfold stripMinus
      split
      · rename_i r heq
        exact absurd (List.cons.inj heq).1 this
      · rfl
  have hempty : ip.isEmpty = false := by
    cases ip with
    | nil => exact absurd rfl hne
    | cons c rest => rfl
  have key : oneDecimalBody (ip ++ ['.', d]) = true := by
    unfold oneDecimalBody
    rw [hdrop, htake]
    simp [hdd, hempty]
  cases neg with
  | true =>
    show isOneDecimal (String.mk ('-' :: (ip ++ ['.', d]))) = true
    unfold isOneDecimal
    exact key
  | false =>
    show isOneDecimal (String.mk (ip ++ ['.', d])) = true
    unfold isOneDecimal
    simp only [hbody]
    exact key

theorem single_digit (d : Nat) (hd : d < 10) :
    ∃ c : Char, (toString d).data = [c] ∧ c.isDigit = true := by
  interval_cases d <;> exact ⟨_, rfl, by decide⟩

/-- The text `toFixed(1)` gives for a finite number of magnitude below `10^21`, and the
nearness of the tenths it shows to ten times the magnitude. -/
theorem toFixed1_moderate (neg : Bool) (m k : Nat) (h : m < 10 ^ 21 * 2 ^ k) :
    toFixed1 (Dbl.fin neg m k) =
      (if neg ∧ m ≠ 0 then "-" else "") ++
        (toString ((20 * m + 2 ^ k) / (2 * 2 ^ k) / 10) ++ "." ++
          toString ((20 * m + 2 ^ k) / (2 * 2 ^ k) % 10)) ∧
    isOneDecimal (toFixed1 (Dbl.fin neg m k)) = true ∧
    2 * ((20 * m + 2 ^ k) / (2 * 2 ^ k)) * 2 ^ k ≤ 20 * m + 2 ^ k ∧
    20 * m < 2 * ((20 * m + 2 ^ k) / (2 * 2 ^ k)) * 2 ^ k + 2 ^ k := by
  have hnot : ¬ (10 ^ 21 * 2 ^ k ≤ m) := not_le.mpr h
  have hpos : 0 < 2 * 2 ^ k := by positivity
  have htext : toFixed1 (Dbl.fin neg m k) =
      (if neg ∧ m ≠ 0 then "-" else "") ++
        (toString ((20 * m + 2 ^ k) / (2 * 2 ^ k) / 10) ++ "." ++
          toString ((20 * m + 2 ^ k) / (2 * 2 ^ k) % 10)) := by
    simp only [toFixed1, hnot, if_false]
    split_ifs <;> simp
  refine ⟨htext, ?_, ?_, ?_⟩
  · rw [htext]
    obtain ⟨hne, hdig, _⟩ := repr_digits ((20 * m + 2 ^ k) / (2 * 2 ^ k) / 10)
    obtain ⟨d, hd, hdd⟩ := single_digit ((20 * m + 2 ^ k) / (2 * 2 ^ k) % 10)
      (Nat.mod_lt _ (by decide))
    have := isOneDecimal_of_parts (decide (neg = true ∧ m ≠ 0)) _ _ hne hdig ⟨d, hd, hdd⟩
    have heq : (if neg = true ∧ m ≠ 0 then "-" else "") ++
        (toString ((20 * m + 2 ^ k) / (2 * 2 ^ k) / 10) ++ "." ++
          toString ((20 * m + 2 ^ k) / (2 * 2 ^ k) % 10)) =
        String.mk ((if decide (neg = true ∧ m ≠ 0) = true then ['-'] else []) ++
          (toString ((20 * m + 2 ^ k) / (2 * 2 ^ k) / 10)).data ++
          '.' :: (toString ((20 * m + 2 ^ k) / (2 * 2 ^ k) % 10)).data) := by
      apply String.ext
      by_cases hs : neg = true ∧ m ≠ 0 <;> simp [hs]
    rw [heq]
    exact this
  · have := Nat.div_mul_le_self (20 * m + 2 ^ k) (2 * 2 ^ k)
    nlinarith [this]
  · have := Nat.lt_div_mul_add (a := 20 * m + 2 ^ k) hpos
    nlinarith [this]

theorem formatAvg_moderate (v : JVal) (h : isModerateNumber v = true) :
    isOneDecimal (formatAvg v) = true ∧ formatPct v = formatAvg v := by
  cases v with
  | undefined => exact ⟨by decide, rfl⟩
  | null => exact ⟨by decide, rfl⟩
  | num n =>
    simp only [isModerateNumber, decide_eq_true_eq] at h
    refine ⟨?_, rfl⟩
    have : n.natAbs < 10 ^ 21 * 2 ^ 0 := by simpa using h
    exact (toFixed1_moderate (decide (n < 0)) n.natAbs 0 this).2.1
  | dbl x =>
    cases x with
    | fin neg m k =>
      simp only [isModerateNumber, decide_eq_true_eq] at h
      exact ⟨(toFixed1_moderate neg m k h).2.1, rfl⟩
    | nan => simp [isModerateNumber] at h
    | inf neg => simp [isModerateNumber] at h
  | bool b => simp [isModerateNumber] at h
  | str s => simp [isModerateNumber] at h
  | arr xs => simp [isModerateNumber] at h
  | obj kvs => simp [isModerateNumber] at h
  | native n => simp [isModerateNumber] at h

theorem parseESPNCoreStats_some (cats : List JVal) (year : Int) (stats : SeasonStats)
    (h : parseESPNCoreStats (arr cats) year = Except.ok (some stats)) :
    cats ≠ [] ∧ ∃ allStats : PlainObj,
      flattenCategories cats PlainObj.empty = Except.ok allStats ∧
      stats = buildSeasonStats allStats year := by
  unfold parseESPNCoreStats at h
  cases cats with
  | nil => simp [truthy, strictEqZero, getOpt, pure, Except.pure] at h
  | cons c rest =>
    refine ⟨by simp, ?_⟩
    have hlen : getOpt (arr (c :: rest)) "length" = num ((c :: rest).length : Nat) := by
      simp [getOpt]
    have hz : strictEqZero (num ((c :: rest).length : Nat)) = false := by
      simp only [strictEqZero, List.length_cons, beq_eq_false_iff_ne, ne_eq]
      omega
    simp only [truthy, hlen, hz, Bool.not_true, Bool.false_or, Bool.false_eq_true, if_false,
      bind, Except.bind] at h
    cases hf : flattenCategories (c :: rest) PlainObj.empty with
    | error e => rw [hf] at h; simp at h
    | ok allStats =>
      rw [hf] at h
      simp only [pure, Except.pure, Except.ok.injEq, Option.some.injEq] at h
      exact ⟨allStats, rfl, h.symm⟩

theorem flattenStat_spec (allStats next : PlainObj) (stat : JVal)
    (h : flattenStat allStats stat = Except.ok next) :
    next = ((allStats.set (getOpt stat "name").toStr (getOpt stat "value")).set
      (getOpt stat "abbreviation").toStr (getOpt stat "value")) := by
  unfold flattenStat at h
  simp only [bind, Except.bind] at h
  cases hn : getProp stat "name" with
  | error e => rw [hn] at h; simp at h
  | ok name =>
    rw [hn] at h
    simp only [pure, Except.pure, Except.ok.injEq] at h
    rw [(getProp_ok_getOpt stat name "name" hn).1]
    exact h.symm

theorem flattenTriples_frame (key : String) :
    ∀ (ts : List JVal) (m0 m : PlainObj),
      flattenTriples ts m0 = Except.ok m →
      (∀ u ∈ ts, (getOpt u "name").toStr ≠ key ∧ (getOpt u "abbreviation").toStr ≠ key) →
      hasKey key m.own = hasKey key m0.own ∧ lookup key m.own = lookup key m0.own := by
  intro ts
  induction ts with
  | nil =>
    intro m0 m h _
    simp only [flattenTriples, pure, Except.pure, Except.ok.injEq] at h
    rw [h]
    exact ⟨rfl, rfl⟩
  | cons t rest ih =>
    intro m0 m h hun
    simp only [flattenTriples, bind, Except.bind] at h
    cases hs : flattenStat m0 t with
    | error e => rw [hs] at h; simp at h
    | ok next =>
      rw [hs] at h
      simp only at h
      obtain ⟨f1, f2⟩ := ih next m h (fun u hu => hun u (List.mem_cons_of_mem _ hu))
      have ht := hun t (List.mem_cons_self _ _)
      rw [flattenStat_spec m0 next t hs] at f1 f2
      obtain ⟨g1, g2⟩ := set_lookup_other _ key (getOpt t "value")
        (m0.set (getOpt t "name").toStr (getOpt t "value")) ht.2
      obtain ⟨e1, e2⟩ := set_lookup_other _ key (getOpt t "value") m0 ht.1
      exact ⟨by rw [f1, g1, e1], by rw [f2, g2, e2]⟩

theorem flattenTriples_proto :
    ∀ (ts : List JVal) (m0 m : PlainObj),
      flattenTriples ts m0 = Except.ok m →
      (∀ u ∈ ts, (getOpt u "name").toStr ≠ "__proto__" ∧
        (getOpt u "abbreviation").toStr ≠ "__proto__") →
      m.proto = m0.proto := by
  intro ts
  induction ts with
  | nil =>
    intro m0 m h _
    simp only [flattenTriples, pure, Except.pure, Except.ok.injEq] at h
    rw [h]
  | cons t rest ih =>
    intro m0 m h hun
    simp only [flattenTriples, bind, Except.bind] at h
    cases hs : flattenStat m0 t with
    | error e => rw [hs] at h; simp at h
    | ok next =>
      rw [hs] at h
      simp only at h
      have ht := hun t (List.mem_cons_self _ _)
      rw [ih next m h (fun u hu => hun u (List.mem_cons_of_mem _ hu)),
        flattenStat_spec m0 next t hs, set_own_ordinary _ _ _ ht.2,
        set_own_ordinary _ _ _ ht.1]

theorem flattenTriples_last (key : String) (hkey0 : key ≠ "__proto__") :
    ∀ (pre : List JVal) (t : JVal) (post : List JVal) (m0 m : PlainObj),
      flattenTriples (pre ++ t :: post) m0 = Except.ok m →
      ((getOpt t "name").toStr = key ∨ (getOpt t "abbreviation").toStr = key) →
      (∀ u ∈ post, (getOpt u "name").toStr ≠ key ∧ (getOpt u "abbreviation").toStr ≠ key) →
      m.get key = getOpt t "value" := by
  intro pre
  induction pre with
  | nil =>
    intro t post m0 m h hkey hun
    simp only [List.nil_append, flattenTriples, bind, Except.bind] at h
    cases hs : flattenStat m0 t with
    | error e => rw [hs] at h; simp at h
    | ok next =>
      rw [hs] at h
      simp only at h
      obtain ⟨f1, f2⟩ := flattenTriples_frame key post next m h hun
      rw [flattenStat_spec m0 next t hs] at f1 f2
      have hown : hasKey key
          ((m0.set (getOpt t "name").toStr (getOpt t "value")).set
            (getOpt t "abbreviation").toStr (getOpt t "value")).own = true ∧
          lookup key
          ((m0.set (getOpt t "name").toStr (getOpt t "value")).set
            (getOpt t "abbreviation").toStr (getOpt t "value")).own = getOpt t "value" := by
        by_cases ha : (getOpt t "abbreviation").toStr = key
        · rw [ha]
          exact set_lookup_self key _ _ hkey0
        · rcases hkey with hn | hn
          · obtain ⟨g1, g2⟩ := set_lookup_other _ key (getOpt t "value")
              (m0.set (getOpt t "name").toStr (getOpt t "value")) ha
            rw [g1, g2, hn]
            exact set_lookup_self key _ _ hkey0
          · exact absurd hn ha
      rw [get_own key m (by rw [f1]; exact hown.1), f2]
      exact hown.2
  | cons p pre ih =>
    intro t post m0 m h hkey hun
    simp only [List.cons_append, flattenTriples, bind, Except.bind] at h
    cases hs : flattenStat m0 p with
    | error e => rw [hs] at h; simp at h
    | ok next =>
      rw [hs] at h
      simp only at h
      exact ih t post next m h hkey hun

theorem flattenTriples_append :
    ∀ (xs ys : List JVal) (m0 : PlainObj),
      flattenTriples (xs ++ ys) m0 = flattenTriples xs m0 >>= flattenTriples ys := by
  intro xs
  induction xs with
  | nil => intro ys m0; rfl
  | cons x rest ih =>
    intro ys m0
    simp only [List.cons_append, flattenTriples, bind, Except.bind]
    cases flattenStat m0 x with
    | error e => rfl
    | ok next =>
      simp only
      exact ih ys next

theorem flattenCategories_triples :
    ∀ (cats : List JVal) (m0 m : PlainObj),
      flattenCategories cats m0 = Except.ok m →
      flattenTriples (allTriples cats) m0 = Except.ok m := by
  intro cats
  induction cats with
  | nil => intro m0 m h; exact h
  | cons c rest ih =>
    intro m0 m h
    simp only [flattenCategories, bind, Except.bind] at h
    cases hc : flattenCategory m0 c with
    | error e => rw [hc] at h; simp at h
    | ok next =>
      rw [hc] at h
      simp only at h
      have hrest := ih next m h
      have hfirst : flattenTriples (categoryTriples c) m0 = Except.ok next := by
        unfold categoryTriples
        unfold flattenCategory at hc
        simp only [bind, Except.bind] at hc
        cases hs : getProp c "stats" with
        | error e => rw [hs] at hc; simp at hc
        | ok stats =>
          rw [hs] at hc
          simp only at hc
          rw [(getProp_ok_getOpt c stats "stats" hs).1]
          cases stats with
          | arr triples => simpa [truthy] using hc
          | undefined => simpa [truthy] using hc
          | null => simpa [truthy] using hc
          | bool b =>
            cases b <;> simp [truthy, throw, throwThe, MonadExceptOf.throw] at hc
            simpa using hc
          | num n =>
            by_cases hn : n = 0 <;>
              simp [truthy, hn, throw, throwThe, MonadExceptOf.throw] at hc
            simpa [flattenTriples] using hc
          | str s =>
            by_cases hn : s = "" <;>
              simp [truthy, hn, throw, throwThe, MonadExceptOf.throw] at hc
            simpa [flattenTriples] using hc
          | obj kvs => simp [truthy, throw, throwThe, MonadExceptOf.throw] at hc
          | dbl x =>
            by_cases hn : (dbl x).truthy = true <;>
              simp [hn, throw, throwThe, MonadExceptOf.throw] at hc
            simpa [flattenTriples] using hc
          | native n => simp [truthy, throw, throwThe, MonadExceptOf.throw] at hc
      simp only [allTriples]
      rw [flattenTriples_append, hfirst]
      exact hrest

theorem get_missing (k : String) (m : PlainObj) (hown : hasKey k m.own = false)
    (hproto : m.proto = Proto.objectPrototype) (hk : k ≠ "__proto__")
    (hb : k ∉ objectPrototypeNames) : m.get k = undefined := by
  unfold PlainObj.get
  rw [hown, hproto]
  simp only [Bool.false_eq_true, if_false, objectPrototypeRead, hk, hb]

theorem flattened_missing (cats : List JVal) (allStats : PlainObj) (k : String)
    (h : flattenCategories cats PlainObj.empty = Except.ok allStats)
    (hk : k ≠ "__proto__") (hb : k ∉ objectPrototypeNames)
    (hun : ∀ u ∈ allTriples cats,
      (getOpt u "name").toStr ≠ k ∧ (getOpt u "abbreviation").toStr ≠ k)
    (hproto : ∀ u ∈ allTriples cats,
      (getOpt u "name").toStr ≠ "__proto__" ∧ (getOpt u "abbreviation").toStr ≠ "__proto__") :
    allStats.get k = undefined := by
  have ht := flattenCategories_triples cats PlainObj.empty allStats h
  obtain ⟨f1, _⟩ := flattenTriples_frame k _ _ _ ht hun
  have hp := flattenTriples_proto _ _ _ ht hproto
  exact get_missing k allStats (by rw [f1]; rfl) hp hk hb

theorem consumedKeys_ordinary :
    ∀ k ∈ "gamesPlayed" :: "GP" :: consumedKeys, k ≠ "__proto__" ∧ k ∉ objectPrototypeNames := by
  decide

/-- C13 (claim as stated fails): no triple carries the key `avgPoints`, and still the points
field is not `0.0`: the single triple is named `__proto__`, its object value becomes the
prototype of the flattened lookup, and the reads of `avgPoints` and `gamesPlayed` answer
with the properties inherited from it. -/
theorem parseESPNCoreStats_inherited_stat :
    (parseESPNCoreStats protoCategories 2025).toOption.map
      (fun r => r.map (fun s => (s.points, s.gamesPlayed.toStr, s.minutes))) =
      some (some ("30.0", "82", "0.0")) ∧
    (match protoCategories with
      | arr cats => (allTriples cats).map
          (fun u => ((getOpt u "name").toStr, (getOpt u "abbreviation").toStr))
      | _ => []) = [("__proto__", "x")] := by
  exact ⟨rfl, rfl⟩

/-- C13 (amended): in `parseESPNCoreStats` a consumed average or percentage that the
flattened lookup does not answer (the read gives `undefined`, as it does when no triple
carries the key and none carries the key `__proto__`), or answers with `null`, formats as
`0.0`; a present
percentage value `p` (`fieldGoalPct`, `threePointFieldGoalPct`, `freeThrowPct`) is formatted
as `p` itself to one decimal place, the tenths shown being the nearest to `10·p` and never
those of `p / 100`: 50.6 formats as `50.6`. -/
theorem parseESPNCoreStats_percent_format :
    formatAvg undefined = "0.0" ∧ formatAvg null = "0.0" ∧
    formatPct undefined = "0.0" ∧ formatPct null = "0.0" ∧
    (∀ (cats : List JVal) (allStats : PlainObj) (k : String),
      flattenCategories cats PlainObj.empty = Except.ok allStats → k ∈ consumedKeys →
      (∀ u ∈ allTriples cats,
        (getOpt u "name").toStr ≠ k ∧ (getOpt u "abbreviation").toStr ≠ k) →
      (∀ u ∈ allTriples cats, (getOpt u "name").toStr ≠ "__proto__" ∧
        (getOpt u "abbreviation").toStr ≠ "__proto__") →
      allStats.get k = undefined ∧
      formatAvg (allStats.get k) = "0.0" ∧ formatPct (allStats.get k) = "0.0") ∧
    (∀ (allStats : PlainObj) (year : Int),
      (buildSeasonStats allStats year).fieldGoalPct =
        formatPct (allStats.get "fieldGoalPct") ∧
      (buildSeasonStats allStats year).threePointPct =
        formatPct (allStats.get "threePointFieldGoalPct") ∧
      (buildSeasonStats allStats year).freeThrowPct =
        formatPct (allStats.get "freeThrowPct")) ∧
    (∀ (neg : Bool) (m k : Nat), m < 10 ^ 21 * 2 ^ k →
      formatPct (dbl (Dbl.fin neg m k)) =
        (if neg ∧ m ≠ 0 then "-" else "") ++
          (toString ((20 * m + 2 ^ k) / (2 * 2 ^ k) / 10) ++ "." ++
            toString ((20 * m + 2 ^ k) / (2 * 2 ^ k) % 10)) ∧
      2 * ((20 * m + 2 ^ k) / (2 * 2 ^ k)) * 2 ^ k ≤ 20 * m + 2 ^ k ∧
      20 * m < 2 * ((20 * m + 2 ^ k) / (2 * 2 ^ k)) * 2 ^ k + 2 ^ k) ∧
    formatPct (dbl (roundToDouble false 506 10)) = "50.6" ∧
    formatPct (num 50) = "50.0" ∧
    (parseESPNCoreStats sampleCategories 2025).toOption.map
      (fun r => r.map (fun s => (s.points, s.fieldGoalPct, s.minutes))) =
      some (some ("26.4", "50.6", "0.0")) := by
  refine ⟨rfl, rfl, rfl, rfl, ?_, ?_, ?_, rfl, rfl, rfl⟩
  · intro cats allStats k h hk hun hproto
    obtain ⟨k1, k2⟩ := consumedKeys_ordinary k
      (List.mem_cons_of_mem _ (List.mem_cons_of_mem _ hk))
    rw [flattened_missing cats allStats k h k1 k2 hun hproto]
    exact ⟨rfl, rfl, rfl⟩
  · intro allStats year
    exact ⟨rfl, rfl, rfl⟩
  · intro neg m k h
    have := toFixed1_moderate neg m k h
    exact ⟨this.1, this.2.2.1, this.2.2.2⟩

/-- C14 (claim as stated fails): with the non-numeric stat value `n/a` the `points` field is
the text `NaN`, which is no decimal numeral. -/
theorem parseESPNCoreStats_non_numeric_value :
    (parseESPNCoreStats nonNumericCategories 2025).toOption.map
      (fun r => r.map (fun s => (s.points, isOneDecimal s.points))) =
      some (some ("NaN", false)) := by
  rfl

/-- C14 (amended): for every non-empty categories list that `parseESPNCoreStats` normalizes,
the 19 formatted fields (`minutes` to `personalFouls`) are `formatAvg`/`formatPct` of what
the flattened lookup answers for the 19 consumed keys, and such a field is a decimal string
with exactly one digit after the point whenever that answer is `undefined`, `null` or a
finite number of magnitude below `10^21`; `gamesPlayed` is the answer for `gamesPlayed` when
truthy, else the answer for `GP` when truthy, else the integer 0, which is the case when no
triple carries one of the keys `gamesPlayed`, `GP` and `__proto__`. -/
theorem parseESPNCoreStats_fields (cats : List JVal) (year : Int) (stats : SeasonStats)
    (h : parseESPNCoreStats (arr cats) year = Except.ok (some stats)) :
    cats ≠ [] ∧
    ∃ allStats : PlainObj,
      flattenCategories cats PlainObj.empty = Except.ok allStats ∧
      stats.formatted = consumedKeys.map (fun k => formatAvg (allStats.get k)) ∧
      stats.formatted.length = 19 ∧
      (∀ k ∈ consumedKeys, isModerateNumber (allStats.get k) = true →
        isOneDecimal (formatAvg (allStats.get k)) = true) ∧
      ((∀ k ∈ consumedKeys, isModerateNumber (allStats.get k) = true) →
        ∀ f ∈ stats.formatted, isOneDecimal f = true) ∧
      stats.gamesPlayed =
        ((allStats.get "gamesPlayed").or (allStats.get "GP")).or (num 0) ∧
      ((allStats.get "gamesPlayed").truthy = false → (allStats.get "GP").truthy = false →
        stats.gamesPlayed = num 0) ∧
      ((∀ u ∈ allTriples cats, ∀ k ∈ ["gamesPlayed", "GP", "__proto__"],
          (getOpt u "name").toStr ≠ k ∧ (getOpt u "abbreviation").toStr ≠ k) →
        stats.gamesPlayed = num 0) ∧
      stats.season = year := by
  obtain ⟨hne, allStats, hf, hs⟩ := parseESPNCoreStats_some cats year stats h
  have hform : stats.formatted = consumedKeys.map (fun k => formatAvg (allStats.get k)) := by
    rw [hs]
    rfl
  have hgp : stats.gamesPlayed =
      ((allStats.get "gamesPlayed").or (allStats.get "GP")).or (num 0) := by
    rw [hs]; rfl
  have hdef : (allStats.get "gamesPlayed").truthy = false →
      (allStats.get "GP").truthy = false → stats.gamesPlayed = num 0 := by
    intro h1 h2
    rw [hgp]
    simp only [JVal.or, h1, h2, Bool.false_eq_true, if_false]
  refine ⟨hne, allStats, hf, hform, by rw [hform]; rfl, ?_, ?_, hgp, hdef, ?_, ?_⟩
  · intro k _ hk
    exact (formatAvg_moderate _ hk).1
  · intro hall f hfm
    rw [hform] at hfm
    obtain ⟨k, hk, hkf⟩ := List.mem_map.mp hfm
    rw [← hkf]
    exact (formatAvg_moderate _ (hall k hk)).1
  · intro hno
    have hp : ∀ u ∈ allTriples cats, (getOpt u "name").toStr ≠ "__proto__" ∧
        (getOpt u "abbreviation").toStr ≠ "__proto__" :=
      fun u hu => hno u hu "__proto__" (by simp)
    have g1 := flattened_missing cats allStats "gamesPlayed" hf (by decide) (by decide)
      (fun u hu => hno u hu "gamesPlayed" (by simp)) hp
    have g2 := flattened_missing cats allStats "GP" hf (by decide) (by decide)
      (fun u hu => hno u hu "GP" (by simp)) hp
    exact hdef (by rw [g1]; rfl) (by rw [g2]; rfl)
  · rw [hs]; rfl

/-- C14 (amended) at the sample categories. -/
theorem parseESPNCoreStats_fields_witness :
    ((parseESPNCoreStats sampleCategories 2025).toOption.getD none).map
        (fun s => (s.formatted.take 3, s.gamesPlayed.toStr)) =
      some (["0.0", "26.4", "0.0"], "0") ∧
    ((parseESPNCoreStats sampleCategories 2025).toOption.getD none).map
        (fun s => s.formatted.length) = some 19 := by
  have hrun : ∃ stats : SeasonStats,
      parseESPNCoreStats sampleCategories 2025 = Except.ok (some stats) := ⟨_, rfl⟩
  obtain ⟨stats, hst⟩ := hrun
  have h := parseESPNCoreStats_fields _ 2025 stats hst
  obtain ⟨_, allStats, _, _, hlen, _⟩ := h
  refine ⟨rfl, ?_⟩
  rw [hst]
  simp only [Except.toOption, Option.getD_some, Option.map_some', hlen]

/-- C15 (claim as stated fails): two triples share the abbreviation `PTS`; the flattened
lookup maps `PTS` to the value of the later triple, not to the value 26 of the first.  And a
triple named `__proto__` is not stored under its name: the read of that key answers with
the prototype object, not with the triple's value 5. -/
theorem flattenCategories_shared_abbreviation :
    (match sharedAbbreviationCategories with
      | arr cats => (flattenCategories cats PlainObj.empty).toOption.map
          (fun allStats => ((allStats.get "avgPoints").toStr, (allStats.get "PTS").toStr,
            (allStats.get "points").toStr))
      | _ => none) = some ("26", "1900", "1900") ∧
    (flattenCategories
        [obj [("stats", arr [
          obj [("name", str "__proto__"), ("abbreviation", str "PR"), ("value", num 5)]])]]
        PlainObj.empty).toOption.map
      (fun allStats => ((allStats.get "__proto__").toStr, (allStats.get "PR").toStr,
        hasKey "__proto__" allStats.own)) = some ("[object Object]", "5", false) := by
  exact ⟨rfl, rfl⟩

/-- C15 (amended): for every categories list that is flattened, and every triple in any of
its categories, the flattened lookup maps the triple's name and the triple's abbreviation,
when that key is not `__proto__`, to that triple's value unless a later triple (in visiting
order) carries the same key as its name or abbreviation, in which case the later value is
kept; each key other than `__proto__` is mapped to the value of the last triple that
carries it. -/
theorem flattenCategories_last_wins (cats : List JVal) (allStats : PlainObj)
    (h : flattenCategories cats PlainObj.empty = Except.ok allStats) :
    ∀ (pre : List JVal) (t : JVal) (post : List JVal),
      allTriples cats = pre ++ t :: post →
      ((getOpt t "name").toStr ≠ "__proto__" →
        (∀ u ∈ post, (getOpt u "name").toStr ≠ (getOpt t "name").toStr ∧
          (getOpt u "abbreviation").toStr ≠ (getOpt t "name").toStr) →
        allStats.get (getOpt t "name").toStr = getOpt t "value") ∧
      ((getOpt t "abbreviation").toStr ≠ "__proto__" →
        (∀ u ∈ post, (getOpt u "name").toStr ≠ (getOpt t "abbreviation").toStr ∧
          (getOpt u "abbreviation").toStr ≠ (getOpt t "abbreviation").toStr) →
        allStats.get (getOpt t "abbreviation").toStr = getOpt t "value") := by
  intro pre t post hsplit
  have ht := flattenCategories_triples cats PlainObj.empty allStats h
  rw [hsplit] at ht
  exact ⟨fun hk hun =>
      flattenTriples_last _ hk pre t post PlainObj.empty allStats ht (Or.inl rfl) hun,
    fun hk hun =>
      flattenTriples_last _ hk pre t post PlainObj.empty allStats ht (Or.inr rfl) hun⟩

/-- C15 (amended) at the categories with a shared abbreviation: the last triple's name and
abbreviation both map to its value 1900. -/
theorem flattenCategories_last_wins_witness :
    ∃ allStats : PlainObj,
      (allStats.get "points").toStr = "1900" ∧ (allStats.get "PTS").toStr = "1900" := by
  have hrun : ∃ allStats : PlainObj,
      flattenCategories
        [obj [("stats", arr [
          obj [("name", str "avgPoints"), ("abbreviation", str "PTS"), ("value", num 26)],
          obj [("name", str "points"), ("abbreviation", str "PTS"), ("value", num 1900)]])]]
        PlainObj.empty = Except.ok allStats := ⟨_, rfl⟩
  obtain ⟨allStats, hall⟩ := hrun
  have h := flattenCategories_last_wins _ allStats hall
    [obj [("name", str "avgPoints"), ("abbreviation", str "PTS"), ("value", num 26)]]
    (obj [("name", str "points"), ("abbreviation", str "PTS"), ("value", num 1900)]) [] rfl
  refine ⟨allStats, ?_, ?_⟩
  · have h1 := h.1 (by decide) (by intro u hu; simp at hu)
    have e : (getOpt (obj [("name", str "points"), ("abbreviation", str "PTS"),
        ("value", num 1900)]) "name").toStr = "points" := rfl
    rw [e] at h1
    rw [h1]; rfl
  · have h2 := h.2 (by decide) (by intro u hu; simp at hu)
    have e : (getOpt (obj [("name", str "points"), ("abbreviation", str "PTS"),
        ("value", num 1900)]) "abbreviation").toStr = "PTS" := rfl
    rw [e] at h2
    rw [h2]; rfl

/-- C16 (claim as stated fails): both requests succeed and the statistics document has a
non-empty categories list, and still the result is null: the category `null` makes the
normalization raise, and the `catch` block returns null. -/
theorem fetchPlayerStatsByName_null_category :
    fetchPlayerStatsByName (Except.ok sampleSearch)
      (fun _ => Except.ok (statisticsDocument (arr [null]))) 2025 = (Except.ok none, 1) ∧
    (getOpt (getOpt (statisticsDocument (arr [null])) "splits") "categories").truthy = true ∧
    parseESPNCoreStats (arr [null]) 2025 = Except.error JsError.typeError :=
  ⟨rfl, rfl, rfl⟩

/-- C16 (amended): `fetchPlayerStatsByName` never raises.  It returns null without issuing
the statistics request when the identity search fails or returns no match; it returns null
when the statistics request fails, when the statistics document has no `splits.categories`,
when the categories list is empty, and when the normalization of the categories raises;
when both requests succeed and the categories are normalized, it returns the SeasonStats
with `espnPlayerId` set to the id of the first search match. -/
theorem fetchPlayerStatsByName_outcomes (search : Except JsError JVal)
    (statistics : JVal → Except JsError JVal) (year : Int) :
    (∃ (r : Option SeasonStats) (calls : Nat),
      fetchPlayerStatsByName search statistics year = (Except.ok r, calls)) ∧
    (∀ e : JsError, search = Except.error e →
      fetchPlayerStatsByName search statistics year = (Except.ok none, 0)) ∧
    (∀ sdata : JVal, search = Except.ok sdata →
      ((getOpt sdata "items").truthy = false ∨ getOpt sdata "items" = arr []) →
      fetchPlayerStatsByName search statistics year = (Except.ok none, 0)) ∧
    (∀ (sdata id : JVal) (first : JVal) (rest : List JVal),
      search = Except.ok sdata → getOpt sdata "items" = arr (first :: rest) →
      getProp first "id" = Except.ok id →
      (∀ e : JsError, statistics id = Except.error e →
        fetchPlayerStatsByName search statistics year = (Except.ok none, 1)) ∧
      (∀ statsData : JVal, statistics id = Except.ok statsData →
        ((getOpt (getOpt statsData "splits") "categories").truthy = false →
          fetchPlayerStatsByName search statistics year = (Except.ok none, 1)) ∧
        (getOpt (getOpt statsData "splits") "categories" = arr [] →
          fetchPlayerStatsByName search statistics year = (Except.ok none, 1)) ∧
        (∀ e : JsError,
          (getOpt (getOpt statsData "splits") "categories").truthy = true →
          parseESPNCoreStats (getOpt (getOpt statsData "splits") "categories") year =
            Except.error e →
          fetchPlayerStatsByName search statistics year = (Except.ok none, 1)) ∧
        (∀ stats : SeasonStats,
          (getOpt (getOpt statsData "splits") "categories").truthy = true →
          parseESPNCoreStats (getOpt (getOpt statsData "splits") "categories") year =
            Except.ok (some stats) →
          fetchPlayerStatsByName search statistics year =
            (Except.ok (some { stats with espnPlayerId := id }), 1)))) := by
  refine ⟨?_, ?_, ?_, ?_⟩
  · unfold fetchPlayerStatsByName
    cases hb : playerStatsBody search statistics year with
    | mk res calls =>
      cases res with
      | ok r => exact ⟨r, calls, rfl⟩
      | error e => exact ⟨none, calls, rfl⟩
  · intro e he
    simp [fetchPlayerStatsByName, playerStatsBody, he]
  · intro sdata hs hitems
    rcases hitems with hf | hempty
    · simp [fetchPlayerStatsByName, playerStatsBody, hs, hf]
    · have hc : (!(arr []).truthy || strictEqZero (getOpt (arr []) "length")) = true := rfl
      simp only [fetchPlayerStatsByName, playerStatsBody, hs, hempty, hc, if_true]
  · intro sdata id first rest hs hitems hid
    have hcond : (!(arr (first :: rest)).truthy ||
        strictEqZero (getOpt (arr (first :: rest)) "length")) = false := by
      simp only [truthy, getOpt, if_true, strictEqZero, List.length_cons, Bool.not_true,
        Bool.false_or, beq_eq_false_iff_ne, ne_eq]
      omega
    have hidx : idxOpt (arr (first :: rest)) 0 = first := rfl
    refine ⟨?_, ?_⟩
    · intro e he
      simp only [fetchPlayerStatsByName, playerStatsBody, hs, hitems, hcond, hidx, hid, he,
        Bool.false_eq_true, if_false]
    · intro statsData hst
      refine ⟨?_, ?_, ?_, ?_⟩
      · intro hf
        simp only [fetchPlayerStatsByName, playerStatsBody, hs, hitems, hcond, hidx, hid,
          hst, hf, Bool.false_eq_true, if_false]
      · intro hempty
        have hp : parseESPNCoreStats (arr []) year = Except.ok none := rfl
        have hte : (arr ([] : List JVal)).truthy = true := rfl
        simp only [fetchPlayerStatsByName, playerStatsBody, hs, hitems, hcond, hidx, hid,
          hst, hempty, hte, hp, Bool.false_eq_true, if_false, if_true]
      · intro e ht hp
        simp only [fetchPlayerStatsByName, playerStatsBody, hs, hitems, hcond, hidx, hid,
          hst, ht, hp, Bool.false_eq_true, if_false, if_true]
      · intro stats ht hp
        simp only [fetchPlayerStatsByName, playerStatsBody, hs, hitems, hcond, hidx, hid,
          hst, ht, hp, Bool.false_eq_true, if_false, if_true]

/-- C16 (amended) at the sample search and the sample categories: the result is the
SeasonStats of the categories (points 26.4, field-goal percentage 50.6) with `espnPlayerId`
3975, after one statistics request. -/
theorem fetchPlayerStatsByName_outcomes_witness :
    ∃ stats : SeasonStats,
      parseESPNCoreStats sampleCategories 2025 = Except.ok (some stats) ∧
      fetchPlayerStatsByName (Except.ok sampleSearch)
        (fun _ => Except.ok (statisticsDocument sampleCategories)) 2025 =
        (Except.ok (some { stats with espnPlayerId := str "3975" }), 1) ∧
      stats.points = "26.4" ∧ stats.fieldGoalPct = "50.6" ∧ stats.season = 2025 := by
  have hrun : ∃ stats : SeasonStats,
      parseESPNCoreStats sampleCategories 2025 = Except.ok (some stats) ∧
      stats.points = "26.4" ∧ stats.fieldGoalPct = "50.6" ∧ stats.season = 2025 :=
    ⟨_, rfl, rfl, rfl, rfl⟩
  obtain ⟨stats, hst, h1, h2, h3⟩ := hrun
  have h := (fetchPlayerStatsByName_outcomes (Except.ok sampleSearch)
    (fun _ => Except.ok (statisticsDocument sampleCategories)) 2025).2.2.2
    sampleSearch (str "3975") (obj [("id", str "3975"), ("displayName", str "Stephen Curry")])
    [obj [("id", str "11")]] rfl rfl rfl
  exact ⟨stats, hst, (h.2 (statisticsDocument sampleCategories) rfl).2.2.2 stats rfl hst,
    h1, h2, h3⟩

/-! ## Display formatters -/

theorem toString_natCast (n : Nat) : toString ((n : Nat) : Int) = toString n := rfl

theorem padStart2_two_digits (r : Nat) (hr : r < 60) :
    padStart2 (toString r) = String.mk [Nat.digitChar (r / 10), Nat.digitChar (r % 10)] := by
  interval_cases r <;> rfl

theorem roundHalfEven_near (n d : Nat) (hd : 0 < d) :
    2 * (roundHalfEven n d * d) ≤ 2 * n + d ∧ 2 * n ≤ 2 * (roundHalfEven n d * d) + d := by
  have hdm := Nat.div_add_mod n d
  have hlt := Nat.mod_lt n hd
  have hmul : (n / d + 1) * d = d * (n / d) + d := by ring
  have hmul2 : n / d * d = d * (n / d) := by ring
  unfold roundHalfEven
  split_ifs with h
  · rw [hmul]
    rcases h with h | ⟨h, _⟩ <;> omega
  · rw [hmul2]
    have h1 : ¬ d < 2 * (n % d) := fun hc => h (Or.inl hc)
    omega

theorem log2Floor_le (e : Nat) : ∀ fuel n : Nat, n < 2 ^ (e + 1) → log2Floor fuel n ≤ e := by
  induction e with
  | zero =>
    intro fuel n h
    cases fuel with
    | zero => simp [log2Floor]
    | succ fuel =>
      have : ¬ 2 ≤ n := by simpa using h
      simp [log2Floor, this]
  | succ e ih =>
    intro fuel n h
    cases fuel with
    | zero => simp [log2Floor]
    | succ fuel =>
      unfold log2Floor
      split_ifs
      · have hh : n / 2 < 2 ^ (e + 1) := by
          rw [pow_succ] at h
          omega
        have := ih fuel (n / 2) hh
        omega
      · omega

theorem doubleExponent_le (p q : Nat) (lq : Nat) (hp : p < 2 ^ 53)
    (hq : log2Floor q q = lq) (hlq : lq ≤ 1074) : doubleExponent p q ≤ - (lq : Int) := by
  have hlp : log2Floor p p ≤ 52 := log2Floor_le 52 p p hp
  unfold doubleExponent
  simp only [hq]
  apply max_le
  · split_ifs <;> omega
  · omega

theorem roundToDouble_small (p q : Nat) (hp : 0 < p) (hq : 0 < q)
    (hE : doubleExponent p q < 0) :
    roundToDouble false p q =
      Dbl.fin false (roundHalfEven (p * 2 ^ (-(doubleExponent p q)).toNat) q)
        (-(doubleExponent p q)).toNat := by
  unfold roundToDouble
  have h1 : ¬ (p = 0 ∨ q = 0) := by omega
  have h2 : ¬ (0 ≤ doubleExponent p q) := by omega
  have h3 : (doubleExponent p q).toNat = 0 := by omega
  simp only [h1, if_false, h2, h3, pow_zero, mul_one]

theorem floor_quotient (s q K mant : Nat) (hq : 0 < q)
    (h1 : 2 * (mant * q) ≤ 2 * (s * K) + q) (h2 : 2 * (s * K) ≤ 2 * (mant * q) + q)
    (hK : q < 2 * K) : mant / K = s / q := by
  have hKpos : 0 < K := by omega
  have hdm := Nat.div_add_mod s q
  have hlt := Nat.mod_lt s hq
  generalize s / q = a at hdm ⊢
  generalize s % q = r at hdm hlt
  subst hdm
  apply Nat.div_eq_of_lt_le
  · by_contra hcon
    have hx : mant + 1 ≤ a * K := by omega
    have e1 : q * (mant + 1) ≤ q * (a * K) := Nat.mul_le_mul_left q hx
    nlinarith
  · have e1 : r * K ≤ (q - 1) * K := Nat.mul_le_mul_right K (by omega)
    have e2 : (q - 1) * K + K = q * K := by
      have : q - 1 + 1 = q := by omega
      calc (q - 1) * K + K = (q - 1 + 1) * K := by ring
        _ = q * K := by rw [this]
    by_contra hcon
    have hx : (a + 1) * K ≤ mant := by omega
    have e3 : q * ((a + 1) * K) ≤ q * mant := Nat.mul_le_mul_left q hx
    nlinarith

theorem floor_minutes (s : Nat) (h0 : 0 < s) (hs : s < 2 ^ 53) :
    floorDbl (roundToDouble false s 60) = ((s / 60 : Nat) : Int) := by
  have hE := doubleExponent_le s 60 5 hs (by decide) (by decide)
  have hEneg : doubleExponent s 60 < 0 := by omega
  rw [roundToDouble_small s 60 h0 (by decide) hEneg]
  generalize hk : (-(doubleExponent s 60)).toNat = k
  have hkl : 5 ≤ k := by omega
  have hK : 2 ^ 5 ≤ 2 ^ k := Nat.pow_le_pow_right (by decide) hkl
  obtain ⟨h1, h2⟩ := roundHalfEven_near (s * 2 ^ k) 60 (by decide)
  simp only [floorDbl]
  rw [floor_quotient s 60 (2 ^ k) _ (by decide) h1 h2 (by omega)]

/-- C25 (claim as stated fails): numbers are doubles, so for a count of seconds beyond `2^53`
the quotient by 60 is rounded before `Math.floor`: for `s = 72057594037928096` the minutes
shown are 1200959900632135, while `floor(s / 60)` is 1200959900632134. -/
theorem formatDuration_rounded_quotient :
    formatDuration (some (JsNum.int 72057594037928096)) = "1200959900632135:56" ∧
    (72057594037928096 : Nat) / 60 = 1200959900632134 ∧
    roundInt 72057594037928096 = JsNum.int 72057594037928096 := by
  decide!

/-- C25 (amended): for every integer number of seconds `0 ≤ s < 2^53`, `formatDuration s` is
the decimal numeral of `floor(s / 60)`, a colon, and `s mod 60` written with exactly two
digits (90 gives `1:30`); for 0 and for an absent value it is `0:00`. -/
theorem formatDuration_minutes_seconds :
    (∀ s : Nat, s < 2 ^ 53 → formatDuration (some (JsNum.int s)) =
      toString (s / 60) ++ ":" ++
        String.mk [Nat.digitChar (s % 60 / 10), Nat.digitChar (s % 60 % 10)]) ∧
    (∀ s : Nat, (Nat.digitChar (s % 60 / 10)).isDigit = true ∧
      (Nat.digitChar (s % 60 % 10)).isDigit = true ∧
      digitsValue [Nat.digitChar (s % 60 / 10), Nat.digitChar (s % 60 % 10)] = s % 60) ∧
    formatDuration (some (JsNum.int 0)) = "0:00" ∧
    formatDuration none = "0:00" ∧
    formatDuration (some JsNum.nan) = "0:00" ∧
    formatDuration (some (JsNum.int 90)) = "1:30" ∧
    formatDuration (some (JsNum.int 3725)) = "62:05" := by
  refine ⟨?_, ?_, rfl, rfl, rfl, ?_, ?_⟩
  · intro s hs
    by_cases h0 : s = 0
    · subst h0; rfl
    · have hne : ((s : Nat) : Int) ≠ 0 := by exact_mod_cast h0
      have hneg : decide (((s : Nat) : Int) < 0) = false := by simp
      have hmod : Int.tmod ((s : Nat) : Int) 60 = ((s % 60 : Nat) : Int) := by
        rw [show (60 : Int) = ((60 : Nat) : Int) from rfl, ← Int.ofNat_tmod]
      have hmins : intText ((s / 60 : Nat) : Int) = toString (s / 60) := by
        rw [intText_small _ (by rw [Int.natAbs_ofNat]; omega)]
        rfl
      have hsecs : intText ((s % 60 : Nat) : Int) = toString (s % 60) := by
        rw [intText_small _ (by rw [Int.natAbs_ofNat]; omega)]
        rfl
      simp only [formatDuration, hne, if_false, hneg, Int.natAbs_ofNat, hmod,
        floor_minutes s (by omega) hs, hmins, hsecs]
      rw [padStart2_two_digits (s % 60) (Nat.mod_lt _ (by decide))]
  · intro s
    have h1 : s % 60 / 10 < 10 := by omega
    have h2 : s % 60 % 10 < 10 := by omega
    obtain ⟨a1, a2⟩ := digitChar_spec _ h1
    obtain ⟨b1, b2⟩ := digitChar_spec _ h2
    refine ⟨a1, b1, ?_⟩
    simp only [digitsValue, List.foldl, a2, b2]
    omega
  · decide!
  · decide!

/-- C27: with `d = floor((now - date) / 1000)` the whole seconds elapsed, `formatTimeAgo`
returns `Just now` for every `d < 60` (negative `d` included), `<floor(d/60)>m ago` with a
count from 1 to 59 for `60 ≤ d < 3600`, `<floor(d/3600)>h ago` with a count from 1 to 23 for
`3600 ≤ d < 86400`, `<floor(d/86400)>d ago` with a count from 1 to 6 for
`86400 ≤ d < 604800`, and the calendar date for `d ≥ 604800`. -/
theorem formatTimeAgo_tiers (date now : Int) (localeDate : String) :
    ((now - date) / 1000 < 60 →
      formatTimeAgo (JsNum.int date) now localeDate = "Just now") ∧
    (60 ≤ (now - date) / 1000 → (now - date) / 1000 < 3600 →
      formatTimeAgo (JsNum.int date) now localeDate =
        toString ((now - date) / 1000 / 60) ++ "m ago" ∧
      1 ≤ (now - date) / 1000 / 60 ∧ (now - date) / 1000 / 60 ≤ 59) ∧
    (3600 ≤ (now - date) / 1000 → (now - date) / 1000 < 86400 →
      formatTimeAgo (JsNum.int date) now localeDate =
        toString ((now - date) / 1000 / 3600) ++ "h ago" ∧
      1 ≤ (now - date) / 1000 / 3600 ∧ (now - date) / 1000 / 3600 ≤ 23) ∧
    (86400 ≤ (now - date) / 1000 → (now - date) / 1000 < 604800 →
      formatTimeAgo (JsNum.int date) now localeDate =
        toString ((now - date) / 1000 / 86400) ++ "d ago" ∧
      1 ≤ (now - date) / 1000 / 86400 ∧ (now - date) / 1000 / 86400 ≤ 6) ∧
    (604800 ≤ (now - date) / 1000 →
      formatTimeAgo (JsNum.int date) now localeDate = localeDate) ∧
    (∀ q : Int, q ≤ (now - date) / 1000 ↔ q * 1000 ≤ now - date) := by
  refine ⟨?_, ?_, ?_, ?_, ?_, ?_⟩
  · intro h
    simp [formatTimeAgo, h]
  · intro h1 h2
    refine ⟨?_, by omega, by omega⟩
    have : ¬ ((now - date) / 1000 < 60) := by omega
    simp [formatTimeAgo, this, h2]
  · intro h1 h2
    refine ⟨?_, by omega, by omega⟩
    have a : ¬ ((now - date) / 1000 < 60) := by omega
    have b : ¬ ((now - date) / 1000 < 3600) := by omega
    simp [formatTimeAgo, a, b, h2]
  · intro h1 h2
    refine ⟨?_, by omega, by omega⟩
    have a : ¬ ((now - date) / 1000 < 60) := by omega
    have b : ¬ ((now - date) / 1000 < 3600) := by omega
    have c : ¬ ((now - date) / 1000 < 86400) := by omega
    simp [formatTimeAgo, a, b, c, h2]
  · intro h1
    have a : ¬ ((now - date) / 1000 < 60) := by omega
    have b : ¬ ((now - date) / 1000 < 3600) := by omega
    have c : ¬ ((now - date) / 1000 < 86400) := by omega
    have d : ¬ ((now - date) / 1000 < 604800) := by omega
    simp [formatTimeAgo, a, b, c, d]
  · intro q
    constructor
    · intro h; omega
    · intro h; omega

/-! ## Scoreboard request path -/

theorem digitsValue_lt_pow (ds : List Char) (h : ∀ c ∈ ds, c.isDigit = true) :
    digitsValue ds < 10 ^ ds.length := by
  induction ds using List.reverseRecOn with
  | nil => simp [digitsValue]
  | append_singleton l c ih =>
    have hl : ∀ c ∈ l, c.isDigit = true := fun x hx => h x (by simp [hx])
    have hc : c.isDigit = true := h c (by simp)
    have := ih hl
    rw [digitsValue_append_single, List.length_append, List.length_singleton, pow_succ]
    have hcv : c.toNat - 48 < 10 := by
      have := (isDigit_iff c).1 hc
      omega
    omega

theorem toString_year_length (y : Nat) (h1 : 1000 ≤ y) (h2 : y ≤ 9999) :
    (toString y).data.length = 4 := by
  obtain ⟨_, hdig, hval⟩ := repr_digits y
  have hle : (toString y).data.length ≤ 4 :=
    Nat.repr_length y 4 (by decide) (by omega)
  have hlt := digitsValue_lt_pow _ hdig
  rw [hval] at hlt
  by_contra hne
  have h3 : (toString y).data.length ≤ 3 := by omega
  have : 10 ^ (toString y).data.length ≤ 10 ^ 3 := Nat.pow_le_pow_right (by decide) h3
  omega

theorem padStart2_month (m : Nat) (hm : m ≤ 11) :
    padStart2 (toString (m + 1)) =
      String.mk [Nat.digitChar ((m + 1) / 10), Nat.digitChar ((m + 1) % 10)] :=
  padStart2_two_digits (m + 1) (by omega)

/-- C24: for every local date whose year `y` has four digits (`1000 ≤ y ≤ 9999`), month index
`m` in 0..11 and day `d` in 1..31, `fetchScoreboard` requests the path `/scoreboard?dates=`
followed by the four digits of `y`, the two digits of the month number `m + 1` and the two
digits of `d` (eight digits in all) and returns what `parseESPNGames` makes of the response;
with no date it requests `/scoreboard`. -/
theorem fetchScoreboard_request_path (get : String → Except JsError JVal) :
    (∀ y m d : Nat, 1000 ≤ y → y ≤ 9999 → m ≤ 11 → 1 ≤ d → d ≤ 31 →
      ∃ ds : List Char,
        scoreboardUrl (some ⟨(y : Int), m, d⟩) = String.mk ("/scoreboard?dates=".data ++ ds) ∧
        ds.length = 8 ∧ (∀ c ∈ ds, c.isDigit = true) ∧
        digitsValue (ds.take 4) = y ∧
        digitsValue ((ds.drop 4).take 2) = m + 1 ∧
        digitsValue (ds.drop 6) = d ∧
        fetchScoreboard get (some ⟨(y : Int), m, d⟩) =
          get (String.mk ("/scoreboard?dates=".data ++ ds)) >>= parseESPNGames) ∧
    scoreboardUrl none = "/scoreboard" ∧
    fetchScoreboard get none = get "/scoreboard" >>= parseESPNGames ∧
    scoreboardUrl (some ⟨2024, 0, 5⟩) = "/scoreboard?dates=20240105" := by
  have hfetch : ∀ date, fetchScoreboard get date = get (scoreboardUrl date) >>= parseESPNGames := by
    intro date
    unfold fetchScoreboard
    cases get (scoreboardUrl date) >>= parseESPNGames <;> rfl
  refine ⟨?_, rfl, hfetch none, rfl⟩
  intro y m d hy1 hy2 hm hd1 hd2
  obtain ⟨_, hdig, hval⟩ := repr_digits y
  have hlen := toString_year_length y hy1 hy2
  have hurl : scoreboardUrl (some ⟨(y : Int), m, d⟩) =
      String.mk ("/scoreboard?dates=".data ++ ((toString y).data ++
        [Nat.digitChar ((m + 1) / 10), Nat.digitChar ((m + 1) % 10),
         Nat.digitChar (d / 10), Nat.digitChar (d % 10)])) := by
    simp only [scoreboardUrl, toString_natCast, padStart2_month m hm,
      padStart2_two_digits d (by omega)]
    apply String.ext
    simp [String.data_append]
  obtain ⟨a1, a2⟩ := digitChar_spec ((m + 1) / 10) (by omega)
  obtain ⟨b1, b2⟩ := digitChar_spec ((m + 1) % 10) (by omega)
  obtain ⟨c1, c2⟩ := digitChar_spec (d / 10) (by omega)
  obtain ⟨e1, e2⟩ := digitChar_spec (d % 10) (by omega)
  refine ⟨_, hurl, ?_, ?_, ?_, ?_, ?_, ?_⟩
  · simp [hlen]
  · intro c hc
    rcases List.mem_append.1 hc with h | h
    · exact hdig c h
    · simp only [List.mem_cons, List.mem_singleton, List.not_mem_nil, or_false] at h
      rcases h with rfl | rfl | rfl | rfl <;> assumption
  · rw [List.take_append_of_le_length (by omega), List.take_of_length_le (by omega)]
    exact hval
  · rw [List.drop_append_of_le_length (by omega), List.drop_of_length_le (by omega)]
    simp only [List.nil_append, List.take, digitsValue, List.foldl, a2, b2]
    omega
  · have : List.drop 6 ((toString y).data ++
        [Nat.digitChar ((m + 1) / 10), Nat.digitChar ((m + 1) % 10),
         Nat.digitChar (d / 10), Nat.digitChar (d % 10)]) =
        [Nat.digitChar (d / 10), Nat.digitChar (d % 10)] := by
      rw [List.drop_append_eq_append_drop, List.drop_of_length_le (by omega), hlen]
      rfl
    rw [this]
    simp only [digitsValue, List.foldl, c2, e2]
    omega
  · rw [hfetch, hurl]

theorem fetchScoreboard_request_path_witness :
    ∃ ds : List Char,
      scoreboardUrl (some ⟨((2024 : Nat) : Int), 11, 25⟩) =
        String.mk ("/scoreboard?dates=".data ++ ds) ∧ ds.length = 8 :=
  let ⟨ds, h1, h2, _⟩ :=
    (fetchScoreboard_request_path (fun _ => Except.ok JVal.null)).1 2024 11 25
      (by decide) (by decide) (by decide) (by decide) (by decide)
  ⟨ds, h1, h2⟩

/-! ## Propagate policy -/

theorem bind_error_left {α β : Type} (e : JsError) (f : α → Except JsError β) :
    ((Except.error e : Except JsError α) >>= f) = Except.error e := rfl

theorem bind_ok_left {α β : Type} (a : α) (f : α → Except JsError β) :
    ((Except.ok a : Except JsError α) >>= f) = f a := rfl

/-- C20: propagate policy.  When the upstream call of `fetchScoreboard`, `fetchNews`,
`fetchTeams`, `searchPlayers`, `fetchPlayer` or `fetchNBAHighlights` (not served from the
cache) fails with an error `e`, or the call succeeds and the normalization of its payload
raises `e`, the operation fails with that same error `e`; the result is then neither a null
nor an empty collection. -/
theorem fetchers_propagate_failure (e : JsError) :
    (∀ get date, get (scoreboardUrl date) = Except.error e →
      fetchScoreboard get date = Except.error e) ∧
    (∀ get date body, get (scoreboardUrl date) = Except.ok body →
      parseESPNGames body = Except.error e → fetchScoreboard get date = Except.error e) ∧
    (∀ get random, get "/news" = Except.error e → fetchNews get random = Except.error e) ∧
    (∀ get random body, get "/news" = Except.ok body →
      parseESPNNews random body = Except.error e → fetchNews get random = Except.error e) ∧
    (∀ get, get "/teams" = Except.error e → fetchTeams get = Except.error e) ∧
    (∀ get body, get "/teams" = Except.ok body →
      parseESPNTeams body = Except.error e → fetchTeams get = Except.error e) ∧
    (∀ get query page perPage, get query page perPage = Except.error e →
      searchPlayers get query page perPage = Except.error e) ∧
    (∀ get query page perPage body, get query page perPage = Except.ok body →
      parsePlayerSearch body = Except.error e →
      searchPlayers get query page perPage = Except.error e) ∧
    (∀ get playerId, get playerId = Except.error e → fetchPlayer get playerId = Except.error e) ∧
    (∀ get playerId body, get playerId = Except.ok body →
      (getProp body "data" >>= parsePlayer) = Except.error e →
      fetchPlayer get playerId = Except.error e) ∧
    (∀ up pageToken forceRefresh now nowWrite w,
      cachedPage pageToken forceRefresh now w = none →
      up.playlistItems pageToken = Except.error e →
      (fetchNBAHighlights up pageToken forceRefresh now nowWrite w).1 = Except.error e) ∧
    (∀ up pageToken forceRefresh now nowWrite w rdata,
      cachedPage pageToken forceRefresh now w = none →
      up.playlistItems pageToken = Except.ok rdata →
      (getProp rdata "items" >>= videoIdList) = Except.error e →
      (fetchNBAHighlights up pageToken forceRefresh now nowWrite w).1 = Except.error e) ∧
    (∀ up pageToken forceRefresh now nowWrite w rdata ids,
      cachedPage pageToken forceRefresh now w = none →
      up.playlistItems pageToken = Except.ok rdata →
      (getProp rdata "items" >>= videoIdList) = Except.ok ids →
      up.videos ids = Except.error e →
      (fetchNBAHighlights up pageToken forceRefresh now nowWrite w).1 = Except.error e) ∧
    (∀ up pageToken forceRefresh now nowWrite w rdata ids ddata,
      cachedPage pageToken forceRefresh now w = none →
      up.playlistItems pageToken = Except.ok rdata →
      (getProp rdata "items" >>= videoIdList) = Except.ok ids →
      up.videos ids = Except.ok ddata →
      buildPage rdata ddata = Except.error e →
      (fetchNBAHighlights up pageToken forceRefresh now nowWrite w).1 = Except.error e) ∧
    fetchScoreboard (fun _ => Except.error (JsError.upstream "timeout")) none =
      Except.error (JsError.upstream "timeout") ∧
    fetchTeams (fun _ => Except.ok JVal.null) = Except.error JsError.typeError ∧
    fetchPlayer (fun _ => Except.ok (obj [])) (num 7) = Except.error JsError.typeError ∧
    (fetchNBAHighlights failingUpstream undefined false 0 0 emptyWorld).1 =
      Except.error (JsError.upstream "timeout") := by
  refine ⟨?_, ?_, ?_, ?_, ?_, ?_, ?_, ?_, ?_, ?_, ?_, ?_, ?_, ?_, rfl, rfl, rfl, rfl⟩
  · intro get date h
    simp only [fetchScoreboard, h, bind_error_left]
  · intro get date body h hn
    simp only [fetchScoreboard, h, bind_ok_left, hn]
  · intro get random h
    simp only [fetchNews, h, bind_error_left]
  · intro get random body h hn
    simp only [fetchNews, h, bind_ok_left, hn]
  · intro get h
    simp only [fetchTeams, h, bind_error_left]
  · intro get body h hn
    simp only [fetchTeams, h, bind_ok_left, hn]
  · intro get query page perPage h
    simp only [searchPlayers, h, bind_error_left]
  · intro get query page perPage body h hn
    simp only [searchPlayers, h, bind_ok_left, hn]
  · intro get playerId h
    simp only [fetchPlayer, h, bind_error_left]
  · intro get playerId body h hn
    simp only [fetchPlayer, h, bind_ok_left, hn]
  · intro up pageToken forceRefresh now nowWrite w hmiss h
    simp only [fetchNBAHighlights, hmiss, h]
  · intro up pageToken forceRefresh now nowWrite w rdata hmiss h1 h2
    simp only [fetchNBAHighlights, hmiss, h1, h2]
  · intro up pageToken forceRefresh now nowWrite w rdata ids hmiss h1 h2 h3
    simp only [fetchNBAHighlights, hmiss, h1, h2, h3]
  · intro up pageToken forceRefresh now nowWrite w rdata ids ddata hmiss h1 h2 h3 h4
    simp only [fetchNBAHighlights, hmiss, h1, h2, h3, h4]

/-! ## News articles -/

theorem shortestDigits_nonempty (m k : Nat) :
    ∀ fuel kk : Nat, (shortestDigits m k fuel kk).1.data ≠ [] := by
  intro fuel
  induction fuel with
  | zero =>
    intro kk
    exact (repr_digits m).1
  | succ fuel ih =>
    intro kk
    unfold shortestDigits
    simp only []
    split_ifs
    · show "1".data ≠ []
      decide
    · exact (repr_digits _).1
    · exact (repr_digits _).1
    · exact ih (kk + 1)

theorem string_append_nonempty (a b : String) (h : b.data ≠ []) : (a ++ b).data ≠ [] := by
  rw [String.data_append]
  intro hc
  exact h (List.append_eq_nil.1 hc).2

theorem exponentText_nonempty (ds : List Char) (es : String) (hds : ds ≠ [])
    (hes : es.data ≠ []) :
    (match ds with
      | [d] => String.mk [d] ++ "e" ++ es
      | d :: rest => String.mk (d :: '.' :: rest) ++ "e" ++ es
      | [] => "0").data ≠ [] := by
  cases ds with
  | nil => exact absurd rfl hds
  | cons d rest =>
    cases rest with
    | nil => exact string_append_nonempty _ _ hes
    | cons d2 rest2 => exact string_append_nonempty _ _ hes

theorem magnitudeToString_nonempty (m k : Nat) : (magnitudeToString m k).data ≠ [] := by
  have hds := shortestDigits_nonempty m k 17 1
  unfold magnitudeToString
  simp only []
  by_cases h1 : ((shortestDigits m k 17 1).1.data.length : Int) ≤ (shortestDigits m k 17 1).2 ∧
      (shortestDigits m k 17 1).2 ≤ 21
  · rw [if_pos h1]
    intro hc
    exact hds (List.append_eq_nil.1 hc).1
  · rw [if_neg h1]
    by_cases h2 : 0 < (shortestDigits m k 17 1).2 ∧ (shortestDigits m k 17 1).2 ≤ 21
    · rw [if_pos h2]
      intro hc
      have := (List.append_eq_nil.1 hc).2
      simp at this
    · rw [if_neg h2]
      by_cases h3 : -6 < (shortestDigits m k 17 1).2 ∧ (shortestDigits m k 17 1).2 ≤ 0
      · rw [if_pos h3]
        simp
      · rw [if_neg h3]
        exact exponentText_nonempty _ _ hds (string_append_nonempty _ _ (repr_digits _).1)

theorem numberToString_nonempty (x : Dbl) : numberToString x ≠ "" := by
  have key : (numberToString x).data ≠ [] := by
    cases x with
    | nan => decide
    | inf neg => cases neg <;> decide
    | fin neg m k =>
      simp only [numberToString]
      split_ifs
      · decide
      · exact string_append_nonempty _ _ (magnitudeToString_nonempty m k)
      · exact magnitudeToString_nonempty m k
  intro h
  rw [h] at key
  exact key rfl

theorem parseArticle_id (r : Dbl) (article : JVal) (a : NewsArticle)
    (h : parseArticle r article = Except.ok a) : ArticleId article a := by
  unfold parseArticle at h
  cases hd : getProp article "dataSourceIdentifier" with
  | error e => rw [hd] at h; simp [bind, Except.bind] at h
  | ok v =>
    rw [hd] at h
    simp only [bind, Except.bind, pure, Except.pure, Except.ok.injEq] at h
    obtain ⟨hv, _⟩ := getProp_ok_getOpt _ _ _ hd
    subst h
    unfold ArticleId
    rw [hv]
    by_cases ht : v.truthy = true
    · refine ⟨?_, ?_, ?_⟩
      · simp only [JVal.or, ht, if_true]
      · intro _
        simp only [JVal.or, ht, if_true]
      · intro hf
        rw [ht] at hf
        cases hf
    · have hf : v.truthy = false := by simpa using ht
      have hne := numberToString_nonempty r
      have hor : v.or (str (numberToString r)) = str (numberToString r) := by
        simp only [JVal.or, hf, Bool.false_eq_true, if_false]
      refine ⟨?_, ?_, ?_⟩
      · show (v.or (str (numberToString r))).truthy = true
        rw [hor]
        simp only [truthy, bne_iff_ne, ne_eq]
        exact hne
      · intro hc
        rw [hf] at hc
        cases hc
      · intro _
        exact ⟨r, by simp only [JVal.or, hf, Bool.false_eq_true, if_false], hne⟩

theorem parseArticles_ids (random : Nat → Dbl) :
    ∀ (as : List JVal) (i : Nat) (out : List NewsArticle),
      parseArticles random as i = Except.ok out → List.Forall₂ ArticleId as out := by
  intro as
  induction as with
  | nil =>
    intro i out h
    simp only [parseArticles, pure, Except.pure, Except.ok.injEq] at h
    subst h
    exact List.Forall₂.nil
  | cons article rest ih =>
    intro i out h
    unfold parseArticles at h
    cases ha : parseArticle (random i) article with
    | error e => rw [ha] at h; simp [bind, Except.bind] at h
    | ok a =>
      cases hr : parseArticles random rest (i + 1) with
      | error e => rw [ha, hr] at h; simp [bind, Except.bind] at h
      | ok as2 =>
        rw [ha, hr] at h
        simp only [bind, Except.bind, pure, Except.pure, Except.ok.injEq] at h
        subst h
        exact List.Forall₂.cons (parseArticle_id _ _ _ ha) (ih _ _ hr)

/-- C21: every NewsArticle produced by `parseESPNNews` has a non-empty id.  The output
follows the articles one for one; an article's id is the upstream `dataSourceIdentifier`
when that is present and non-empty (truthy), and otherwise the text of the number drawn
from `Math.random()`, which is never the empty string; a feed (other than
`undefined`/`null`) whose `articles` is absent or otherwise falsy yields the empty
sequence. -/
theorem parseESPNNews_ids_nonempty (random : Nat → Dbl) (data : JVal) :
    (∀ articles, parseESPNNews random data = Except.ok articles →
      ∀ a ∈ articles, a.id.truthy = true) ∧
    (∀ as articles, getOpt data "articles" = arr as →
      parseESPNNews random data = Except.ok articles →
      List.Forall₂ ArticleId as articles) ∧
    (data.isNullish = false → (getOpt data "articles").truthy = false →
      parseESPNNews random data = Except.ok []) ∧
    (∀ r : Dbl, (str (numberToString r)).truthy = true) ∧
    (parseESPNNews (fun _ => Dbl.fin false 1 1) sampleNewsFeed).map
        (fun l => l.map (fun a => a.id.toStr)) = Except.ok ["a1b2", "0.5"] ∧
    parseESPNNews random (obj [("header", str "NBA News")]) = Except.ok [] := by
  have hmain : ∀ articles, parseESPNNews random data = Except.ok articles →
      (getOpt data "articles").truthy = false ∧ articles = [] ∨
      ∃ as, getOpt data "articles" = arr as ∧ parseArticles random as 0 = Except.ok articles := by
    intro articles h
    unfold parseESPNNews at h
    cases hd : getProp data "articles" with
    | error e => rw [hd] at h; simp [bind, Except.bind] at h
    | ok v =>
      rw [hd] at h
      obtain ⟨hv, _⟩ := getProp_ok_getOpt _ _ _ hd
      rw [hv]
      simp only [bind, Except.bind] at h
      by_cases ht : v.truthy = true
      · rw [if_pos ht] at h
        cases v with
        | arr as => exact Or.inr ⟨as, rfl, h⟩
        | _ => simp [throw, throwThe, MonadExceptOf.throw] at h
      · have hf : v.truthy = false := by simpa using ht
        rw [hf] at h
        simp only [Bool.false_eq_true, if_false, pure, Except.pure, Except.ok.injEq] at h
        exact Or.inl ⟨hf, h.symm⟩
  refine ⟨?_, ?_, ?_, ?_, rfl, rfl⟩
  · intro articles h a ha
    rcases hmain articles h with ⟨_, rfl⟩ | ⟨as, _, hp⟩
    · cases ha
    · obtain ⟨x, _, hR⟩ := forall2_mem_right _ _ _ (parseArticles_ids random as 0 _ hp) a ha
      exact hR.1
  · intro as articles has h
    rcases hmain articles h with ⟨hf, _⟩ | ⟨as2, has2, hp⟩
    · rw [has] at hf
      simp [truthy] at hf
    · rw [has] at has2
      injection has2 with hEq
      subst hEq
      exact parseArticles_ids random as 0 _ hp
  · intro hn hf
    unfold parseESPNNews
    rw [getProp_eq_getOpt _ _ hn]
    simp only [bind, Except.bind, hf, Bool.false_eq_true, if_false]
    rfl
  · intro r
    simp only [truthy, bne_iff_ne, ne_eq]
    exact numberToString_nonempty r

/-! ## Players -/

theorem or_orDefault (v d : JVal) : OrDefault v d (v.or d) := by
  unfold OrDefault JVal.or
  constructor
  · intro h
    rw [if_pos h]
  · intro h
    rw [h]
    rfl

/-- C22: for every raw player record (any value other than `undefined`/`null`),
`parsePlayer` returns a player whose position is the upstream position when that is present
and non-empty (truthy) and `N/A` otherwise, whose fullName is the text of `first_name`, a
space and the text of `last_name`, whose optional bio and draft fields are the upstream
value when that is truthy and `null` when it is absent or otherwise falsy, and whose team
is `null` exactly when the upstream `team` is absent or otherwise falsy, and otherwise
carries the upstream team's id, full_name, abbreviation, city, conference and division. -/
theorem parsePlayer_fields (player : JVal) (hp : player.isNullish = false) :
    ∃ p : Player, parsePlayer player = Except.ok p ∧
      p.id = getOpt player "id" ∧
      p.firstName = getOpt player "first_name" ∧
      p.lastName = getOpt player "last_name" ∧
      p.fullName =
        (getOpt player "first_name").toStr ++ " " ++ (getOpt player "last_name").toStr ∧
      (∀ a b : String, getOpt player "first_name" = str a → getOpt player "last_name" = str b →
        p.fullName = a ++ " " ++ b) ∧
      OrDefault (getOpt player "position") (str "N/A") p.position ∧
      OrDefault (getOpt player "height") null p.height ∧
      OrDefault (getOpt player "weight") null p.weight ∧
      OrDefault (getOpt player "jersey_number") null p.jerseyNumber ∧
      OrDefault (getOpt player "college") null p.college ∧
      OrDefault (getOpt player "country") null p.country ∧
      OrDefault (getOpt player "draft_year") null p.draftYear ∧
      OrDefault (getOpt player "draft_round") null p.draftRound ∧
      OrDefault (getOpt player "draft_number") null p.draftNumber ∧
      (p.team = none ↔ (getOpt player "team").truthy = false) ∧
      (∀ t : PlayerTeam, p.team = some t →
        t.id = getOpt (getOpt player "team") "id" ∧
        t.name = getOpt (getOpt player "team") "full_name" ∧
        t.abbreviation = getOpt (getOpt player "team") "abbreviation" ∧
        t.city = getOpt (getOpt player "team") "city" ∧
        t.conference = getOpt (getOpt player "team") "conference" ∧
        t.division = getOpt (getOpt player "team") "division") ∧
      (∀ v : JVal, v.isNullish = true → v.truthy = false) ∧
      (∀ s : String, s ≠ "" → (str s).truthy = true) := by
  refine ⟨_, by
    unfold parsePlayer
    rw [getProp_eq_getOpt _ _ hp]
    rfl, rfl, rfl, rfl, rfl, ?_, or_orDefault _ _, or_orDefault _ _, or_orDefault _ _,
    or_orDefault _ _, or_orDefault _ _, or_orDefault _ _, or_orDefault _ _, or_orDefault _ _,
    or_orDefault _ _, ?_, ?_, truthy_false_of_nullish, ?_⟩
  · intro a b ha hb
    simp only [ha, hb, toStr]
  · by_cases ht : (getOpt player "team").truthy = true
    · simp [ht]
    · have hf : (getOpt player "team").truthy = false := by simpa using ht
      simp [hf]
  · intro t ht
    by_cases htr : (getOpt player "team").truthy = true
    · simp only [htr, if_true, Option.some.injEq] at ht
      subst ht
      exact ⟨rfl, rfl, rfl, rfl, rfl, rfl⟩
    · have hf : (getOpt player "team").truthy = false := by simpa using htr
      simp [hf] at ht
  · intro s hs
    simp only [truthy, bne_iff_ne, ne_eq]
    exact hs

theorem parsePlayer_fields_witness :
    samplePlayer.isNullish = false ∧ freeAgentPlayer.isNullish = false ∧
    (∃ p : Player, parsePlayer samplePlayer = Except.ok p ∧
      p.fullName = "Stephen Curry" ∧ p.position = str "G" ∧ p.college = null ∧
      p.team.map (fun t => t.abbreviation) = some (str "GSW")) ∧
    (∃ p : Player, parsePlayer freeAgentPlayer = Except.ok p ∧
      p.position = str "N/A" ∧ p.team = none) := by
  refine ⟨rfl, rfl, ?_, ?_⟩
  · obtain ⟨p, hp, _⟩ := parsePlayer_fields samplePlayer rfl
    refine ⟨p, hp, ?_⟩
    have hq : parsePlayer samplePlayer = Except.ok p := hp
    have hrun : ∃ q, parsePlayer samplePlayer = Except.ok q ∧ q.fullName = "Stephen Curry" ∧
        q.position = str "G" ∧ q.college = null ∧
        q.team.map (fun t => t.abbreviation) = some (str "GSW") := ⟨_, rfl, rfl, rfl, rfl, rfl⟩
    obtain ⟨q, hq2, hrest⟩ := hrun
    rw [hq] at hq2
    injection hq2 with hEq
    subst hEq
    exact hrest
  · obtain ⟨p, hp, _⟩ := parsePlayer_fields freeAgentPlayer rfl
    refine ⟨p, hp, ?_⟩
    have hrun : ∃ q, parsePlayer freeAgentPlayer = Except.ok q ∧
        q.position = str "N/A" ∧ q.team = none := ⟨_, rfl, rfl, rfl⟩
    obtain ⟨q, hq2, hrest⟩ := hrun
    rw [hp] at hq2
    injection hq2 with hEq
    subst hEq
    exact hrest

/-! ## Games screen -/

/-- C26: if the single-day call number `i` of `loadGames` (0 is today, 1 to 3 the past
days, 4 to 7 the coming days) fails and the calls before it succeed, the gather aborts:
exactly `i + 1` calls are issued (no later day is fetched), the message of the error is
recorded, and no list receives a partial result.  The upcoming list is left as it was; the
recent list is left as it was unless all three past days were fetched, in which case it is
the sorted list of all their finished games; the today list is left as it was when the
first call fails and is otherwise the full result of the first call. -/
theorem loadGames_aborts_on_failure (fetchDay : Nat → Except JsError (List Game))
    (sortRecent : List Game → List Game) (showLoader : Bool) (s : GamesState)
    (i : Nat) (e : JsError) (hi : i < 8)
    (hok : ∀ j, j < i → ∃ gs, fetchDay j = Except.ok gs)
    (hfail : fetchDay i = Except.error e) :
    (loadGames fetchDay sortRecent showLoader s).2 = i + 1 ∧
    (loadGames fetchDay sortRecent showLoader s).1.error = some e.message ∧
    (loadGames fetchDay sortRecent showLoader s).1.loading = false ∧
    (loadGames fetchDay sortRecent showLoader s).1.refreshing = false ∧
    (loadGames fetchDay sortRecent showLoader s).1.upcomingGames = s.upcomingGames ∧
    (i = 0 → (loadGames fetchDay sortRecent showLoader s).1.todayGames = s.todayGames) ∧
    (0 < i →
      fetchDay 0 = Except.ok (loadGames fetchDay sortRecent showLoader s).1.todayGames) ∧
    (i ≤ 3 → (loadGames fetchDay sortRecent showLoader s).1.recentGames = s.recentGames) ∧
    (3 < i → ∃ g1 g2 g3 : List Game,
      fetchDay 1 = Except.ok g1 ∧ fetchDay 2 = Except.ok g2 ∧ fetchDay 3 = Except.ok g3 ∧
      (loadGames fetchDay sortRecent showLoader s).1.recentGames =
        sortRecent (g1.filter (fun g => g.status == "final") ++
          (g2.filter (fun g => g.status == "final") ++
            g3.filter (fun g => g.status == "final")))) := by
  interval_cases i
  · -- the call 0 fails
    simp [loadGames, gatherDays, hfail]
  · -- the call 1 fails
    obtain ⟨g0, h0⟩ := hok 0 (by omega)
    simp [loadGames, gatherDays, h0, hfail]
  · -- the call 2 fails
    obtain ⟨g0, h0⟩ := hok 0 (by omega)
    obtain ⟨g1, h1⟩ := hok 1 (by omega)
    simp [loadGames, gatherDays, h0, h1, hfail]
  · -- the call 3 fails
    obtain ⟨g0, h0⟩ := hok 0 (by omega)
    obtain ⟨g1, h1⟩ := hok 1 (by omega)
    obtain ⟨g2, h2⟩ := hok 2 (by omega)
    simp [loadGames, gatherDays, h0, h1, h2, hfail]
  · -- the call 4 fails
    obtain ⟨g0, h0⟩ := hok 0 (by omega)
    obtain ⟨g1, h1⟩ := hok 1 (by omega)
    obtain ⟨g2, h2⟩ := hok 2 (by omega)
    obtain ⟨g3, h3⟩ := hok 3 (by omega)
    simp [loadGames, gatherDays, h0, h1, h2, h3, hfail]
  · -- the call 5 fails
    obtain ⟨g0, h0⟩ := hok 0 (by omega)
    obtain ⟨g1, h1⟩ := hok 1 (by omega)
    obtain ⟨g2, h2⟩ := hok 2 (by omega)
    obtain ⟨g3, h3⟩ := hok 3 (by omega)
    obtain ⟨g4, h4⟩ := hok 4 (by omega)
    simp [loadGames, gatherDays, h0, h1, h2, h3, h4, hfail]
  · -- the call 6 fails
    obtain ⟨g0, h0⟩ := hok 0 (by omega)
    obtain ⟨g1, h1⟩ := hok 1 (by omega)
    obtain ⟨g2, h2⟩ := hok 2 (by omega)
    obtain ⟨g3, h3⟩ := hok 3 (by omega)
    obtain ⟨g4, h4⟩ := hok 4 (by omega)
    obtain ⟨g5, h5⟩ := hok 5 (by omega)
    simp [loadGames, gatherDays, h0, h1, h2, h3, h4, h5, hfail]
  · -- the call 7 fails
    obtain ⟨g0, h0⟩ := hok 0 (by omega)
    obtain ⟨g1, h1⟩ := hok 1 (by omega)
    obtain ⟨g2, h2⟩ := hok 2 (by omega)
    obtain ⟨g3, h3⟩ := hok 3 (by omega)
    obtain ⟨g4, h4⟩ := hok 4 (by omega)
    obtain ⟨g5, h5⟩ := hok 5 (by omega)
    obtain ⟨g6, h6⟩ := hok 6 (by omega)
    simp [loadGames, gatherDays, h0, h1, h2, h3, h4, h5, h6, hfail]

theorem loadGames_aborts_on_failure_witness :
    (loadGames failingThirdCall id true initialGamesState).2 = 3 ∧
    (loadGames failingThirdCall id true initialGamesState).1.error = some "Network Error" :=
  have h := loadGames_aborts_on_failure failingThirdCall id true initialGamesState 2
    (JsError.upstream "Network Error") (by decide)
    (fun j hj => ⟨[], by
      have : j = 0 ∨ j = 1 := by omega
      rcases this with rfl | rfl <;> rfl⟩) rfl
  ⟨h.1, h.2.1⟩

/-! ## View counts -/

theorem tenths_near (c p mant K t : Nat)
    (h1 : 2 * (mant * (20 * c)) ≤ 2 * (p * K) + 20 * c)
    (h2 : 2 * (p * K) ≤ 2 * (mant * (20 * c)) + 20 * c)
    (h3 : 2 * K * t ≤ 20 * mant + K)
    (h4 : 20 * mant + K < 2 * K * (t + 1))
    (hK : 10 * c < K) :
    2 * c * t ≤ p + c ∧ p ≤ 2 * c * t + c := by
  constructor
  · by_contra hcon
    have hx : p + c + 1 ≤ 2 * c * t := by omega
    have e1 : K * (p + c + 1) ≤ K * (2 * c * t) := Nat.mul_le_mul_left K hx
    have e2 : c * (2 * K * t) ≤ c * (20 * mant + K) := Nat.mul_le_mul_left c h3
    nlinarith
  · by_contra hcon
    have hx : 2 * c * t + c + 1 ≤ p := by omega
    have e1 : K * (2 * c * t + c + 1) ≤ K * p := Nat.mul_le_mul_left K hx
    have e2 : c * (20 * mant + K) < c * (2 * K * (t + 1)) ∨ c = 0 := by
      rcases Nat.eq_zero_or_pos c with h | h
      · exact Or.inr h
      · exact Or.inl (Nat.mul_lt_mul_of_pos_left h4 h)
    rcases e2 with e2 | e2
    · nlinarith
    · subst e2
      nlinarith

theorem toFixed1_quotient (p q c lq : Nat) (hq : q = 20 * c) (hc : 0 < c) (hp0 : 0 < p)
    (hp : p < 2 ^ 53) (hlq : log2Floor q q = lq) (hlq1 : 0 < lq) (hlq2 : lq ≤ 1074)
    (hK : 10 * c < 2 ^ lq) :
    ∃ t : Nat, 2 * c * t ≤ p + c ∧ p ≤ 2 * c * t + c ∧
      toFixed1 (roundToDouble false p q) = toString (t / 10) ++ "." ++ toString (t % 10) := by
  have hq0 : 0 < q := by omega
  have hE := doubleExponent_le p q lq hp hlq hlq2
  have hEneg : doubleExponent p q < 0 := by omega
  rw [roundToDouble_small p q hp0 hq0 hEneg]
  generalize hk : (-(doubleExponent p q)).toNat = k
  have hkl : lq ≤ k := by omega
  have hKk : 10 * c < 2 ^ k := lt_of_lt_of_le hK (Nat.pow_le_pow_right (by decide) hkl)
  obtain ⟨h1, h2⟩ := roundHalfEven_near (p * 2 ^ k) q hq0
  generalize hm : roundHalfEven (p * 2 ^ k) q = mant at h1 h2
  generalize hKdef : 2 ^ k = K at h1 h2 hKk
  have hKpos : 0 < 2 * K := by omega
  have h3 : 2 * K * ((20 * mant + K) / (2 * K)) ≤ 20 * mant + K := Nat.mul_div_le _ _
  have h4 : 20 * mant + K < 2 * K * ((20 * mant + K) / (2 * K) + 1) :=
    Nat.lt_mul_div_succ _ hKpos
  rw [hq] at h1 h2
  obtain ⟨t1, t2⟩ := tenths_near c p mant K _ h1 h2 h3 h4 hKk
  refine ⟨(20 * mant + K) / (2 * K), t1, t2, ?_⟩
  have hbig : ¬ (10 ^ 21 * K ≤ mant) := by
    intro hcon
    have e1 : 10 ^ 21 * K * (20 * c) ≤ mant * (20 * c) := Nat.mul_le_mul_right _ hcon
    have e2 : p * K < 2 ^ 53 * K := Nat.mul_lt_mul_of_pos_right hp (by omega)
    have e3 : (2 : Nat) ^ 53 ≤ 10 ^ 21 := by decide
    have e4 : 2 ^ 53 * K ≤ 10 ^ 21 * K := Nat.mul_le_mul_right _ e3
    have e5 : 10 ^ 21 * K * 1 ≤ 10 ^ 21 * K * (20 * c) := Nat.mul_le_mul_left _ (by omega)
    have e6 : 10 ^ 21 * K * (20 * c) = 10 ^ 21 * K * 1 * 20 * c := by ring
    have e7 : 1 * K ≤ 10 ^ 21 * K := Nat.mul_le_mul_right _ (by decide)
    nlinarith
  simp only [toFixed1, hKdef, hbig, if_false, Bool.false_eq_true, false_and]

theorem formatViewCount_of_parseInt (count : JVal) (n : Nat) (hn : n ≤ 2 ^ 53)
    (h : parseInt count = JsNum.int n) :
    formatViewCount count =
      if 1000000 ≤ n then toFixed1 (roundToDouble false n 1000000) ++ "M views"
      else if 1000 ≤ n then toFixed1 (roundToDouble false n 1000) ++ "K views"
      else toString n ++ " views" := by
  have hneg : decide (((n : Nat) : Int) < 0) = false := by simp
  have htext : intText ((n : Nat) : Int) = toString n := by
    rw [intText_small _ (by rw [Int.natAbs_ofNat]; exact hn)]
    rfl
  unfold formatViewCount
  rw [h]
  simp only [hneg, Int.natAbs_ofNat, htext]
  norm_cast

/-- C17, as the code has it: a string that starts with digits is read up to its first
non-digit, so the non-numeric inputs `12abc` and `1.5K` give `12 views` and `1 views`, not
`0 views`. -/
theorem formatViewCount_digit_prefix :
    formatViewCount (str "12abc") = "12 views" ∧ formatViewCount (str "1.5K") = "1 views" :=
  ⟨rfl, rfl⟩

/-- C17, amended: for every integer view count `0 ≤ n < 2^53`, given as a number or as its
decimal numeral, `formatViewCount` returns `<n> views` when `n < 1000`; a one-decimal
number `t/10` within `0.05` of `n / 1000` followed by `K views` when
`1000 ≤ n < 1000000`; and a one-decimal number `t/10` within `0.05` of `n / 1000000`
followed by `M views` when `n ≥ 1000000`.  An input that `parseInt` reads as `NaN`
(absent, empty, or a string that does not start with an optional sign and a digit after
leading white space) gives `0 views`. -/
theorem formatViewCount_tiers :
    (∀ (count : JVal) (n : Nat), count = num n ∨ count = str (toString n) → n < 1000 →
      formatViewCount count = toString n ++ " views") ∧
    (∀ (count : JVal) (n : Nat), count = num n ∨ count = str (toString n) →
      1000 ≤ n → n < 1000000 →
      ∃ t : Nat, 100 * t ≤ n + 50 ∧ n ≤ 100 * t + 50 ∧
        formatViewCount count = toString (t / 10) ++ "." ++ toString (t % 10) ++ "K views") ∧
    (∀ (count : JVal) (n : Nat), count = num n ∨ count = str (toString n) →
      1000000 ≤ n → n < 2 ^ 53 →
      ∃ t : Nat, 100000 * t ≤ n + 50000 ∧ n ≤ 100000 * t + 50000 ∧
        formatViewCount count = toString (t / 10) ++ "." ++ toString (t % 10) ++ "M views") ∧
    (∀ count : JVal, parseInt count = JsNum.nan → formatViewCount count = "0 views") ∧
    formatViewCount (num 1234567) = "1.2M views" ∧
    formatViewCount (str "1234567") = "1.2M views" ∧
    formatViewCount (num 1500) = "1.5K views" ∧
    formatViewCount (num 42) = "42 views" ∧
    formatViewCount (num 0) = "0 views" ∧
    formatViewCount undefined = "0 views" ∧
    formatViewCount null = "0 views" ∧
    formatViewCount (str "") = "0 views" ∧
    formatViewCount (str "abc") = "0 views" := by
  have hparse : ∀ (count : JVal) (n : Nat), n ≤ 2 ^ 53 →
      count = num n ∨ count = str (toString n) → parseInt count = JsNum.int n := by
    intro count n hn h
    rcases h with rfl | rfl
    · exact parseInt_natNum n hn
    · exact parseInt_numeral n hn
  refine ⟨?_, ?_, ?_, ?_, rfl, rfl, rfl, rfl, rfl, rfl, rfl, rfl, rfl⟩
  · intro count n h hn
    have hb : n ≤ 2 ^ 53 := by omega
    rw [formatViewCount_of_parseInt count n hb (hparse count n hb h)]
    have a : ¬ (1000000 ≤ n) := by omega
    have b : ¬ (1000 ≤ n) := by omega
    simp only [a, b, if_false]
  · intro count n h h1 h2
    have hb : n ≤ 2 ^ 53 := by omega
    rw [formatViewCount_of_parseInt count n hb (hparse count n hb h)]
    have a : ¬ (1000000 ≤ n) := by omega
    simp only [a, h1, if_false, if_true]
    obtain ⟨t, t1, t2, ht⟩ := toFixed1_quotient n 1000 50 9 rfl (by decide) (by omega)
      (lt_trans h2 (by decide)) (by decide) (by decide) (by decide) (by decide)
    exact ⟨t, t1, t2, by rw [ht]⟩
  · intro count n h h1 h2
    have hb : n ≤ 2 ^ 53 := by omega
    rw [formatViewCount_of_parseInt count n hb (hparse count n hb h)]
    simp only [h1, if_true]
    obtain ⟨t, t1, t2, ht⟩ := toFixed1_quotient n 1000000 50000 19 rfl (by decide) (by omega)
      h2 (by decide) (by decide) (by decide) (by decide)
    exact ⟨t, t1, t2, by rw [ht]⟩
  · intro count h
    unfold formatViewCount
    rw [h]

/-- C29, the failing input: the counts 999950 and 999999 are below one million and are
displayed as `1000.0K views`; 999949 still shows `999.9K views`. -/
theorem formatViewCount_tier_overflow :
    formatViewCount (num 999999) = "1000.0K views" ∧
    formatViewCount (num 999950) = "1000.0K views" ∧
    formatViewCount (num 999949) = "999.9K views" ∧
    formatViewCount (num 1000) = "1.0K views" :=
  ⟨rfl, rfl, rfl, rfl⟩

end HoopHub
